import Mathlib

/-!
TalkingAvator: the multilingual response pipeline.

A shallow embedding of the backend modules `openAI.mjs`, `server.js`,
`lip-sync.mjs`, `rhubarbLipSync.mjs`, `whisper.mjs`, `elevenLabs.mjs` and
`utils/audios.mjs`, and of the frontend helper `visemesMapping.js`, followed
by the properties proved about them.

Conventions of the embedding.

* A JavaScript string is a `String`; the texts considered are well-formed
  Unicode, so a character of the Basic Multilingual Plane is one UTF-16 code
  unit and a character above it is two surrogates, neither of which lies in
  a range tested by the regular expressions of the source.
* An object literal used as a table is an association list on its own keys;
  `table[key] || fallback` is a lookup with a default. Keys are language
  codes and emotion names. In JavaScript `table[key]` also finds the members
  that an object literal inherits from `Object.prototype` (`constructor`,
  `__proto__`, `toString`, ...), which are neither `undefined` nor falsy: the
  lookups by a key that comes from a request (`fallbackResponses[language]`,
  `LANGUAGE_INSTRUCTIONS[language]`, `langSpeeds[language]`,
  `patterns[language]`, `languageFallbacks[language]`,
  `LANGUAGE_MAPPINGS[normalized]`, ...) are embedded for the keys outside
  `Js.objectPrototypeKeys` only, and a general property that depends on the
  result of such a lookup carries that restriction as a hypothesis.
* JavaScript numbers that carry seconds are rationals: the source only
  multiplies a duration by decimal constants, takes maxima and compares.
  The rationals give the exact value where a double gives the nearest
  representable one, so a comparison of two computed times that are equal or
  a rounding error apart as rationals may go the other way in the source
  (`0.03 + 0.26 > 0.29` and `0.12 - 0.1 < 0.02` in doubles). The properties
  about the cues of a processed track are therefore stated where rounding
  cannot change the outcome: on starts that are copied and not computed, and
  on evaluations in which the compared times are equal before any arithmetic.
* A call to an external service is a parameter that gives the outcome of the
  call; a rejected promise or a thrown error is `none` or an error value.
-/

namespace Js

/-- The Unicode data that the JavaScript runtime supplies and the source
relies on: `String.prototype.toLowerCase` and the property escape `\p{L}`. -/
structure Unicode where
  toLowerCase : String → String
  isLetter : Char → Bool
  toLowerCase_empty : toLowerCase "" = ""

/-- The characters matched by `\s` and removed by `trim`: the ECMAScript
WhiteSpace and LineTerminator productions. -/
def isWhiteSpace (c : Char) : Bool :=
  let n := c.toNat
  (0x09 ≤ n && n ≤ 0x0D) || n == 0x20 || n == 0xA0 || n == 0x1680 ||
  (0x2000 ≤ n && n ≤ 0x200A) || n == 0x2028 || n == 0x2029 || n == 0x202F ||
  n == 0x205F || n == 0x3000 || n == 0xFEFF

/-- Removes the leading white space of a list of characters. -/
def trimStartList (l : List Char) : List Char := l.dropWhile isWhiteSpace

/-- Removes the leading and the trailing white space, `trim` on characters. -/
def trimList (l : List Char) : List Char :=
  (trimStartList (trimStartList l).reverse).reverse

/-- The method `String.prototype.trim`. -/
def trim (s : String) : String := ⟨trimList s.data⟩

/-- Substring test on lists of characters. -/
def includesList : List Char → List Char → Bool
  | [], sub => sub.isEmpty
  | c :: cs, sub => sub.isPrefixOf (c :: cs) || includesList cs sub

/-- The method `String.prototype.includes`. -/
def includes (s sub : String) : Bool := includesList s.data sub.data

/-- The names of the members of `Object.prototype`, which every object literal
inherits: for these keys `table[key]` is the inherited function (for
`__proto__`, the prototype object) whatever the literal holds. -/
def objectPrototypeKeys : List String :=
  ["constructor", "__defineGetter__", "__defineSetter__", "hasOwnProperty",
   "__lookupGetter__", "__lookupSetter__", "isPrototypeOf", "propertyIsEnumerable",
   "toString", "valueOf", "__proto__", "toLocaleString"]

/-- The property `length` of a string: its number of UTF-16 code units. -/
def length (s : String) : Nat :=
  (s.data.map (fun c => if 0x10000 ≤ c.toNat then 2 else 1)).sum

/-- The Unicode data restricted to U+0000 to U+00FF (Basic Latin and Latin-1
Supplement); characters above U+00FF are left unchanged by lower-casing and
are not letters here. It stands for the runtime on texts of that block. -/
def latin1 : Unicode where
  toLowerCase := fun s => ⟨s.data.map (fun c =>
    let n := c.toNat
    if (0x41 ≤ n && n ≤ 0x5A) || (0xC0 ≤ n && n ≤ 0xDE && n != 0xD7)
    then Char.ofNat (n + 32) else c)⟩
  isLetter := fun c =>
    let n := c.toNat
    (0x41 ≤ n && n ≤ 0x5A) || (0x61 ≤ n && n ≤ 0x7A) || n == 0xAA || n == 0xB5 ||
    n == 0xBA || (0xC0 ≤ n && n ≤ 0xFF && n != 0xD7 && n != 0xF7)
  toLowerCase_empty := rfl

end Js

/-! ## Data model -/

/-- One mouth cue of a viseme track: `start`, `end` (here `stop`) and `value`,
and the optional fields that the aligner and the lip-sync module attach. A
number that is absent is `none`, a flag that is absent is `false`. -/
structure MouthCue where
  start : ℚ
  stop : ℚ
  value : String
  intensity : Option ℚ := none
  sharpness : Option ℚ := none
  emotionInfluence : Option String := none
  languageTiming : Option ℚ := none
  smoothTransition : Option ℚ := none
  blendFromPrevious : Bool := false
  rounded : Bool := false
  softness : Option ℚ := none
  tonal : Bool := false
  variation : Option ℚ := none
  emphatic : Bool := false
  deriving DecidableEq

/-- The `metadata` object of a viseme track. -/
structure TrackMetadata where
  soundFile : String
  duration : ℚ
  language : Option String := none
  emotion : Option String := none
  fallback : Bool := false
  advanced : Bool := false
  confidence : Option ℚ := none
  emergency : Bool := false
  enhanced : Bool := false
  originalText : Option String := none
  deriving DecidableEq

/-- A viseme track: `metadata` and `mouthCues`. -/
structure VisemeTrack where
  metadata : TrackMetadata
  mouthCues : List MouthCue
  deriving DecidableEq

/-- A reply message as it flows through the pipeline. `none` stands for a
field that is absent or `null`; a `facialExpression` or an `animation` that
is missing is the empty string, which the source treats alike (both are
falsy). -/
structure Message where
  text : String
  facialExpression : String
  animation : String
  language : Option String := none
  audio : Option String := none
  lipsync : Option VisemeTrack := none
  detectedLanguage : Option String := none
  lipSyncLanguage : Option String := none
  lipSyncFallback : Bool := false
  lipSyncError : Bool := false
  detectedEmotion : Option String := none
  emotionIntensity : Option ℚ := none
  suggestedAnimation : Option String := none
  deriving DecidableEq

/-- The eleven language tags the backend announces as supported. -/
def supportedLanguages : List String :=
  ["en", "es", "fr", "de", "it", "pt", "ru", "ja", "zh", "ar", "hi"]

/-! ## `modules/openAI.mjs`: the response generator -/

namespace OpenAI

/-- The table `LANGUAGE_INSTRUCTIONS`. -/
def LANGUAGE_INSTRUCTIONS : List (String × String) :=
  [("en", "Respond in English. Be conversational and engaging."),
   ("es", "Responde SOLO en español. Sé conversacional y atractivo. Usa un español natural y fluido."),
   ("fr", "Répondez UNIQUEMENT en français. Soyez conversationnel et engageant. Utilisez un français naturel et fluide."),
   ("de", "Antworte NUR auf Deutsch. Sei gesprächig und ansprechend. Verwende natürliches und fließendes Deutsch."),
   ("it", "Rispondi SOLO in italiano. Sii colloquiale e coinvolgente. Usa un italiano naturale e fluente."),
   ("pt", "Responda APENAS em português. Seja conversacional e envolvente. Use português natural e fluente."),
   ("ru", "Отвечай ТОЛЬКО на русском языке. Будь разговорчивым и привлекательным. Используй естественный и свободный русский язык."),
   ("ja", "日本語でのみ回答してください。会話的で魅力的であること。自然で流暢な日本語を使用してください。"),
   ("zh", "仅用中文回答。要健谈且有吸引力。使用自然流畅的中文。"),
   ("ar", "أجب باللغة العربية فقط. كن محادثاً وجذاباً. استخدم عربية طبيعية وسلسة."),
   ("hi", "केवल हिंदी में उत्तर दें। बातचीत करने वाले और आकर्षक बनें। प्राकृतिक और धाराप्रवाह हिंदी का उपयोग करें।")]

/-- The facial expressions the prompt and the parser schema enumerate. -/
def facialExpressions : List String :=
  ["smile", "sad", "angry", "surprised", "funnyFace", "default"]

/-- The animations the prompt and the parser schema enumerate. -/
def animations : List String :=
  ["Idle", "TalkingOne", "TalkingThree", "SadIdle", "Defeated", "Angry", "Surprised",
   "DismissingGesture", "ThoughtfulHeadShake"]

/-- One entry of the `messages` array the chain returns. A field is `none`
when it is missing or is not a string (the schema of the output parser admits
strings only, so a `facialExpression` or an `animation` that is present is a
string). -/
structure RawMessage where
  text : Option String
  facialExpression : Option String
  animation : Option String
  deriving DecidableEq

/-- What `openAIChain.invoke` does: it throws, or it resolves to a value
without a `messages` array, or to an object with a `messages` array. -/
inductive ChainOutcome where
  | thrown
  | invalid
  | result (messages : List RawMessage)
  deriving DecidableEq

/-- The external chain, as a function of the `question` and of the
`languageInstruction` it is invoked with. -/
abbrev Chain := String → String → ChainOutcome

/-- A message literal of the fallback tables. -/
def reply (text facialExpression animation : String) : Message :=
  { text := text, facialExpression := facialExpression, animation := animation }

/-- One language entry of `fallbackResponses`: six `messages` arrays. -/
structure Responses where
  hello : List Message
  howAreYou : List Message
  weather : List Message
  travel : List Message
  name : List Message
  generic : List Message

/-- The six arrays of a language entry. -/
def Responses.all (r : Responses) : List (List Message) :=
  [r.hello, r.howAreYou, r.weather, r.travel, r.name, r.generic]

/-- The English entry of `fallbackResponses`. -/
def responsesEn (userMessage : String) : Responses where
  hello := [reply "Hello there! It's great to meet you. What's on your mind today?" "smile" "TalkingOne"]
  howAreYou := [reply "I'm doing wonderfully, thank you for asking! How are you doing today?" "smile" "TalkingOne"]
  weather := [reply "I don't have access to current weather data, but I'd love to chat about weather patterns or travel destinations with great climates!" "smile" "TalkingOne"]
  travel := [reply "Ah, travel! One of my favorite topics. I've been fortunate to explore many places around the world." "smile" "TalkingOne",
             reply "Where are you thinking of going, or would you like some travel recommendations?" "smile" "TalkingThree"]
  name := [reply "I'm Jack! I'm a digital human who loves traveling and meeting new people. What's your name?" "smile" "TalkingOne"]
  generic := [reply ("That's interesting! You mentioned \"" ++ userMessage ++ "\". I'd love to learn more about that.") "smile" "TalkingOne",
              reply "Tell me more about what you're thinking, and I'll do my best to help!" "smile" "TalkingThree"]

/-- The Spanish entry of `fallbackResponses`. -/
def responsesEs (userMessage : String) : Responses where
  hello := [reply "¡Hola! Es genial conocerte. ¿Qué tienes en mente hoy?" "smile" "TalkingOne"]
  howAreYou := [reply "¡Estoy muy bien, gracias por preguntar! ¿Cómo estás tú hoy?" "smile" "TalkingOne"]
  weather := [reply "No tengo acceso a datos meteorológicos actuales, ¡pero me encantaría hablar sobre patrones climáticos o destinos de viaje con excelentes climas!" "smile" "TalkingOne"]
  travel := [reply "¡Ah, viajar! Uno de mis temas favoritos. He tenido la fortuna de explorar muchos lugares alrededor del mundo." "smile" "TalkingOne",
             reply "¿A dónde estás pensando ir, o te gustaría algunas recomendaciones de viaje?" "smile" "TalkingThree"]
  name := [reply "¡Soy Jack! Soy un humano digital que ama viajar y conocer gente nueva. ¿Cómo te llamas?" "smile" "TalkingOne"]
  generic := [reply ("¡Eso es interesante! Mencionaste \"" ++ userMessage ++ "\". Me encantaría saber más sobre eso.") "smile" "TalkingOne",
              reply "¡Cuéntame más sobre lo que estás pensando, y haré mi mejor esfuerzo para ayudar!" "smile" "TalkingThree"]

/-- The French entry of `fallbackResponses`. -/
def responsesFr (userMessage : String) : Responses where
  hello := [reply "Bonjour ! C'est formidable de vous rencontrer. À quoi pensez-vous aujourd'hui ?" "smile" "TalkingOne"]
  howAreYou := [reply "Je vais très bien, merci de demander ! Comment allez-vous aujourd'hui ?" "smile" "TalkingOne"]
  weather := [reply "Je n'ai pas accès aux données météorologiques actuelles, mais j'adorerais parler des modèles météorologiques ou des destinations de voyage avec d'excellents climats !" "smile" "TalkingOne"]
  travel := [reply "Ah, les voyages ! L'un de mes sujets préférés. J'ai eu la chance d'explorer de nombreux endroits dans le monde." "smile" "TalkingOne",
             reply "Où pensez-vous aller, ou aimeriez-vous quelques recommandations de voyage ?" "smile" "TalkingThree"]
  name := [reply "Je suis Jack ! Je suis un humain numérique qui aime voyager et rencontrer de nouvelles personnes. Comment vous appelez-vous ?" "smile" "TalkingOne"]
  generic := [reply ("C'est intéressant ! Vous avez mentionné \"" ++ userMessage ++ "\". J'aimerais en savoir plus à ce sujet.") "smile" "TalkingOne",
              reply "Dites-moi en plus sur ce à quoi vous pensez, et je ferai de mon mieux pour vous aider !" "smile" "TalkingThree"]

/-- The German entry of `fallbackResponses`. -/
def responsesDe (userMessage : String) : Responses where
  hello := [reply "Hallo! Es ist toll, Sie kennenzulernen. Was beschäftigt Sie heute?" "smile" "TalkingOne"]
  howAreYou := [reply "Mir geht es wunderbar, danke der Nachfrage! Wie geht es Ihnen denn heute?" "smile" "TalkingOne"]
  weather := [reply "Ich habe keinen Zugang zu aktuellen Wetterdaten, aber ich würde gerne über Wettermuster oder Reiseziele mit tollen Klimabedingungen sprechen!" "smile" "TalkingOne"]
  travel := [reply "Ah, Reisen! Eines meiner Lieblingsthemen. Ich hatte das Glück, viele Orte auf der ganzen Welt zu erkunden." "smile" "TalkingOne",
             reply "Wo möchten Sie hinreisen, oder hätten Sie gerne einige Reiseempfehlungen?" "smile" "TalkingThree"]
  name := [reply "Ich bin Jack! Ich bin ein digitaler Mensch, der gerne reist und neue Leute kennenlernt. Wie heißen Sie?" "smile" "TalkingOne"]
  generic := [reply ("Das ist interessant! Sie erwähnten \"" ++ userMessage ++ "\". Ich würde gerne mehr darüber erfahren.") "smile" "TalkingOne",
              reply "Erzählen Sie mir mehr über Ihre Gedanken, und ich werde mein Bestes geben, um zu helfen!" "smile" "TalkingThree"]

/-- The table `fallbackResponses` of `createContextualFallback`: it has an
entry for `en`, `es`, `fr` and `de` only. -/
def fallbackResponses (userMessage : String) : List (String × Responses) :=
  [("en", responsesEn userMessage), ("es", responsesEs userMessage),
   ("fr", responsesFr userMessage), ("de", responsesDe userMessage)]

/-- Keywords of the greeting group. -/
def helloKeywords : List String :=
  ["hello", "hi", "hey", "hola", "bonjour", "hallo", "ciao", "olá", "привет",
   "こんにちは", "你好", "مرحبا", "नमस्ते"]

/-- Keywords of the how-are-you group. -/
def howAreYouKeywords : List String :=
  ["how are you", "como estas", "comment allez", "wie geht", "come stai", "como está",
   "как дела", "元気", "你好吗", "كيف حالك", "कैसे हैं"]

/-- Keywords of the weather group. -/
def weatherKeywords : List String :=
  ["weather", "clima", "temps", "wetter", "tempo", "погода", "天気", "天气", "طقس", "मौसम"]

/-- Keywords of the travel group. -/
def travelKeywords : List String :=
  ["travel", "trip", "viaje", "voyage", "reise", "viaggio", "viagem", "путешествие",
   "旅行", "سفر", "यात्रा"]

/-- Keywords of the name group. -/
def nameKeywords : List String :=
  ["name", "nombre", "nom", "name", "nome", "имя", "名前", "名字", "اسم", "नाम"]

/-- The function `createContextualFallback`; it returns the `messages` array
of the object the source returns. It embeds the source for a `language`
outside `Js.objectPrototypeKeys`; for one of these names
`fallbackResponses[language]` is an inherited member, which has no `hello`,
`howAreYou`, `weather`, `travel` or `generic` entry (and whose `name`, when it
has one, is a string), and the source returns `undefined` where this
definition returns a reply. -/
def createContextualFallback (U : Js.Unicode) (userMessage language : String) : List Message :=
  let lowerMessage := Js.trim (U.toLowerCase userMessage)
  let responses := ((fallbackResponses userMessage).lookup language).getD (responsesEn userMessage)
  if helloKeywords.any (Js.includes lowerMessage) then responses.hello
  else if howAreYouKeywords.any (Js.includes lowerMessage) then responses.howAreYou
  else if weatherKeywords.any (Js.includes lowerMessage) then responses.weather
  else if travelKeywords.any (Js.includes lowerMessage) then responses.travel
  else if nameKeywords.any (Js.includes lowerMessage) then responses.name
  else responses.generic

/-- The body of the `map` callback that validates one message of the chain;
`none` is the thrown error `Message i missing valid text`. -/
def validateMessage (language : String) (message : RawMessage) : Option Message :=
  match message.text with
  | none => none
  | some text =>
    if text = "" then none
    else some
      { text := Js.trim text
        facialExpression :=
          match message.facialExpression with
          | some e => if e = "" then "default" else e
          | none => "default"
        animation :=
          match message.animation with
          | some a => if a = "" then "Idle" else a
          | none => "Idle"
        language := some language }

/-- The call `result.messages.map(...)` of `processUserInput`, whose callback
throws at the first message without a valid text (`none`). -/
def validateMessages (language : String) : List RawMessage → Option (List Message)
  | [] => some []
  | message :: rest =>
    match validateMessage language message with
    | none => none
    | some validated =>
      match validateMessages language rest with
      | none => none
      | some validatedRest => some (validated :: validatedRest)

/-- The expression `LANGUAGE_INSTRUCTIONS[language] || LANGUAGE_INSTRUCTIONS['en']`,
for a `language` outside `Js.objectPrototypeKeys` (for one of these names the
expression is the inherited member and not a string). -/
def languageInstruction (language : String) : String :=
  (LANGUAGE_INSTRUCTIONS.lookup language).getD "Respond in English. Be conversational and engaging."

/-- The function `processUserInput`; it returns the `messages` array of the
object the source returns. Every error of the `try` block leads to the
contextual fallback. -/
def processUserInput (U : Js.Unicode) (openAIChain : Chain) (userMessage language : String) :
    List Message :=
  let cleanMessage := Js.trim userMessage
  if cleanMessage = "" then createContextualFallback U userMessage language
  else
    match openAIChain cleanMessage (languageInstruction language) with
    | .thrown => createContextualFallback U userMessage language
    | .invalid => createContextualFallback U userMessage language
    | .result messages =>
      match validateMessages language messages with
      | none => createContextualFallback U userMessage language
      | some validatedMessages => validatedMessages

/-- The messages are one of the six replies of the entry that
`fallbackResponses` holds for `language`: the reply is written in that
language. -/
def repliesInLanguage (userMessage language : String) (messages : List Message) : Prop :=
  ∃ r, (fallbackResponses userMessage).lookup language = some r ∧ messages ∈ r.all

end OpenAI

/-! ## Regular expressions and word splitting used by the language detectors -/

namespace Js

/-- A regular expression of the shapes the detectors use: a sequence of
character classes, optionally anchored at the end of the input by `$`. -/
structure Pattern where
  atoms : List (List Char)
  atEnd : Bool

/-- The pattern `/s/` for a literal `s`. -/
def Pattern.lit (s : String) : Pattern := ⟨s.data.map (fun c => [c]), false⟩

/-- The pattern `/s$/` for a literal `s`. -/
def Pattern.litEnd (s : String) : Pattern := ⟨s.data.map (fun c => [c]), true⟩

/-- Whether the atoms match at the head of the input (and, when anchored,
use it up). -/
def matchHere : List (List Char) → Bool → List Char → Bool
  | [], atEnd, rest => !atEnd || rest.isEmpty
  | _ :: _, _, [] => false
  | a :: as, atEnd, c :: cs => a.contains c && matchHere as atEnd cs

/-- Whether the pattern matches somewhere in the input. -/
def Pattern.testList (p : Pattern) : List Char → Bool
  | [] => matchHere p.atoms p.atEnd []
  | c :: cs => matchHere p.atoms p.atEnd (c :: cs) || Pattern.testList p cs

/-- The value of `(s.match(pattern) || []).length` for a pattern without the
`g` flag and without groups: 1 when the pattern matches, 0 otherwise. -/
def Pattern.matchLength (p : Pattern) (s : String) : Nat :=
  if p.testList s.data then 1 else 0

/-- Whether the string has a character whose code lies in `[lo, hi]`: the
test `/[\ulo-\uhi]/.test(s)`. -/
def hasCharIn (lo hi : Nat) (s : String) : Bool :=
  s.data.any (fun c => lo ≤ c.toNat && c.toNat ≤ hi)

/-- The expression `text.toLowerCase().replace(/[^\p{L}\s]/gu, '')`. -/
def cleanText (U : Unicode) (text : String) : String :=
  ⟨(U.toLowerCase text).data.filter (fun c => U.isLetter c || isWhiteSpace c)⟩

/-- Splitting on `/\s+/`: `cur` is the piece being read, in reverse, and
`inRun` tells that the previous character was white space. -/
def splitAux : List Char → List Char → Bool → List String
  | [], cur, _ => [⟨cur.reverse⟩]
  | c :: cs, cur, inRun =>
    if isWhiteSpace c then
      if inRun then splitAux cs [] true else ⟨cur.reverse⟩ :: splitAux cs [] true
    else splitAux cs (c :: cur) false

/-- The expression `s.split(/\s+/)`. -/
def splitWhiteSpace (s : String) : List String := splitAux s.data [] false

/-- The value of `a || b` for an optional string and a string: `b` when `a`
is absent or empty. -/
def orElse (a : Option String) (b : String) : String :=
  match a with
  | some v => if v = "" then b else v
  | none => b

/-- The call `Math.max(x, ...xs)` on integers. -/
def mathMax (x : Int) (xs : List Int) : Int := xs.foldl max x

end Js

/-- The five script tests shared by the three language detectors, in the
order of the source, with the tag each one returns. -/
def scriptRanges : List (Nat × Nat × String) :=
  [(0x4e00, 0x9fff, "zh"), (0x3040, 0x30ff, "ja"), (0x0600, 0x06ff, "ar"),
   (0x0900, 0x097f, "hi"), (0x0400, 0x04ff, "ru")]

/-! ## `server.js`: language detection and the `/tts` fallback -/

namespace Server

/-- An entry of `languagePatterns`. -/
structure LangConfig where
  words : List String
  patterns : List Js.Pattern

/-- The table `languagePatterns` of `detectLanguage`, as the file has it. -/
def languagePatterns : List (String × LangConfig) :=
  [("es",
    { words := ["el", "la", "de", "que", "y", "en", "un", "es", "se", "no", "te", "lo"]
      patterns := [.lit "Ã\u00b1", .litEnd "ciÃ\u00b3n", .lit "Â\u00bf", .lit "Â\u00a1"] }),
  ("fr",
    { words := ["le", "de", "et", "Ã\u00a0", "un", "il", "que", "pour", "dans", "ce"]
      patterns := [.lit "Ã\u00a7", .lit "Ã\u00a8", .lit "Ã\u00a9", .lit "Ã\u00aa", .lit "Ã\u00a0", .lit "Ã\u00a2"] }),
  ("de",
    { words := ["der", "die", "und", "in", "den", "von", "zu", "das", "mit", "sich"]
      patterns := [.lit "ÃŸ", .lit "Ã\u00a4", .lit "Ã\u00b6", .lit "Ã\u00bc", .lit "sch"] }),
  ("it",
    { words := ["il", "di", "che", "e", "la", "per", "un", "in", "con", "del"]
      patterns := [.lit "gli", .lit "gn", .litEnd "zione"] }),
  ("pt",
    { words := ["o", "de", "a", "e", "do", "da", "em", "um", "para", "com"]
      patterns := [.lit "Ã\u00a3", .lit "Ã\u00b5", .lit "Ã\u00a7", .lit "lh", .lit "nh"] })]

/-- The score `detectLanguage` gives to one candidate. -/
def score (config : LangConfig) (cleanText : String) (words : List String) : Int :=
  ((words.filter (fun word => config.words.contains word)).length * 3 : Nat) +
  ((config.patterns.map (fun pattern => pattern.matchLength cleanText * 2)).sum : Nat)

/-- The object `scores` of `detectLanguage`, in insertion order, computed
from `cleanText`. -/
def scores (cleanText : String) : List (String × Int) :=
  let words := Js.splitWhiteSpace cleanText
  languagePatterns.map (fun p => (p.1, score p.2 cleanText words))

/-- The function `detectLanguage` of `server.js`. -/
def detectLanguage (U : Js.Unicode) (text : String) : String :=
  if Js.hasCharIn 0x4e00 0x9fff text then "zh"
  else if Js.hasCharIn 0x3040 0x309f text || Js.hasCharIn 0x30a0 0x30ff text then "ja"
  else if Js.hasCharIn 0x0600 0x06ff text then "ar"
  else if Js.hasCharIn 0x0900 0x097f text then "hi"
  else if Js.hasCharIn 0x0400 0x04ff text then "ru"
  else
    let scores := scores (Js.cleanText U text)
    let maxScore := Js.mathMax ((scores.map Prod.snd).headD 0) ((scores.map Prod.snd).tail)
    if maxScore < 2 then "en"
    else ((scores.find? (fun p => p.2 == maxScore)).map Prod.fst).getD "en"

end Server

/-! ## `visemesMapping.js`: the frontend language detector -/

namespace VisemesMapping

/-- An entry of `languagePatterns`. -/
structure LangConfig where
  words : List String
  patterns : List Js.Pattern
  negativePatterns : List Js.Pattern

/-- The table `languagePatterns` of `detectLanguage`. -/
def languagePatterns : List (String × LangConfig) :=
  [("es",
    { words := ["el", "la", "de", "que", "y", "en", "un", "es", "se", "no", "te", "lo", "le", "da", "su", "por", "son", "con", "para", "una", "del", "las", "los", "está", "también", "como", "pero", "más"]
      patterns := [.lit "ñ", .litEnd "ción", .litEnd "dad", .litEnd "mente", .lit "¿", .lit "¡"]
      negativePatterns := [.lit "ç", .lit "ã", .lit "õ", .lit "ü", .lit "ß"] }),
  ("fr",
    { words := ["le", "de", "et", "à", "un", "il", "être", "avoir", "que", "pour", "dans", "ce", "son", "une", "sur", "avec", "ne", "se", "pas", "tout", "plus", "par", "grand", "en", "si", "me", "même"]
      patterns := [.lit "ç", .lit "è", .lit "é", .lit "ê", .lit "ë", .lit "à", .lit "â", .lit "ù", .lit "û", .lit "î", .lit "ï", .lit "ô", .lit "œ"]
      negativePatterns := [.lit "ñ", .lit "ã", .lit "õ", .lit "ß"] }),
  ("de",
    { words := ["der", "die", "und", "in", "den", "von", "zu", "das", "mit", "sich", "des", "auf", "für", "ist", "im", "dem", "nicht", "ein", "eine", "als", "auch", "nach", "wird", "an", "werden", "aus", "er", "hat", "dass"]
      patterns := [.lit "ß", .lit "ä", .lit "ö", .lit "ü", .lit "sch", .lit "tsch", .litEnd "ung", .litEnd "heit", .litEnd "keit"]
      negativePatterns := [.lit "ñ", .lit "ç", .lit "ã", .lit "õ"] }),
  ("it",
    { words := ["il", "di", "che", "e", "la", "per", "un", "in", "con", "del", "da", "a", "al", "le", "si", "dei", "su", "come", "anche", "nel", "della", "gli", "una", "delle", "alla", "più", "sono"]
      patterns := [.lit "gli", .lit "gn", ⟨[['s'], ['c'], ['e', 'h', 'i']], false⟩, .litEnd "zione", .litEnd "mente", .litEnd "ità"]
      negativePatterns := [.lit "ñ", .lit "ç", .lit "ã", .lit "õ", .lit "ß"] }),
  ("pt",
    { words := ["o", "de", "a", "e", "do", "da", "em", "um", "para", "com", "não", "uma", "os", "no", "se", "na", "por", "mais", "as", "dos", "como", "mas", "foi", "ao", "ele", "das", "tem", "seu"]
      patterns := [.lit "ã", .lit "õ", .lit "ç", .lit "lh", .lit "nh", .litEnd "ção", .litEnd "mente"]
      negativePatterns := [.lit "ñ", .lit "ß", .lit "ü"] })]

/-- The score of one candidate before it is stored: word matches, pattern
matches and the penalty of the negative patterns, clamped at 0. -/
def score (config : LangConfig) (cleanText : String) (words : List String) : Int :=
  max 0
    (((words.filter (fun word => config.words.contains word)).length * 3 : Nat) +
     ((config.patterns.map (fun pattern => pattern.matchLength cleanText * 2)).sum : Nat) -
     ((config.negativePatterns.map (fun pattern => pattern.matchLength cleanText * 3)).sum : Nat))

/-- The object `scores` of `detectLanguage`, in insertion order, computed
from `cleanText`. -/
def scores (cleanText : String) : List (String × Int) :=
  let words := (Js.splitWhiteSpace cleanText).filter (fun word => decide (Js.length word > 1))
  languagePatterns.map (fun p => (p.1, score p.2 cleanText words))

/-- The function `detectLanguage` of `visemesMapping.js`. -/
def detectLanguage (U : Js.Unicode) (text : String) : String :=
  if Js.hasCharIn 0x4e00 0x9fff text then "zh"
  else if Js.hasCharIn 0x3040 0x309f text || Js.hasCharIn 0x30a0 0x30ff text then "ja"
  else if Js.hasCharIn 0x0600 0x06ff text then "ar"
  else if Js.hasCharIn 0x0900 0x097f text then "hi"
  else if Js.hasCharIn 0x0400 0x04ff text then "ru"
  else
    let scores := scores (Js.cleanText U text)
    let maxScore := Js.mathMax ((scores.map Prod.snd).headD 0) ((scores.map Prod.snd).tail)
    let detectedLang := (scores.find? (fun p => p.2 == maxScore)).map Prod.fst
    if maxScore < 2 then "en"
    else detectedLang.getD "en"

end VisemesMapping

/-! ## `rhubarbLipSync.mjs`: the degraded path of the aligner -/

namespace Rhubarb

/-- An entry of `EMOTION_PHONEME_MODIFIERS` (the two multipliers). -/
structure EmotionModifier where
  vowelIntensity : ℚ
  consonantSharpness : ℚ

/-- The table `EMOTION_PHONEME_MODIFIERS`. -/
def EMOTION_PHONEME_MODIFIERS : List (String × EmotionModifier) :=
  [("happy", ⟨12/10, 11/10⟩), ("sad", ⟨8/10, 9/10⟩), ("angry", ⟨13/10, 14/10⟩),
   ("surprised", ⟨11/10, 12/10⟩), ("fear", ⟨9/10, 11/10⟩), ("default", ⟨1, 1⟩)]

/-- The table `langSpeeds` of `estimateTextDuration`. -/
def langSpeeds : List (String × ℚ) :=
  [("en", 8/100), ("es", 9/100), ("fr", 7/100), ("de", 6/100), ("it", 8/100),
   ("pt", 9/100), ("ru", 5/100), ("ja", 12/100), ("zh", 10/100), ("ar", 7/100),
   ("hi", 8/100)]

/-- The function `estimateTextDuration`, for a `language` outside
`Js.objectPrototypeKeys`; for one of these names `langSpeeds[language]` is an
inherited function and the product is `NaN`. -/
def estimateTextDuration (text language : String) : ℚ :=
  if text = "" then 1
  else
    let speed := (langSpeeds.lookup language).getD (8/100)
    max (Js.length text * speed) (1/2)

/-- The function `createLanguageFallbackPattern`, for a `language` outside
`Js.objectPrototypeKeys`; for one of these names `patterns[language]` is an
inherited member and not an array of cues. -/
def createLanguageFallbackPattern (language _emotion : String) (duration : ℚ) : List MouthCue :=
  let patterns : List (String × List MouthCue) :=
    [("en", [{ start := 0, stop := duration * (3/10), value := "D" },
             { start := duration * (3/10), stop := duration * (6/10), value := "C" },
             { start := duration * (6/10), stop := duration, value := "A" }]),
     ("es", [{ start := 0, stop := duration * (4/10), value := "D", intensity := some (11/10) },
             { start := duration * (4/10), stop := duration * (7/10), value := "E", intensity := some 1 },
             { start := duration * (7/10), stop := duration, value := "A", intensity := some (8/10) }]),
     ("fr", [{ start := 0, stop := duration * (35/100), value := "F", intensity := some (9/10) },
             { start := duration * (35/100), stop := duration * (65/100), value := "E", intensity := some 1 },
             { start := duration * (65/100), stop := duration, value := "A", intensity := some (7/10) }]),
     ("de", [{ start := 0, stop := duration * (4/10), value := "C", intensity := some (12/10) },
             { start := duration * (4/10), stop := duration * (7/10), value := "D", intensity := some 1 },
             { start := duration * (7/10), stop := duration, value := "A", intensity := some (8/10) }])]
  (patterns.lookup language).getD
    [{ start := 0, stop := duration * (3/10), value := "D" },
     { start := duration * (3/10), stop := duration * (6/10), value := "C" },
     { start := duration * (6/10), stop := duration, value := "A" }]

/-- The value of `x || 1.0` for an optional number: absent and 0 give 1. -/
def orOne (x : Option ℚ) : ℚ :=
  match x with
  | some v => if v = 0 then 1 else v
  | none => 1

/-- The function `createAdvancedFallback`: the object `fallbackData` that it
builds and serialises to `jsonPath`, for a `language` outside
`Js.objectPrototypeKeys`; for one of these names `fallbackPattern.map` is not
a function, the call throws and `getPhonemes` writes the emergency track
instead. -/
def createAdvancedFallback (message : Nat) (language emotion text : String) : VisemeTrack :=
  let duration := estimateTextDuration text language
  let emotionModifier := (EMOTION_PHONEME_MODIFIERS.lookup emotion).getD ⟨1, 1⟩
  let fallbackPattern := createLanguageFallbackPattern language emotion duration
  { metadata :=
      { soundFile := "audios/message_" ++ toString message ++ ".wav"
        duration := duration
        language := some language
        emotion := some emotion
        fallback := true
        advanced := true
        confidence := some (6/10) }
    mouthCues := fallbackPattern.map (fun cue =>
      { cue with
        intensity := some (orOne cue.intensity * emotionModifier.vowelIntensity)
        emotionInfluence := some emotion }) }

end Rhubarb

/-! ## `lip-sync.mjs`: synthesis and alignment of the messages of a reply -/

namespace LipSync

/-- The constant `MAX_RETRIES`. -/
def MAX_RETRIES : Nat := 10

/-- The constant `RETRY_DELAY`, in milliseconds. -/
def RETRY_DELAY : Nat := 100

/-- An entry of `languagePatterns`. -/
structure LangConfig where
  words : List String
  patterns : List Js.Pattern

/-- The table `languagePatterns` of `detectLanguageFromText`. -/
def languagePatterns : List (String × LangConfig) :=
  [("es",
    { words := ["el", "la", "de", "que", "y", "en", "un", "es", "se", "no"]
      patterns := [.lit "ñ", .litEnd "ción", .lit "¿", .lit "¡"] }),
  ("fr",
    { words := ["le", "de", "et", "à", "un", "il", "que", "pour", "dans"]
      patterns := [.lit "ç", .lit "è", .lit "é", .lit "ê", .lit "à", .lit "â"] }),
  ("de",
    { words := ["der", "die", "und", "in", "den", "von", "zu", "das"]
      patterns := [.lit "ß", .lit "ä", .lit "ö", .lit "ü", .lit "sch"] }),
  ("it",
    { words := ["il", "di", "che", "e", "la", "per", "un", "in"]
      patterns := [.lit "gli", .lit "gn", .litEnd "zione"] }),
  ("pt",
    { words := ["o", "de", "a", "e", "do", "da", "em", "um"]
      patterns := [.lit "ã", .lit "õ", .lit "ç", .lit "lh", .lit "nh"] })]

/-- The score `detectLanguageFromText` gives to one candidate. -/
def score (config : LangConfig) (cleanText : String) (words : List String) : Int :=
  ((words.filter (fun word => config.words.contains word)).length * 3 : Nat) +
  ((config.patterns.map (fun pattern => pattern.matchLength cleanText * 2)).sum : Nat)

/-- The function `detectLanguageFromText`. The `forEach` loop carries the
pair of `maxScore` and `detectedLang`. -/
def detectLanguageFromText (U : Js.Unicode) (text : String) : String :=
  if Js.hasCharIn 0x4e00 0x9fff text then "zh"
  else if Js.hasCharIn 0x3040 0x309f text || Js.hasCharIn 0x30a0 0x30ff text then "ja"
  else if Js.hasCharIn 0x0600 0x06ff text then "ar"
  else if Js.hasCharIn 0x0900 0x097f text then "hi"
  else if Js.hasCharIn 0x0400 0x04ff text then "ru"
  else
    let cleanText := Js.cleanText U text
    let words := Js.splitWhiteSpace cleanText
    let best := languagePatterns.foldl
      (fun (acc : Int × String) p =>
        let score := score p.2 cleanText words
        if score > acc.1 then (score, p.1) else acc)
      (0, "en")
    if best.1 ≥ 2 then best.2 else "en"

/-- The outcome of one call of `convertTextToSpeech`: it resolves, or it
throws an error whose `response.status` is the given status (`none` when the
error has no `response`). -/
inductive TtsOutcome where
  | ok
  | error (status : Option Nat)
  deriving DecidableEq

/-- What the retry loop of one message did: whether it ended without
throwing, the number of calls of `convertTextToSpeech`, and the delays it
waited, in milliseconds and in order. -/
structure Synthesis where
  succeeded : Bool
  calls : Nat
  delays : List Nat
  deriving DecidableEq

/-- The loop `for (let attempt = 0; attempt < MAX_RETRIES; attempt++)` of one
message, from `attempt` on, with `remaining` iterations left; `tts k` is the
outcome of the call made at attempt `k`. -/
def synthesizeFrom (detectedLanguage : String) (tts : Nat → TtsOutcome) :
    Nat → Nat → Synthesis
  | 0, _ => { succeeded := true, calls := 0, delays := [] }
  | remaining + 1, attempt =>
    match tts attempt with
    | .ok =>
      let languageDelay :=
        if ["zh", "ja", "ar", "hi"].contains detectedLanguage then RETRY_DELAY * 2 else RETRY_DELAY
      { succeeded := true, calls := 1, delays := [languageDelay] }
    | .error status =>
      if status = some 429 ∧ attempt < MAX_RETRIES - 1 then
        let backoffDelay := RETRY_DELAY * 2 ^ attempt
        let rest := synthesizeFrom detectedLanguage tts remaining (attempt + 1)
        { succeeded := rest.succeeded, calls := rest.calls + 1, delays := backoffDelay :: rest.delays }
      else if attempt = MAX_RETRIES - 1 then
        { succeeded := false, calls := 1, delays := [] }
      else
        let rest := synthesizeFrom detectedLanguage tts remaining (attempt + 1)
        { succeeded := rest.succeeded, calls := rest.calls + 1, delays := rest.delays }

/-- The retry loop of one message, from its first attempt. -/
def synthesize (detectedLanguage : String) (tts : Nat → TtsOutcome) : Synthesis :=
  synthesizeFrom detectedLanguage tts MAX_RETRIES 0

/-- The outcomes of the calls the alignment callback of one message makes:
`getPhonemes` resolves or throws, `audioFileToBase64` gives the audio or
throws, `readJsonTranscript` gives the track stored in the JSON file or
throws, and `audioFileToBase64` is called again in the `catch` block. -/
structure PhonemeOutcome where
  getPhonemes : Bool
  audio : Option String
  transcript : Option VisemeTrack
  audioRetry : Option String

/-- The external world of one run of `lipSync`: the outcome of each call of
`convertTextToSpeech` (message index, attempt), the outcomes of the alignment
calls of each message, and `Math.sin(x * Math.PI)`. -/
structure Env where
  tts : Nat → Nat → TtsOutcome
  phonemes : Nat → PhonemeOutcome
  sinPi : ℚ → ℚ

/-- The function `enhanceMouthCuesForLanguage`. -/
def enhanceMouthCuesForLanguage (sinPi : ℚ → ℚ) (mouthCues : List MouthCue) (language : String) :
    List MouthCue :=
  mouthCues.map (fun cue =>
    if language = "es" then
      if ["A", "E", "I", "O", "U"].contains cue.value then
        { cue with intensity := some (Rhubarb.orOne cue.intensity * (11/10)) }
      else cue
    else if language = "fr" then
      if ["O", "U"].contains cue.value then
        { cue with rounded := true, intensity := some (Rhubarb.orOne cue.intensity * (105/100)) }
      else cue
    else if language = "de" then
      if ["B", "C", "G"].contains cue.value then { cue with sharpness := some (12/10) } else cue
    else if language = "ja" then
      { cue with intensity := some (Rhubarb.orOne cue.intensity * (9/10)), softness := some (11/10) }
    else if language = "zh" then
      { cue with tonal := true, variation := some (sinPi cue.start * (1/10) + 1) }
    else if language = "ar" then
      if ["B", "C", "G"].contains cue.value then
        { cue with emphatic := true, intensity := some (Rhubarb.orOne cue.intensity * (115/100)) }
      else cue
    else cue)

/-- The function `createLanguageFallback`, for a `language` outside
`Js.objectPrototypeKeys`; for one of these names `mouthCues` is the inherited
member and not an array of cues. -/
def createLanguageFallback (language text : String) : VisemeTrack :=
  let duration : ℚ := max (Js.length text * (8/100)) 1
  let languageFallbacks : List (String × List MouthCue) :=
    [("en", [{ start := 0, stop := duration * (3/10), value := "D" },
             { start := duration * (3/10), stop := duration * (6/10), value := "C" },
             { start := duration * (6/10), stop := duration, value := "A" }]),
     ("es", [{ start := 0, stop := duration * (4/10), value := "D" },
             { start := duration * (4/10), stop := duration * (7/10), value := "E" },
             { start := duration * (7/10), stop := duration, value := "A" }]),
     ("fr", [{ start := 0, stop := duration * (3/10), value := "F" },
             { start := duration * (3/10), stop := duration * (6/10), value := "E" },
             { start := duration * (6/10), stop := duration, value := "A" }]),
     ("de", [{ start := 0, stop := duration * (4/10), value := "C" },
             { start := duration * (4/10), stop := duration * (7/10), value := "D" },
             { start := duration * (7/10), stop := duration, value := "A" }]),
     ("ja", [{ start := 0, stop := duration * (5/10), value := "D" },
             { start := duration * (5/10), stop := duration, value := "A" }]),
     ("zh", [{ start := 0, stop := duration * (6/10), value := "D" },
             { start := duration * (6/10), stop := duration, value := "A" }])]
  let pattern := (languageFallbacks.lookup language).getD
    [{ start := 0, stop := duration * (3/10), value := "D" },
     { start := duration * (3/10), stop := duration * (6/10), value := "C" },
     { start := duration * (6/10), stop := duration, value := "A" }]
  { metadata :=
      { soundFile := "message_audio.wav"
        duration := duration
        language := some language
        fallback := true }
    mouthCues := pattern }

/-- The language a callback of `lipSync` works with. -/
def detectedLanguageOf (U : Js.Unicode) (language : String) (message : Message) : String :=
  if language = "auto" then detectLanguageFromText U message.text else language

/-- The alignment callback of `lipSync` (the second `messages.map`), as the
change it makes to its message. -/
def alignMessage (U : Js.Unicode) (env : Env) (language : String) (index : Nat)
    (message : Message) : Message :=
  let detectedLanguage := detectedLanguageOf U language message
  let o := env.phonemes index
  match o.getPhonemes, o.audio, o.transcript with
  | true, some audio, some transcript =>
    { message with
      audio := some audio
      lipsync := some
        { transcript with
          mouthCues := enhanceMouthCuesForLanguage env.sinPi transcript.mouthCues detectedLanguage }
      detectedLanguage := some detectedLanguage
      lipSyncLanguage := some detectedLanguage }
  | _, _, _ =>
    let fallbackLipSync := createLanguageFallback detectedLanguage message.text
    match o.audioRetry with
    | some audio =>
      { message with
        audio := some audio
        lipsync := some fallbackLipSync
        detectedLanguage := some detectedLanguage
        lipSyncFallback := true }
    | none =>
      { message with audio := none, lipsync := none, lipSyncError := true }

/-- Applies `f` to the element at position `i`, the effect of a callback
that mutates `messages[i]`. -/
def updateAt (f : Message → Message) : Nat → List Message → List Message
  | _, [] => []
  | 0, m :: ms => f m :: ms
  | i + 1, m :: ms => m :: updateAt f i ms

/-- Whether the synthesis callback (the first `messages.map`) of every
message ends without throwing. -/
def allSynthesized (U : Js.Unicode) (env : Env) (language : String) (messages : List Message) : Bool :=
  (List.range messages.length).all (fun index =>
    match messages.get? index with
    | some message => (synthesize (detectedLanguageOf U language message) (env.tts index)).succeeded
    | none => true)

/-- The function `lipSync`. The first `Promise.all` rejects, and `lipSync`
with it (`none`), when the synthesis of a message throws. Otherwise the
alignment callbacks run; `schedule` is the order in which they complete, a
permutation of the indices, and each one mutates its own message. -/
def lipSync (U : Js.Unicode) (env : Env) (schedule : List Nat) (messages : List Message)
    (language : String) : Option (List Message) :=
  if allSynthesized U env language messages then
    some (schedule.foldl (fun ms index => updateAt (alignMessage U env language index) index ms)
      messages)
  else none

end LipSync

namespace Server

/-- The end of the `/tts` handler: the `try` around `lipSync` and its `catch`,
which sends the messages with `audio` and `lipsync` set to `null`. It returns
the `messages` of the response. -/
def ttsMessages (U : Js.Unicode) (env : LipSync.Env) (schedule : List Nat)
    (enhancedMessages : List Message) (detectedLanguage : String) : List Message :=
  match LipSync.lipSync U env schedule enhancedMessages detectedLanguage with
  | some processedMessages => processedMessages
  | none => enhancedMessages.map (fun msg => { msg with audio := none, lipsync := none })

end Server

/-! ## `rhubarbLipSync.mjs`: post-processing of the phoneme cues -/

namespace Rhubarb

/-- The field `smoothingFactor` of the table `LANGUAGE_CONFIGS`. -/
def smoothingFactors : List (String × ℚ) :=
  [("en", 3/10), ("es", 4/10), ("fr", 4/10), ("de", 35/100), ("it", 35/100), ("pt", 4/10),
   ("ru", 5/10), ("ja", 6/10), ("zh", 5/10), ("ar", 6/10), ("hi", 5/10)]

/-- The table `PHONEME_VISEME_MAPPING`. In the entry `fr` the source lists the
key `y` twice; the value of the later one (`F`) is the one the object holds. -/
def PHONEME_VISEME_MAPPING : List (String × List (String × String)) :=
  [("en",
    [("p", "A"), ("b", "A"), ("m", "A"), ("f", "G"), ("v", "G"), ("th", "H"),
     ("dh", "H"), ("t", "C"), ("d", "C"), ("n", "C"), ("l", "C"), ("r", "C"),
     ("s", "C"), ("z", "C"), ("sh", "C"), ("zh", "C"), ("ch", "C"), ("jh", "C"),
     ("k", "B"), ("g", "B"), ("ng", "B"), ("y", "C"), ("w", "F"), ("h", "C"),
     ("aa", "D"), ("ae", "D"), ("ah", "D"), ("ao", "E"), ("ow", "E"), ("uw", "F"),
     ("uh", "F"), ("ih", "E"), ("iy", "E"), ("eh", "E"), ("ey", "E"), ("ax", "D"),
     ("er", "C"), ("sil", "A"), ("sp", "A")]),
   ("es",
    [("p", "A"), ("b", "A"), ("m", "A"), ("f", "G"), ("v", "G"), ("t", "C"),
     ("d", "C"), ("n", "C"), ("l", "C"), ("r", "C"), ("rr", "C"), ("s", "C"),
     ("z", "C"), ("th", "H"), ("ch", "C"), ("y", "C"), ("ll", "C"), ("ñ", "C"),
     ("k", "B"), ("g", "B"), ("j", "B"), ("x", "B"), ("w", "F"), ("a", "D"),
     ("e", "E"), ("i", "E"), ("o", "E"), ("u", "F"), ("sil", "A")]),
   ("fr",
    [("p", "A"), ("b", "A"), ("m", "A"), ("f", "G"), ("v", "G"), ("t", "C"),
     ("d", "C"), ("n", "C"), ("l", "C"), ("r", "C"), ("s", "C"), ("z", "C"),
     ("sh", "C"), ("zh", "C"), ("k", "B"), ("g", "B"), ("y", "F"), ("w", "F"),
     ("gn", "C"), ("a", "D"), ("e", "E"), ("i", "E"), ("o", "E"), ("u", "F"),
     ("an", "D"), ("on", "E"), ("in", "E"), ("un", "F"), ("eu", "F"), ("ou", "F"),
     ("sil", "A")]),
   ("default",
    [("A", "A"), ("B", "B"), ("C", "C"), ("D", "D"), ("E", "E"), ("F", "F"),
     ("G", "G"), ("H", "H"), ("X", "A")])]

/-- The entry `default` of `PHONEME_VISEME_MAPPING`. -/
def defaultMapping : List (String × String) :=
  [("A", "A"), ("B", "B"), ("C", "C"), ("D", "D"), ("E", "E"), ("F", "F"),
     ("G", "G"), ("H", "H"), ("X", "A")]

/-- The table `timingAdjustments` of `applyLanguageTimingAdjustments`:
`multiplier` and `minimumDuration`. -/
def timingAdjustments : List (String × ℚ × ℚ) :=
  [("es", 11/10, 5/100), ("fr", 95/100, 6/100), ("de", 9/10, 7/100), ("it", 105/100, 5/100),
   ("pt", 11/10, 5/100), ("ru", 85/100, 8/100), ("ja", 12/10, 4/100), ("zh", 115/100, 4/100),
   ("ar", 9/10, 6/100), ("hi", 1, 5/100), ("en", 1, 5/100)]

/-- The expression `timingAdjustments[language] || timingAdjustments.en`. -/
def timingAdjustment (language : String) : ℚ × ℚ :=
  (timingAdjustments.lookup language).getD (1, 5/100)

/-- The function `applyLanguageTimingAdjustments`. The new `end` is the exact
value of `start + max(duration × multiplier, minimumDuration)`; the source
computes it in doubles, where it may differ from the exact value by a
rounding error. -/
def applyLanguageTimingAdjustments (cue : MouthCue) (language : String) (duration : ℚ) :
    MouthCue :=
  let adjustment := timingAdjustment language
  let adjustedDuration := max (duration * adjustment.1) adjustment.2
  { cue with stop := cue.start + adjustedDuration, languageTiming := some adjustment.1 }

/-- The pairs `similarVisemes` of `applySmoothingTransitions`. -/
def similarVisemes : List (List String) :=
  [["D", "E"], ["E", "F"], ["B", "C"], ["G", "H"]]

/-- The function `applySmoothingTransitions`. The gap
`currentCue.start - previousCue.end` is exact here; the source computes it in
doubles, so the test `< 0.02` agrees with the source when the computed gap is
not within a rounding error of 0.02. -/
def applySmoothingTransitions (currentCue previousCue : MouthCue) (language : String) :
    MouthCue :=
  let smoothingFactor := (smoothingFactors.lookup language).getD (3/10)
  let areSimilar := similarVisemes.any (fun group =>
    group.contains currentCue.value && group.contains previousCue.value)
  if areSimilar then
    let transitionGap := currentCue.start - previousCue.stop
    if transitionGap < 2/100 then
      { currentCue with smoothTransition := some smoothingFactor, blendFromPrevious := true }
    else currentCue
  else currentCue

/-- The body of the `map` callback of `processPhonemeData` for one cue;
`previous` is `rawData.mouthCues[index - 1]`, absent at index 0. -/
def processCue (U : Js.Unicode) (language emotion : String) (previous : Option MouthCue)
    (cue : MouthCue) : MouthCue :=
  let phoneMapping := (PHONEME_VISEME_MAPPING.lookup language).getD defaultMapping
  let emotionModifier := (EMOTION_PHONEME_MODIFIERS.lookup emotion).getD ⟨1, 1⟩
  let phoneme := cue.value
  let mappedViseme :=
    Js.orElse (phoneMapping.lookup (U.toLowerCase phoneme))
      (Js.orElse (phoneMapping.lookup phoneme) cue.value)
  let duration := cue.stop - cue.start
  let isVowel := ["D", "E", "F"].contains mappedViseme
  let isConsonant := ["B", "C", "G", "H"].contains mappedViseme
  let c1 : MouthCue := { cue with value := mappedViseme }
  let c2 : MouthCue :=
    if isVowel then { c1 with intensity := some (orOne c1.intensity * emotionModifier.vowelIntensity) }
    else c1
  let c3 : MouthCue :=
    if isConsonant then
      { c2 with sharpness := some (orOne c2.sharpness * emotionModifier.consonantSharpness) }
    else c2
  let c4 := applyLanguageTimingAdjustments c3 language duration
  match previous with
  | some previousCue => applySmoothingTransitions c4 previousCue language
  | none => c4

/-- The call `rawData.mouthCues.map((cue, index) => ...)`, with the raw cue
that precedes the head of the list. -/
def processCues (U : Js.Unicode) (language emotion : String) :
    Option MouthCue → List MouthCue → List MouthCue
  | _, [] => []
  | previous, cue :: rest =>
    processCue U language emotion previous cue :: processCues U language emotion (some cue) rest

/-- The function `processPhonemeData`; the field `processingTimestamp` of the
metadata, the time of the call, is left out. -/
def processPhonemeData (U : Js.Unicode) (rawData : VisemeTrack) (language emotion text : String) :
    VisemeTrack :=
  { metadata :=
      { rawData.metadata with
        language := some language
        emotion := some emotion
        enhanced := true
        originalText := some text }
    mouthCues := processCues U language emotion none rawData.mouthCues }

end Rhubarb

/-! ## `whisper.mjs`: the speech transcriber -/

namespace Whisper

/-- The constant `WHISPER_CONFIG.MAX_FILE_SIZE` (25 MB). -/
def MAX_FILE_SIZE : Nat := 26214400

/-- The constant `WHISPER_CONFIG.MIN_FILE_SIZE`. -/
def MIN_FILE_SIZE : Nat := 1000

/-- The constant `WHISPER_CONFIG.LANGUAGE_CONFIDENCE_THRESHOLD`. -/
def LANGUAGE_CONFIDENCE_THRESHOLD : ℚ := 7/10

/-- The language names of `LANGUAGE_MAPPINGS` with their tags. -/
def languageNames : List (String × String) :=
  [("english", "en"), ("spanish", "es"), ("french", "fr"), ("german", "de"),
   ("italian", "it"), ("portuguese", "pt"), ("russian", "ru"), ("japanese", "ja"),
   ("chinese", "zh"), ("arabic", "ar"), ("hindi", "hi")]

/-- The table `LANGUAGE_MAPPINGS`; the value of the key `auto` is `undefined`
(`none`). -/
def LANGUAGE_MAPPINGS : List (String × Option String) :=
  languageNames.map (fun p => (p.1, some p.2)) ++ [("auto", none)] ++
    supportedLanguages.map (fun tag => (tag, some tag))

/-- The test `/^[a-z]{2}$/`. -/
def isTwoLetterCode (s : String) : Bool :=
  s.data.length == 2 && s.data.all (fun c => 0x61 ≤ c.toNat && c.toNat ≤ 0x7A)

/-- The function `normalizeLanguageCode`; `none` is `undefined`, and the empty
string stands for a missing argument. It embeds the source for a string whose
lower-case form is outside `Js.objectPrototypeKeys`; for `constructor` and
`__proto__` the lookup `LANGUAGE_MAPPINGS[normalized]` is the inherited member,
which is not `undefined`, and the source returns it. -/
def normalizeLanguageCode (U : Js.Unicode) (language : String) : Option String :=
  if language = "" ∨ language = "auto" then none
  else
    let normalized := U.toLowerCase language
    match (LANGUAGE_MAPPINGS.lookup normalized).join with
    | some mappedLanguage => some mappedLanguage
    | none => if isTwoLetterCode normalized then some normalized else none

/-- An error object: its `message` and its `status`, when it has one. -/
structure JsError where
  message : String
  status : Option Nat := none
  deriving DecidableEq

/-- What the transcription service returns: `text`, `language` and the
`no_speech_prob` of each of its `segments`. -/
structure Transcription where
  text : Option String
  language : Option String := none
  segments : List ℚ := []
  deriving DecidableEq

/-- The outcome of one call of `openaiClient.audio.transcriptions.create`. -/
inductive ApiOutcome where
  | ok (transcription : Transcription)
  | error (e : JsError)
  deriving DecidableEq

/-- The outcomes of the file operations of one invocation: `writeFileSync`
of the input file, `convertAudioForWhisper`, and the `copyFileSync` that
replaces a failed conversion. -/
structure Files where
  writeError : Option JsError := none
  conversionOk : Bool := true
  copyError : Option JsError := none

/-- The external world of the transcriber: whether `openaiClient` exists, the
outcome of the n-th call of the transcription service made while a request is
handled, and the file operations of the n-th invocation of a transcribing
function. -/
structure Env where
  clientInitialized : Bool
  api : Nat → ApiOutcome
  files : Nat → Files

/-- The three size checks of Step 1 of `convertAudioToText`, on the length of
the audio buffer; `none` when the buffer passes. -/
def validateAudio (length : Nat) : Option JsError :=
  if length = 0 then some { message := "Empty audio data provided" }
  else if length < MIN_FILE_SIZE then
    some { message := "Audio data too small - recording may be empty" }
  else if length > MAX_FILE_SIZE then
    some { message := "Audio data too large - please keep recordings under 25MB" }
  else none

/-- The function `enhanceErrorMessage`; the error it returns has no status. -/
def enhanceErrorMessage (error : JsError) : JsError :=
  let message := if error.message = "" then "Unknown error" else error.message
  if error.status = some 400 then
    { message := "Invalid audio format or corrupted file. Please try recording again." }
  else if error.status = some 413 then
    { message := "Audio file too large (max 25MB). Please record a shorter message." }
  else if error.status = some 429 then
    { message := "Too many requests. Please wait a moment and try again." }
  else if error.status = some 401 ∨ error.status = some 403 then
    { message := "OpenAI API authentication failed. Please check your API key." }
  else if Js.includes message "ENOENT" || Js.includes message "no such file" then
    { message := "Audio file processing failed. Please try recording again." }
  else if Js.includes message "timeout" then
    { message := "Audio processing timed out. Please try a shorter recording." }
  else if Js.includes message "empty" then
    { message := "No speech detected in audio. Please speak clearly into your microphone." }
  else if Js.includes message "File path error" || Js.includes message "Windows path issue" then
    { message := "File system error. Please try again or check permissions." }
  else { message := "Speech recognition failed: " ++ message }

/-- The function `detectLanguageWithWhisper` called with an `audioPath`: the
language and the confidence it returns, from the outcome of its call of the
service. It never throws. -/
def detectLanguageWithWhisper (U : Js.Unicode) (outcome : ApiOutcome) : String × ℚ :=
  match outcome with
  | .ok transcription =>
    let rawLanguage := Js.orElse transcription.language "en"
    let detectedLanguage := Js.orElse (normalizeLanguageCode U rawLanguage) "en"
    let confidence := transcription.segments.headD 0
    (detectedLanguage, 1 - confidence)
  | .error _ => ("en", 1/2)

/-- What the retry loop of Step 6 did: the transcription it obtained or the
error it threw, the number of calls of the service, and the delays it waited,
in milliseconds and in order. -/
structure LoopRun where
  result : Except JsError Transcription
  calls : Nat
  delays : List Nat

/-- The loop `for (let attempt = 1; attempt <= maxRetries; attempt++)` of
Step 6 and the `throw` that follows it, from `attempt` on, with `remaining`
iterations left; `call k` is the outcome of the call made at attempt `k`. -/
def transcribeFrom (maxRetries : Nat) (call : Nat → ApiOutcome) :
    Nat → Nat → Option JsError → LoopRun
  | 0, _, lastError =>
    { result := .error (lastError.getD { message := "Whisper API failed after all retries" })
      calls := 0, delays := [] }
  | remaining + 1, attempt, _ =>
    match call attempt with
    | .ok transcription => { result := .ok transcription, calls := 1, delays := [] }
    | .error apiError =>
      if apiError.status = some 400 ∨ apiError.status = some 413 then
        { result := .error apiError, calls := 1, delays := [] }
      else
        let rest := transcribeFrom maxRetries call remaining (attempt + 1) (some apiError)
        if attempt < maxRetries then
          { result := rest.result, calls := rest.calls + 1,
            delays := (2 ^ attempt * 1000) :: rest.delays }
        else { result := rest.result, calls := rest.calls + 1, delays := rest.delays }

/-- The retry loop of Step 6 with `maxRetries = 3`. -/
def transcribe (call : Nat → ApiOutcome) : LoopRun :=
  transcribeFrom 3 call 3 1 none

/-- The characters matched by `\w`. -/
def isWordChar (c : Char) : Bool :=
  let n := c.toNat
  (0x30 ≤ n && n ≤ 0x39) || (0x41 ≤ n && n ≤ 0x5A) || n == 0x5F || (0x61 ≤ n && n ≤ 0x7A)

/-- The upper-case form of an ASCII character. -/
def toUpperAscii (c : Char) : Char :=
  if 0x61 ≤ c.toNat && c.toNat ≤ 0x7A then Char.ofNat (c.toNat - 32) else c

/-- The replacement `replace(/\s+/g, ' ')`; `inRun` tells that the previous
character was white space. -/
def collapseWhiteSpace : List Char → Bool → List Char
  | [], _ => []
  | c :: cs, inRun =>
    if Js.isWhiteSpace c then
      if inRun then collapseWhiteSpace cs true else ' ' :: collapseWhiteSpace cs true
    else c :: collapseWhiteSpace cs false

/-- Applies `f` to every maximal run of word characters: a replacement of the
form `replace(/\bword\b/g, ...)`; `cur` is the run being read, in reverse. -/
def mapWords (f : List Char → List Char) : List Char → List Char → List Char
  | cur, [] => if cur.isEmpty then [] else f cur.reverse
  | cur, c :: cs =>
    if isWordChar c then mapWords f (c :: cur) cs
    else (if cur.isEmpty then [] else f cur.reverse) ++ c :: mapWords f [] cs

/-- The function `postProcessTranscription`. -/
def postProcessTranscription (text language : String) : String :=
  let trimmed := Js.trimList text.data
  let collapsed := collapseWhiteSpace trimmed false
  let capitalized :=
    match collapsed with
    | c :: cs => if isWordChar c then toUpperAscii c :: cs else c :: cs
    | [] => []
  let fixed :=
    if language = "en" then
      mapWords (fun w => if w.map toUpperAscii = ['I', 'M'] then "I'm".data else w) []
        (mapWords (fun w => if w = ['i'] then ['I'] else w) [] capitalized)
    else if language = "es" then
      mapWords (fun w => if w = ['q'] then "que".data else w) [] capitalized
    else if language = "fr" then
      mapWords (fun w => if w = ['j', 'e'] then "Je".data else w) [] capitalized
    else capitalized
  match fixed.getLast? with
  | some c => if c = '.' ∨ c = '!' ∨ c = '?' then ⟨fixed⟩ else ⟨fixed ++ ['.']⟩
  | none => ⟨fixed⟩

/-- The text `enhanceTranscriptionResult` returns, or the error it throws when
the transcription has no text. -/
def enhanceTranscriptionResult (transcription : Transcription) (detectedLanguage : String) :
    Except JsError String :=
  let text := Js.trim (Js.orElse transcription.text "")
  if text = "" then
    .error { message := "Transcription enhancement failed: " ++
      "Whisper returned empty transcription - no speech detected" }
  else .ok (postProcessTranscription text detectedLanguage)

/-- What one invocation of a transcribing function did: the text it returned
or the error it threw, the number of calls of the transcription service it
made, of which `detectionCalls` for the language detection, the delays
it waited between the attempts of the retry loop, and the parameter
`language` of `whisperParams`, the hint it sent with the calls of the retry
loop (`none` when the parameter is left out or the loop is not reached). -/
structure Run where
  result : Except JsError String
  calls : Nat
  detectionCalls : Nat := 0
  delays : List Nat := []
  languageHint : Option String := none

/-- The function `convertAudioToText`, for an audio buffer of the given
length. It is the `invocation`-th call of a transcribing function while the
request is handled, and `base` calls of the service were made before it. -/
def convertAudioToText (U : Js.Unicode) (env : Env) (invocation base : Nat) (audioLength : Nat)
    (language : String) : Run :=
  if !env.clientInitialized then
    { result := .error
        { message := "OpenAI client not initialized. Please check your API key." }
      calls := 0 }
  else
    match validateAudio audioLength with
    | some e => { result := .error (enhanceErrorMessage e), calls := 0 }
    | none =>
      let files := env.files invocation
      match files.writeError with
      | some e => { result := .error (enhanceErrorMessage e), calls := 0 }
      | none =>
        match (if files.conversionOk then none else files.copyError) with
        | some e => { result := .error (enhanceErrorMessage e), calls := 0 }
        | none =>
          let normalized := normalizeLanguageCode U language
          let detect := decide (language = "auto") || normalized.isNone
          let detectionCalls := if detect then 1 else 0
          let detectedLanguage : String :=
            if detect then
              let langResult := detectLanguageWithWhisper U (env.api base)
              if langResult.2 > LANGUAGE_CONFIDENCE_THRESHOLD then langResult.1 else "en"
            else normalized.getD "en"
          let languageHint : Option String :=
            if detectedLanguage = "" ∨ detectedLanguage = "auto" then none else some detectedLanguage
          let loop := transcribe (fun attempt => env.api (base + detectionCalls + attempt - 1))
          match loop.result with
          | .error e =>
            { result := .error (enhanceErrorMessage e), calls := detectionCalls + loop.calls
              detectionCalls := detectionCalls, delays := loop.delays
              languageHint := languageHint }
          | .ok transcription =>
            match enhanceTranscriptionResult transcription
              (if detectedLanguage = "" then "en" else detectedLanguage) with
            | .error e =>
              { result := .error (enhanceErrorMessage e), calls := detectionCalls + loop.calls
                detectionCalls := detectionCalls, delays := loop.delays
                languageHint := languageHint }
            | .ok text =>
              { result := .ok text, calls := detectionCalls + loop.calls
                detectionCalls := detectionCalls, delays := loop.delays
                languageHint := languageHint }

/-- The function `basicAudioToText`: one call of the service, without any
validation of the audio. -/
def basicAudioToText (env : Env) (invocation base : Nat) : Run :=
  if !env.clientInitialized then
    { result := .error { message := "OpenAI client not initialized" }, calls := 0 }
  else
    match (env.files invocation).writeError with
    | some e => { result := .error e, calls := 0 }
    | none =>
      match env.api base with
      | .ok transcription =>
        { result := .ok (Js.trim (Js.orElse transcription.text "")), calls := 1 }
      | .error e => { result := .error e, calls := 1 }

/-- The function `convertAudioToTextWithFallback`. -/
def convertAudioToTextWithFallback (U : Js.Unicode) (env : Env) (invocation base : Nat)
    (audioLength : Nat) (language : String) : Run :=
  let first := convertAudioToText U env invocation base audioLength language
  match first.result with
  | .ok text =>
    { result := .ok text, calls := first.calls, detectionCalls := first.detectionCalls
      delays := first.delays }
  | .error _ =>
    let second := basicAudioToText env (invocation + 1) (base + first.calls)
    { result := second.result, calls := first.calls + second.calls
      detectionCalls := first.detectionCalls, delays := first.delays }

end Whisper

/-! ## `server.js`: the transcription stage of the `/sts` handler -/

namespace Server

/-- The body of a `/sts` request. The decoding of the base64 string `audio` is
not modelled: `audioLength` is the length of the decoded buffer. -/
structure StsRequest where
  audio : Option String
  audioLength : Nat
  mimeType : Option String := none
  language : Option String := none

/-- A response of a handler: the HTTP status and the fields of the JSON body
that the properties are about. -/
structure Response where
  status : Nat
  error : Option String := none
  messages : List Message := []
  transcription : Option String := none
  language : Option String := none
  deriving DecidableEq

/-- How the transcription stage of the `/sts` handler ends: with a response, or
with the transcription that the rest of the handler goes on with. -/
inductive StsStage where
  | responded (response : Response)
  | transcribed (transcription : String)
  deriving DecidableEq

/-- The `/sts` handler up to the end of the `try` block "Convert audio to text
using Whisper": the validation of the request, the primary call of
`convertAudioToText` and the fallback call of `convertAudioToTextWithFallback`
(neither is given a language). It returns the stage reached and the number of
calls of the transcription service. -/
def stsTranscribe (U : Js.Unicode) (openAIApiKey : Bool) (env : Whisper.Env)
    (request : StsRequest) : StsStage × Nat :=
  if request.audio = none ∨ request.audio = some "" then
    (.responded { status := 400, error := some "Audio data required" }, 0)
  else if !openAIApiKey then
    (.responded { status := 500, error := some "OpenAI API not configured" }, 0)
  else if request.audioLength = 0 then
    (.responded { status := 400, error := some "Invalid audio data" }, 0)
  else
    let primary := Whisper.convertAudioToText U env 0 0 request.audioLength "auto"
    match primary.result with
    | .ok transcription => (.transcribed transcription, primary.calls)
    | .error _ =>
      let fallback :=
        Whisper.convertAudioToTextWithFallback U env 1 primary.calls request.audioLength "auto"
      match fallback.result with
      | .ok transcription => (.transcribed transcription, primary.calls + fallback.calls)
      | .error _ =>
        (.responded
          { status := 200
            messages :=
              [{ text := "I'm having trouble understanding the audio. Please check the debug files to see if your recording contains voice data."
                 facialExpression := "surprised"
                 animation := "Idle" }]
            transcription := some ""
            error := some "Audio processing failed" },
          primary.calls + fallback.calls)

end Server

/-! ## `elevenLabs.mjs`: the speech synthesizer -/

namespace ElevenLabs

/-- The body of an error response of the synthesis service, as the `catch`
block of `convertTextToSpeech` reads it: `JSON.parse` fails on it, or it
gives an object with `detail.status`, `detail.message` and `message`. -/
inductive ErrorBody where
  | unparseable
  | parsed (detailStatus detailMessage message : Option String)
  deriving DecidableEq

/-- The outcome of the HTTP request of `convertTextToSpeech`: the audio of the
response, an error that carries a response (its status, its `data` when it has
one, and the message of the error), or an error without a response. -/
inductive HttpOutcome where
  | ok (data : String)
  | status (code : Nat) (data : Option ErrorBody) (message : String)
  | failed (message : String)
  deriving DecidableEq

/-- The configuration read from the environment, and whether `validateVoiceId`
gives a voice id. -/
structure Config where
  apiKeyConfigured : Bool
  voiceID : String
  validVoiceId : Bool

/-- The external world of one call of `convertTextToSpeech`: the outcome of
the HTTP request and the error of `fs.writeFileSync`, when it throws. -/
structure Call where
  http : HttpOutcome
  writeError : Option String := none

/-- An error thrown by the synthesizer. Every one is made by `new Error(...)`
and has no `response`; `responseStatus` is `error.response.status`, for the
callers that read it. -/
structure TtsError where
  message : String
  responseStatus : Option Nat := none
  deriving DecidableEq

/-- The value of `errorMessage` after the inner `try` of the status 400 branch.
The error thrown for `model_does_not_support_language_code_parameter` is
thrown inside that `try` and is caught by its own `catch (parseError)`, which
only logs it; `errorMessage` then still has its initial value. -/
def badRequestMessage (body : ErrorBody) : String :=
  match body with
  | .unparseable => "Bad request"
  | .parsed detailStatus detailMessage message =>
    if detailStatus = some "model_does_not_support_language_code_parameter" then "Bad request"
    else Js.orElse detailMessage (Js.orElse message "Bad request")

/-- The `catch (error)` block of `convertTextToSpeech`: the error it throws
for an error with the given response status, response data and message. -/
def rethrow (config : Config) (status : Option Nat) (data : Option ErrorBody)
    (message : String) : TtsError :=
  match status, data with
  | some 400, some body => { message := "Bad request: " ++ badRequestMessage body }
  | _, _ =>
    if status = some 404 then
      { message := "Voice ID \"" ++ config.voiceID ++
          "\" not found. Please check your ELEVEN_LABS_VOICE_ID in your .env file." }
    else if status = some 401 then
      { message :=
          "Invalid ElevenLabs API key. Please check your ELEVEN_LABS_API_KEY in your .env file." }
    else if status = some 429 then
      { message := "ElevenLabs API rate limit exceeded. Please try again later." }
    else { message := "ElevenLabs API error: " ++ message }

/-- The function `convertTextToSpeech`: the audio it returns or the error it
throws. -/
def convertTextToSpeech (config : Config) (text : String) (fileName : Option String)
    (call : Call) : Except TtsError String :=
  if !config.apiKeyConfigured then
    .error { message := "ElevenLabs API key is not configured" }
  else if text = "" ∨ Js.trim text = "" then
    .error { message := "Text is required for speech conversion" }
  else if !config.validVoiceId then
    .error (rethrow config none none "No valid voice ID available")
  else
    match call.http with
    | .ok data =>
      match fileName, call.writeError with
      | some _, some message => .error (rethrow config none none message)
      | _, _ => .ok data
    | .status code data message => .error (rethrow config (some code) data message)
    | .failed message => .error (rethrow config none none message)

/-- What `convertTextToSpeechWithRetry` did: the audio it returned or the
error it threw, the number of calls of `convertTextToSpeech`, and the delays
it waited, in milliseconds and in order. -/
structure RetryRun where
  result : Except TtsError String
  calls : Nat
  delays : List Nat

/-- The loop `for (let attempt = 1; attempt <= maxRetries; attempt++)` of
`convertTextToSpeechWithRetry` and the `throw` that follows it, from `attempt`
on, with `remaining` iterations left; `tts k` is the outcome of the call of
`convertTextToSpeech` made at attempt `k`. -/
def retryFrom (maxRetries : Nat) (tts : Nat → Except TtsError String) :
    Nat → Nat → Option TtsError → RetryRun
  | 0, _, lastError =>
    { result := .error (lastError.getD { message := "TTS failed after all retries" })
      calls := 0, delays := [] }
  | remaining + 1, attempt, _ =>
    match tts attempt with
    | .ok result => { result := .ok result, calls := 1, delays := [] }
    | .error error =>
      if Js.includes error.message "API key" || Js.includes error.message "Voice ID" then
        { result := .error error, calls := 1, delays := [] }
      else
        let rest := retryFrom maxRetries tts remaining (attempt + 1) (some error)
        if attempt < maxRetries then
          { result := rest.result, calls := rest.calls + 1
            delays := (2 ^ (attempt - 1) * 1000) :: rest.delays }
        else { result := rest.result, calls := rest.calls + 1, delays := rest.delays }

/-- The function `convertTextToSpeechWithRetry`; `calls k` is the external
world of the call of `convertTextToSpeech` made at attempt `k`. -/
def convertTextToSpeechWithRetry (config : Config) (text : String) (fileName : Option String)
    (maxRetries : Nat) (calls : Nat → Call) : RetryRun :=
  retryFrom maxRetries (fun attempt => convertTextToSpeech config text fileName (calls attempt))
    maxRetries 1 none

end ElevenLabs

/-- What the retry loop of `lipSync` sees of a call of `convertTextToSpeech`. -/
def LipSync.outcomeOf (r : Except ElevenLabs.TtsError String) : LipSync.TtsOutcome :=
  match r with
  | .ok _ => .ok
  | .error e => .error e.responseStatus

/-! ## `utils/audios.mjs`: the emotion heuristic -/

namespace Audios

/-- The table `emotionKeywords`; it has an entry for `en` only, whose
emotions are listed in the order of the source. -/
def emotionKeywords : List (String × List String) :=
  [("happy", ["happy", "joyful", "excited", "delighted", "cheerful", "great", "awesome",
      "wonderful"]),
   ("sad", ["sad", "unhappy", "depressed", "disappointed", "sorry", "terrible", "awful"]),
   ("angry", ["angry", "mad", "furious", "irritated", "annoyed", "frustrated"]),
   ("surprised", ["surprised", "shocked", "amazed", "wow", "incredible", "unbelievable"]),
   ("confused", ["confused", "puzzled", "unclear", "what", "how", "why", "huh"])]

/-- The function `detectEmotionFromText`. Every language gets the keywords of
`en`, the only entry of the table. -/
def detectEmotionFromText (U : Js.Unicode) (text _language : String) : String :=
  let lowerText := U.toLowerCase text
  match emotionKeywords.find? (fun p => p.2.any (fun word => Js.includes lowerText word)) with
  | some p => p.1
  | none =>
    if Js.includes text "!" then "excited"
    else if Js.includes text "?" then "confused"
    else "default"

/-- The function `selectAnimationForEmotion`. -/
def selectAnimationForEmotion (emotion : String) (textLength : Nat) : String :=
  let animationMap : List (String × String) :=
    [("happy", "TalkingOne"), ("excited", "TalkingThree"), ("sad", "SadIdle"),
     ("angry", "Angry"), ("surprised", "Surprised"), ("confused", "ThoughtfulHeadShake"),
     ("default", if textLength > 30 then "TalkingThree" else "TalkingOne")]
  Js.orElse (animationMap.lookup emotion) "Idle"

end Audios

namespace Server

/-- The table `emotionMapping` of `enhanceMessageWithEmotion`: `expression`
and `intensity`. -/
def emotionMapping : List (String × String × ℚ) :=
  [("joy", "smile", 8/10), ("happy", "smile", 7/10), ("laugh", "smile", 1),
   ("sad", "sad", 8/10), ("melancholy", "sad", 6/10), ("angry", "angry", 9/10),
   ("furious", "angry", 1), ("fear", "surprised", 8/10), ("surprised", "surprised", 9/10),
   ("thoughtful", "default", 5/10), ("confused", "default", 6/10), ("default", "default", 5/10)]

/-- The expression `emotionMapping[detectedEmotion] || emotionMapping.default`. -/
def emotionInfo (detectedEmotion : String) : String × ℚ :=
  (emotionMapping.lookup detectedEmotion).getD ("default", 5/10)

/-- The body of the `map` callback of `enhanceMessageWithEmotion`. -/
def enhanceMessage (U : Js.Unicode) (language : String) (message : Message) : Message :=
  let detectedEmotion := Audios.detectEmotionFromText U message.text language
  let suggestedAnimation := Audios.selectAnimationForEmotion detectedEmotion (Js.length message.text)
  let emotionInfo := emotionInfo detectedEmotion
  { message with
    detectedEmotion := some detectedEmotion
    emotionIntensity := some emotionInfo.2
    suggestedAnimation := some suggestedAnimation
    language := some language
    facialExpression :=
      if message.facialExpression = "" then emotionInfo.1 else message.facialExpression
    animation := if message.animation = "" then suggestedAnimation else message.animation }

/-- The function `enhanceMessageWithEmotion`. -/
def enhanceMessageWithEmotion (U : Js.Unicode) (messages : List Message) (language : String) :
    List Message :=
  messages.map (enhanceMessage U language)

end Server

/-! ## `server.js`: the handlers of `/tts` and `/sts` -/

namespace Server

/-- The body of a `/tts` request. -/
structure TtsRequest where
  message : Option String
  language : Option String := none

/-- The function `createContextualFallback` of `server.js`, which the `/tts`
handler calls when no key of the response generator is configured: it has
English replies only and does not read its parameter `language`. It returns
the `messages` array of the object the source returns. -/
def createContextualFallback (U : Js.Unicode) (userMessage _language : String) : List Message :=
  let lowerMessage := Js.trim (U.toLowerCase userMessage)
  if Js.includes lowerMessage "hello" || Js.includes lowerMessage "hi" ||
      Js.includes lowerMessage "hey" then
    [OpenAI.reply "Hello there! It's great to meet you. What's on your mind today?" "smile" "TalkingOne"]
  else if Js.includes lowerMessage "how are you" then
    [OpenAI.reply "I'm doing wonderfully, thank you for asking! How are you doing today?" "smile" "TalkingOne"]
  else if Js.includes lowerMessage "weather" then
    [OpenAI.reply "I don't have access to current weather data, but I'd love to chat about weather patterns or travel destinations with great climates!" "smile" "TalkingOne"]
  else if Js.includes lowerMessage "travel" || Js.includes lowerMessage "trip" then
    [OpenAI.reply "Ah, travel! One of my favorite topics. I've been fortunate to explore many places around the world." "smile" "TalkingOne",
     OpenAI.reply "Where are you thinking of going, or would you like some travel recommendations?" "smile" "TalkingThree"]
  else
    [OpenAI.reply ("That's interesting! You mentioned \"" ++ userMessage ++ "\". I'd love to learn more about that.") "smile" "TalkingOne",
     OpenAI.reply "Tell me more about what you're thinking, and I'll do my best to help!" "smile" "TalkingThree"]

/-- The reply `enhancedDefault` of the `/tts` handler to the inputs `hi`,
`hello` and `hey`. -/
def enhancedDefault : List Message :=
  [OpenAI.reply "Hello! Nice to meet you. I'm Jack, your digital human assistant." "smile" "TalkingOne",
   OpenAI.reply "I love to chat about travel, culture, or anything else on your mind. What would you like to talk about?" "smile" "TalkingThree"]

/-- The constant `detectedLanguage` of the `/tts` handler, from the
`language` of the request body and the message. -/
def ttsLanguage (U : Js.Unicode) (language : Option String) (userMessage : String) : String :=
  let requestedLanguage := Js.orElse language "auto"
  if requestedLanguage = "auto" then detectLanguage U userMessage else requestedLanguage

/-- The handler of `/tts`. `openAIApiKey` tells whether the key is configured,
`defaultResponse` is the constant of `modules/defaultMessages.mjs`. The
response generator does not throw, so the `catch` around it is not reached
(for a language outside `Js.objectPrototypeKeys`: for one of these names the
generator may return `undefined`, and the `catch` then takes the fallback of
`server.js`); an error thrown outside the last `try` (by `lipSync` in the
first two branches) is answered by the outer `catch` with the status 500. -/
def tts (U : Js.Unicode) (openAIApiKey : Bool) (openAIChain : OpenAI.Chain) (env : LipSync.Env)
    (schedule : List Nat) (defaultResponse : List Message) (request : TtsRequest) : Response :=
  match request.message with
  | none => { status := 400, error := some "Message is required" }
  | some userMessage =>
    if userMessage = "" ∨ Js.trim userMessage = "" then
      { status := 400, error := some "Message is required" }
    else
      let detectedLanguage := ttsLanguage U request.language userMessage
      if ["hi", "hello", "hey"].contains (Js.trim (U.toLowerCase userMessage)) then
        match LipSync.lipSync U env schedule enhancedDefault detectedLanguage with
        | some processedMessages =>
          { status := 200, messages := processedMessages, language := some detectedLanguage }
        | none =>
          { status := 500, error := some "Internal server error", messages := defaultResponse }
      else if !openAIApiKey then
        match LipSync.lipSync U env schedule (createContextualFallback U userMessage detectedLanguage)
            detectedLanguage with
        | some processedMessages =>
          { status := 200, messages := processedMessages, language := some detectedLanguage }
        | none =>
          { status := 500, error := some "Internal server error", messages := defaultResponse }
      else
        let openAImessages := OpenAI.processUserInput U openAIChain userMessage detectedLanguage
        let enhancedMessages := enhanceMessageWithEmotion U openAImessages detectedLanguage
        { status := 200
          messages := ttsMessages U env schedule enhancedMessages detectedLanguage
          language := some detectedLanguage }

/-- The constant `detectedLanguage` of the `/sts` handler:
`requestedLanguage || detectLanguage(transcription)`. -/
def stsLanguage (U : Js.Unicode) (language : Option String) (transcription : String) : String :=
  Js.orElse language (detectLanguage U transcription)

/-- The handler of `/sts`: the transcription stage, then the reply to the
transcription, for a language outside `Js.objectPrototypeKeys`. The debug
files it writes are left out. -/
def sts (U : Js.Unicode) (openAIApiKey : Bool) (openAIChain : OpenAI.Chain)
    (whisperEnv : Whisper.Env) (env : LipSync.Env) (schedule : List Nat) (request : StsRequest) :
    Response :=
  match (stsTranscribe U openAIApiKey whisperEnv request).1 with
  | .responded response => response
  | .transcribed transcription =>
    if transcription = "" ∨ Js.trim transcription = "" then
      { status := 200
        messages :=
          [{ text := "I didn't catch that clearly. Could you please repeat? Check the debug files to verify your audio has voice content."
             facialExpression := "surprised"
             animation := "Idle" }]
        transcription := some transcription }
    else
      let detectedLanguage := stsLanguage U request.language transcription
      let openAImessages := OpenAI.processUserInput U openAIChain transcription detectedLanguage
      let enhancedMessages := enhanceMessageWithEmotion U openAImessages detectedLanguage
      match LipSync.lipSync U env schedule enhancedMessages detectedLanguage with
      | some processedMessages =>
        { status := 200, messages := processedMessages, transcription := some transcription
          language := some detectedLanguage }
      | none =>
        { status := 200
          messages :=
            [{ text := "I heard you say \"" ++ transcription ++ "\". Let me think about that for a moment."
               facialExpression := "default"
               animation := "ThoughtfulHeadShake" },
             { text := "Could you give me a bit more context about what you'd like to know?"
               facialExpression := "smile"
               animation := "TalkingOne" }]
          transcription := some transcription }

end Server

/-! ## The names of the working files -/

/-- The constant `fileName` of `lipSync`, the file of the synthesized audio
of the message at `index`. This is the side of the unresolved merge that the
alignment stage reads. -/
def LipSync.fileName (index : Nat) : String :=
  "audios/message_" ++ toString index ++ ".mp3"

/-- The constant `fileName` of `lipSync` on the side `HEAD` of the unresolved
merge: `path.join('/tmp', ...)`. -/
def LipSync.fileNameHead (index : Nat) : String :=
  "/tmp/message_" ++ toString index ++ ".mp3"

/-- The constant `outputJsonPath` of `getPhonemes`, the file of the viseme
track of the message at index `message`. -/
def Rhubarb.outputJsonPath (message : Nat) : String :=
  "/tmp/message_" ++ toString message ++ ".json"

/-- The constant `originalPath` of `convertAudioToText`, the file of the
transcription input; `timestamp` is the value of `Date.now()`. -/
def Whisper.originalPath (timestamp : Nat) : String :=
  "/tmp/whisper_input_" ++ toString timestamp ++ ".webm"

/-- The constant `processedPath` of `convertAudioToText`. -/
def Whisper.processedPath (timestamp : Nat) : String :=
  "/tmp/whisper_processed_" ++ toString timestamp ++ ".mp3"

/-! ## Predicates used to state the properties -/

/-- The selection rule of the Latin-script branch of a detector: `result` is
en when every score is below 2, and otherwise it is the language of the first
entry of `scores` that attains the highest score. -/
def PicksFirstHighest (scores : List (String × Int)) (result : String) : Prop :=
  ((∀ p ∈ scores, p.2 < 2) → result = "en") ∧
  ((∃ p ∈ scores, 2 ≤ p.2) →
    ∃ pre p post, scores = pre ++ p :: post ∧ result = p.1 ∧
      (∀ q ∈ pre, q.2 < p.2) ∧ (∀ q ∈ post, q.2 ≤ p.2))

/-- Well-formed cues of a track of the given duration: 2 or 3 cues that
start at 0, are sorted by `start`, each one starting where the previous one
ends, none empty, the last one ending at the duration. -/
def WellFormedCues (duration : ℚ) (cues : List MouthCue) : Prop :=
  (cues.length = 2 ∨ cues.length = 3) ∧
  cues.head?.map (fun c => c.start) = some 0 ∧
  cues.Chain' (fun a b => a.start ≤ b.start ∧ a.stop = b.start) ∧
  (∀ c ∈ cues, c.start < c.stop) ∧
  cues.getLast?.map (fun c => c.stop) = some duration

/-- A well-formed track of the degraded path: flagged as a fallback, of
positive duration, with well-formed cues for the declared duration. -/
def WellFormedFallback (t : VisemeTrack) : Prop :=
  t.metadata.fallback = true ∧ 0 < t.metadata.duration ∧
  WellFormedCues t.metadata.duration t.mouthCues

/-- Cues sorted by `start`. -/
def SortedByStart (cues : List MouthCue) : Prop :=
  cues.Chain' (fun a b => a.start ≤ b.start)

/-- Cues that do not overlap: each one ends before the next one starts. -/
def NonOverlapping (cues : List MouthCue) : Prop :=
  cues.Chain' (fun a b => a.stop ≤ b.start)

/-- A failed call of the transcription service that the retry loop of
`convertAudioToText` retries: its status is neither 400 nor 413. -/
def Whisper.Retryable (o : Whisper.ApiOutcome) : Prop :=
  ∃ e, o = .error e ∧ e.status ≠ some 400 ∧ e.status ≠ some 413

/-- The waits of 2^j × 1000 ms after the failed attempts j = 1, ..., k - 1. -/
def Whisper.backoffs (k : Nat) : List Nat :=
  (List.range (k - 1)).map (fun i => 2 ^ (i + 1) * 1000)

/-- The five keyword groups of `createContextualFallback` in the order of the
source, each with the reply it selects. -/
def OpenAI.keywordGroups : List (List String × (OpenAI.Responses → List Message)) :=
  [(OpenAI.helloKeywords, OpenAI.Responses.hello),
   (OpenAI.howAreYouKeywords, OpenAI.Responses.howAreYou),
   (OpenAI.weatherKeywords, OpenAI.Responses.weather),
   (OpenAI.travelKeywords, OpenAI.Responses.travel),
   (OpenAI.nameKeywords, OpenAI.Responses.name)]

/-- The reply of the first keyword group one of whose keywords is a substring
of `lowerMessage`, and the generic reply when no group has a hit. -/
def OpenAI.firstHit (lowerMessage : String) (responses : OpenAI.Responses) : List Message :=
  match OpenAI.keywordGroups.find? (fun group => group.1.any (Js.includes lowerMessage)) with
  | some group => group.2 responses
  | none => responses.generic

/-- Counting the matches of a pattern as a scan with the `g` flag does:
`skip` characters of the last match are still to be passed over. -/
def Js.occurrencesAux (p : Js.Pattern) : List Char → Nat → Nat
  | [], _ => if Js.matchHere p.atoms p.atEnd [] then 1 else 0
  | _ :: cs, skip + 1 => Js.occurrencesAux p cs skip
  | c :: cs, 0 =>
    if Js.matchHere p.atoms p.atEnd (c :: cs) then 1 + Js.occurrencesAux p cs (p.atoms.length - 1)
    else Js.occurrencesAux p cs 0

/-- The number of matches (occurrences) of a pattern in a string, counted
from left to right without overlap. -/
def Js.Pattern.occurrences (p : Js.Pattern) (s : String) : Nat :=
  Js.occurrencesAux p s.data 0

/-- The score of a candidate as a sum over occurrences: 3 for every word of
the cleaned text found in the stop-word list, 2 for every occurrence of an
orthographic pattern, minus 3 for every occurrence of a negative pattern. -/
def VisemesMapping.occurrenceScore (config : VisemesMapping.LangConfig) (cleanText : String) : Int :=
  (3 * ((Js.splitWhiteSpace cleanText).filter (fun word => config.words.contains word)).length : Nat) +
    (2 * (config.patterns.map (fun pattern => pattern.occurrences cleanText)).sum : Nat) -
    (3 * (config.negativePatterns.map (fun pattern => pattern.occurrences cleanText)).sum : Nat)

/-- The occurrence score with the two rules of the source that are by
design: words of one character are not looked up, and a score below 0 is
stored as 0. -/
def VisemesMapping.clampedScore (config : VisemesMapping.LangConfig) (cleanText : String) : Int :=
  max 0
    ((3 * (((Js.splitWhiteSpace cleanText).filter (fun word => decide (Js.length word > 1))).filter
        (fun word => config.words.contains word)).length : Nat) +
      (2 * (config.patterns.map (fun pattern => pattern.occurrences cleanText)).sum : Nat) -
      (3 * (config.negativePatterns.map (fun pattern => pattern.occurrences cleanText)).sum : Nat))

/-- The viseme that the mapping step of `processPhonemeData` gives to a raw
label: the expression
`phoneMapping[phoneme.toLowerCase()] || phoneMapping[phoneme] || cue.value`. -/
def Rhubarb.visemeOf (U : Js.Unicode) (language phoneme : String) : String :=
  Js.orElse (((Rhubarb.PHONEME_VISEME_MAPPING.lookup language).getD Rhubarb.defaultMapping).lookup
      (U.toLowerCase phoneme))
    (Js.orElse (((Rhubarb.PHONEME_VISEME_MAPPING.lookup language).getD Rhubarb.defaultMapping).lookup
      phoneme) phoneme)

/-- The viseme symbols A to H. -/
def visemeSymbols : List String := ["A", "B", "C", "D", "E", "F", "G", "H"]

/-- Two labels belong to one of the pairs of `similarVisemes`. -/
def Rhubarb.areSimilar (a b : String) : Bool :=
  Rhubarb.similarVisemes.any (fun group => group.contains a && group.contains b)

/-- The smoothing factor of a language, `en` standing in for a language
without entry. -/
def Rhubarb.smoothingFactor (language : String) : ℚ :=
  (Rhubarb.smoothingFactors.lookup language).getD (3/10)

/-- A synthesis and alignment operation: the message at `index` of the
request `request`. -/
structure MessageOperation where
  request : Nat
  index : Nat
  deriving DecidableEq

/-- The working files of a synthesis and alignment operation. -/
def MessageOperation.files (op : MessageOperation) : List String :=
  [LipSync.fileName op.index, LipSync.fileNameHead op.index, Rhubarb.outputJsonPath op.index]

/-- A transcription: the invocation `serial` of `convertAudioToText`, started
at the millisecond `timestamp`. -/
structure TranscriptionOperation where
  serial : Nat
  timestamp : Nat
  deriving DecidableEq

/-- The working files of a transcription. -/
def TranscriptionOperation.files (op : TranscriptionOperation) : List String :=
  [Whisper.originalPath op.timestamp, Whisper.processedPath op.timestamp]

/-- Reading a decimal numeral: the value of the digits read so far is `acc`. -/
def decodeDigits (acc : Nat) (digits : List Char) : Nat :=
  digits.foldl (fun value c => value * 10 + (c.toNat - 48)) acc

/-- The step "capitalize first letter" of `postProcessTranscription`. -/
def Whisper.capitalizeFirst (l : List Char) : List Char :=
  match l with
  | c :: cs => if Whisper.isWordChar c then Whisper.toUpperAscii c :: cs else c :: cs
  | [] => []

/-- The language-specific replacements of `postProcessTranscription` as a
map on one word: for en the two replacements one after the other. -/
def Whisper.wordFix (language : String) (w : List Char) : List Char :=
  if language = "en" then
    if (if w = ['i'] then ['I'] else w).map Whisper.toUpperAscii = ['I', 'M'] then "I'm".data
    else (if w = ['i'] then ['I'] else w)
  else if language = "es" then (if w = ['q'] then "que".data else w)
  else if language = "fr" then (if w = ['j', 'e'] then "Je".data else w)
  else w

/-- The step "ensure proper sentence ending" of `postProcessTranscription`. -/
def Whisper.ensureEnding (l : List Char) : List Char :=
  match l.getLast? with
  | some c => if c = '.' ∨ c = '!' ∨ c = '?' then l else l ++ ['.']
  | none => l

/-- The white space of the list is made of single spaces, each followed by a
character that is no white space or by the end of the list; when `prev` is
set, the list does not start with white space either. -/
def Whisper.tidy : Bool → List Char → Bool
  | _, [] => true
  | prev, c :: cs =>
    if Js.isWhiteSpace c then !prev && c == ' ' && Whisper.tidy true cs else Whisper.tidy false cs

/-- Every run of white space of the list is a single space. -/
def SingleSpaced (l : List Char) : Prop :=
  (∀ c ∈ l, Js.isWhiteSpace c = true → c = ' ') ∧
  l.Chain' (fun a b => ¬ (Js.isWhiteSpace a = true ∧ Js.isWhiteSpace b = true))

/-- A replacement of words that `mapWords` can repeat without effect: the
image of a word is not empty, has no white space, is left as it is by the
replacement of its own words, and starts with a capitalized character when the
word does. -/
def Whisper.StableFix (f : List Char → List Char) : Prop :=
  ∀ w, w ≠ [] → (∀ c ∈ w, Whisper.isWordChar c = true) →
    f w ≠ [] ∧ (∀ c ∈ f w, Js.isWhiteSpace c = false) ∧ Whisper.mapWords f [] (f w) = f w ∧
    (Whisper.capitalizeFirst w = w → Whisper.capitalizeFirst (f w) = f w)

/-- The `switch` of `postProcessTranscription`: the replacements of the
language, applied to a list of characters. -/
def Whisper.languageFix (language : String) (l : List Char) : List Char :=
  if language = "en" then
    Whisper.mapWords (fun w => if w.map Whisper.toUpperAscii = ['I', 'M'] then "I'm".data else w) []
      (Whisper.mapWords (fun w => if w = ['i'] then ['I'] else w) [] l)
  else if language = "es" then
    Whisper.mapWords (fun w => if w = ['q'] then "que".data else w) [] l
  else if language = "fr" then
    Whisper.mapWords (fun w => if w = ['j', 'e'] then "Je".data else w) [] l
  else l

/-! ## Example data -/

namespace Example

/-- A reply of two messages. -/
def messages : List Message :=
  [OpenAI.reply "Hello there." "smile" "TalkingOne",
   OpenAI.reply "How are you?" "smile" "TalkingThree"]

/-- A track as the aligner stores it in the JSON file of a message. -/
def track : VisemeTrack :=
  { metadata := { soundFile := "audios/message_0.wav", duration := 1, fallback := true }
    mouthCues := [{ start := 0, stop := 1, value := "A" }] }

/-- A run in which every synthesis succeeds at once, the files of message 0
are read and the reads of message 1 fail. -/
def envReadsFail : LipSync.Env where
  tts := fun _ _ => .ok
  phonemes := fun index =>
    if index = 0 then ⟨true, some "SUQz", some track, some "SUQz"⟩ else ⟨true, none, none, none⟩
  sinPi := fun _ => 0

/-- A run in which every call of the synthesis of message 0 throws (an error
without `response`, as the errors of `convertTextToSpeech` are), the synthesis
of message 1 succeeds at once, and every file can be read. -/
def envFirstFails : LipSync.Env where
  tts := fun index _ => if index = 0 then .error none else .ok
  phonemes := fun _ => ⟨true, some "SUQz", some track, some "SUQz"⟩
  sinPi := fun _ => 0

/-- A raw track of two adjacent cues, sorted and without overlap. -/
def rawTrack : VisemeTrack :=
  { metadata := { soundFile := "audios/message_0.wav", duration := 2 }
    mouthCues := [{ start := 0, stop := 1, value := "X" }, { start := 1, stop := 2, value := "X" }] }

/-- A transcriber whose first call (the language detection) is answered and
whose later calls fail with status 500. -/
def envServerErrors : Whisper.Env where
  clientInitialized := true
  api := fun n =>
    if n = 0 then .ok { text := some "hola", language := some "spanish" }
    else .error { message := "Internal server error", status := some 500 }
  files := fun _ => {}

/-- A transcriber whose every call is rejected with status 401. -/
def envUnauthorized : Whisper.Env where
  clientInitialized := true
  api := fun _ => .error { message := "Incorrect API key provided", status := some 401 }
  files := fun _ => {}

/-- A transcriber that answers every call with the text "Hello". -/
def envAnswers : Whisper.Env where
  clientInitialized := true
  api := fun _ => .ok { text := some "Hello" }
  files := fun _ => {}

/-- A `/sts` request whose decoded audio has 500 bytes. -/
def smallRequest : Server.StsRequest :=
  { audio := some "UklGRg==", audioLength := 500, mimeType := some "audio/webm" }

/-- A configuration of the synthesizer with a key and a valid voice. -/
def ttsConfig : ElevenLabs.Config :=
  { apiKeyConfigured := true, voiceID := "voice123", validVoiceId := true }

/-- A synthesis service that answers 429 to the first two requests and then
returns the audio. -/
def rateLimitedTwice (attempt : Nat) : ElevenLabs.Call :=
  if attempt ≤ 2 then
    { http := .status 429 none "Request failed with status code 429" }
  else { http := .ok "SUQz" }

/-- The error response that reports the unsupported `language_code` parameter. -/
def languageCodeRejected : ElevenLabs.Call :=
  { http := .status 400
      (some (.parsed (some "model_does_not_support_language_code_parameter")
        (some "The model does not support the language_code parameter.") none))
      "Request failed with status code 400" }

/-- A message that the generator left at its default placeholders. -/
def placeholderMessage : Message :=
  { text := "I am so happy to see you", facialExpression := "default", animation := "Idle" }

/-- A raw track of two adjacent cues labelled with the visemes `D` and `E`. -/
def visemeTrack : VisemeTrack :=
  { metadata := { soundFile := "audios/message_0.wav", duration := 2/10 }
    mouthCues := [{ start := 0, stop := 1/10, value := "D" },
                  { start := 1/10, stop := 2/10, value := "E" }] }

/-- A raw track of two adjacent cues labelled with the English phonemes `aa`
and `eh`, whose visemes are `D` and `E`. -/
def phonemeTrack : VisemeTrack :=
  { metadata := { soundFile := "audios/message_0.wav", duration := 2/10 }
    mouthCues := [{ start := 0, stop := 1/10, value := "aa" },
                  { start := 1/10, stop := 2/10, value := "eh" }] }

/-- A raw track with the rest viseme `A` and the consonant viseme `C`. -/
def restTrack : VisemeTrack :=
  { metadata := { soundFile := "audios/message_0.wav", duration := 2/10 }
    mouthCues := [{ start := 0, stop := 1/10, value := "A" },
                  { start := 1/10, stop := 2/10, value := "C" }] }

/-- The language detection hears Spanish with a `no_speech_prob` of 0.3, a
confidence of exactly 0.7; the transcription then succeeds. -/
def envThreshold : Whisper.Env where
  clientInitialized := true
  api := fun n =>
    if n = 0 then .ok { text := some "hola", language := some "spanish", segments := [3/10] }
    else .ok { text := some "hola" }
  files := fun _ => {}

/-- The language detection hears Spanish with a `no_speech_prob` of 0.1, a
confidence of 0.9. -/
def envConfident : Whisper.Env where
  clientInitialized := true
  api := fun n =>
    if n = 0 then .ok { text := some "hola", language := some "spanish", segments := [1/10] }
    else .ok { text := some "hola" }
  files := fun _ => {}

end Example

/-! # Properties -/

/-! ## The response generator -/

namespace OpenAI

theorem createContextualFallback_mem (U : Js.Unicode) (userMessage language : String) :
    createContextualFallback U userMessage language ∈
      (((fallbackResponses userMessage).lookup language).getD (responsesEn userMessage)).all := by
  unfold createContextualFallback
  simp only [Responses.all]
  split_ifs <;> simp

theorem processUserInput_of_thrown (U : Js.Unicode) (openAIChain : Chain)
    (userMessage language : String) (h : ∀ q i, openAIChain q i = .thrown) :
    processUserInput U openAIChain userMessage language =
      createContextualFallback U userMessage language := by
  unfold processUserInput
  simp only [h]
  split_ifs <;> rfl

theorem responses_shape (userMessage : String) (r : Responses)
    (hr : r ∈ [responsesEn userMessage, responsesEs userMessage, responsesFr userMessage,
      responsesDe userMessage]) (ms : List Message) (hms : ms ∈ r.all) :
    1 ≤ ms.length ∧ ms.length ≤ 2 ∧
      ∀ m ∈ ms, m.facialExpression = "smile" ∧
        (m.animation = "TalkingOne" ∨ m.animation = "TalkingThree") := by
  simp only [List.mem_cons, List.mem_singleton, List.not_mem_nil, or_false] at hr
  rcases hr with rfl | rfl | rfl | rfl <;>
    simp only [Responses.all, responsesEn, responsesEs, responsesFr, responsesDe,
      List.mem_cons, List.mem_singleton, List.not_mem_nil, or_false] at hms <;>
    rcases hms with rfl | rfl | rfl | rfl | rfl | rfl <;>
    simp [reply]

end OpenAI

namespace OpenAI

theorem fallback_table (userMessage language : String) (hlang : language ∈ supportedLanguages) :
    ∃ r, r ∈ [responsesEn userMessage, responsesEs userMessage, responsesFr userMessage,
        responsesDe userMessage] ∧
      ((fallbackResponses userMessage).lookup language).getD (responsesEn userMessage) = r ∧
      (fallbackResponses userMessage).lookup
        (if language ∈ ["en", "es", "fr", "de"] then language else "en") = some r := by
  simp only [supportedLanguages, List.mem_cons, List.mem_singleton, List.not_mem_nil,
    or_false] at hlang
  rcases hlang with rfl | rfl | rfl | rfl | rfl | rfl | rfl | rfl | rfl | rfl | rfl <;>
    simp [fallbackResponses, List.lookup]

end OpenAI

/-- C1 (amended): when every call of the LLM chain fails, `processUserInput`
returns, for every user text and each of the 11 supported tags, one or two
messages whose `facialExpression` and `animation` belong to the fixed
enumerations; the reply is taken from the table of the requested language
when that language is en, es, fr or de, and from the English table for the
seven other tags. -/
theorem processUserInput_fallback_total (U : Js.Unicode) (openAIChain : OpenAI.Chain)
    (userMessage language : String) (hlang : language ∈ supportedLanguages)
    (hfail : ∀ q i, openAIChain q i = .thrown) :
    OpenAI.processUserInput U openAIChain userMessage language ≠ [] ∧
    (OpenAI.processUserInput U openAIChain userMessage language).length ≤ 2 ∧
    (∀ m ∈ OpenAI.processUserInput U openAIChain userMessage language,
      m.facialExpression ∈ OpenAI.facialExpressions ∧ m.animation ∈ OpenAI.animations) ∧
    OpenAI.repliesInLanguage userMessage
      (if language ∈ ["en", "es", "fr", "de"] then language else "en")
      (OpenAI.processUserInput U openAIChain userMessage language) := by
  rw [OpenAI.processUserInput_of_thrown U openAIChain userMessage language hfail]
  obtain ⟨r, hr, hget, hlook⟩ := OpenAI.fallback_table userMessage language hlang
  have hmem := OpenAI.createContextualFallback_mem U userMessage language
  rw [hget] at hmem
  obtain ⟨h1, h2, h3⟩ := OpenAI.responses_shape userMessage r hr _ hmem
  refine ⟨?_, h2, ?_, r, hlook, hmem⟩
  · intro h
    rw [h] at h1
    simp at h1
  · intro m hm
    obtain ⟨he, ha⟩ := h3 m hm
    refine ⟨?_, ?_⟩
    · rw [he]; decide
    · rcases ha with ha | ha <;> rw [ha] <;> decide

/-- Witness of C1 (amended): a Spanish request whose LLM call fails. -/
theorem processUserInput_fallback_total_witness :
    OpenAI.processUserInput Js.latin1 (fun _ _ => .thrown) "Hola" "es" ≠ [] ∧
    (OpenAI.processUserInput Js.latin1 (fun _ _ => .thrown) "Hola" "es").length ≤ 2 ∧
    (∀ m ∈ OpenAI.processUserInput Js.latin1 (fun _ _ => .thrown) "Hola" "es",
      m.facialExpression ∈ OpenAI.facialExpressions ∧ m.animation ∈ OpenAI.animations) ∧
    OpenAI.repliesInLanguage "Hola"
      (if "es" ∈ ["en", "es", "fr", "de"] then "es" else "en")
      (OpenAI.processUserInput Js.latin1 (fun _ _ => .thrown) "Hola" "es") :=
  processUserInput_fallback_total Js.latin1 (fun _ _ => .thrown) "Hola" "es" (by decide)
    (fun _ _ => rfl)

/-- C1 (counterexample): for the supported tag `it` and the text "Ciao", the
failing LLM call yields the English greeting, which is not a reply of a table
of the requested language (the tables have no Italian entry). -/
theorem processUserInput_fallback_not_in_language :
    "it" ∈ supportedLanguages ∧
    OpenAI.processUserInput Js.latin1 (fun _ _ => .thrown) "Ciao" "it" =
      [OpenAI.reply "Hello there! It's great to meet you. What's on your mind today?"
        "smile" "TalkingOne"] ∧
    OpenAI.processUserInput Js.latin1 (fun _ _ => .thrown) "Ciao" "it" =
      (OpenAI.responsesEn "Ciao").hello ∧
    ¬ OpenAI.repliesInLanguage "Ciao" "it"
      (OpenAI.processUserInput Js.latin1 (fun _ _ => .thrown) "Ciao" "it") := by
  refine ⟨by decide, by decide, by decide, ?_⟩
  rintro ⟨r, hr, -⟩
  simp [OpenAI.fallbackResponses, List.lookup] at hr

/-- C2 (counterexample): a well-shaped LLM result with an empty `messages`
array is returned as it is, with 0 messages, and one with four entries is
returned with 4 messages. -/
theorem processUserInput_length_out_of_bounds :
    (OpenAI.processUserInput Js.latin1 (fun _ _ => .result []) "Tell me a story" "en").length = 0 ∧
    (OpenAI.processUserInput Js.latin1
      (fun _ _ => .result
        [⟨some "One.", some "smile", some "TalkingOne"⟩,
         ⟨some "Two.", some "smile", some "TalkingOne"⟩,
         ⟨some "Three.", some "smile", some "TalkingOne"⟩,
         ⟨some "Four.", some "smile", some "TalkingOne"⟩])
      "Tell me a story" "en").length = 4 := by
  constructor <;> decide

namespace OpenAI

theorem createContextualFallback_length (U : Js.Unicode) (userMessage language : String) :
    1 ≤ (createContextualFallback U userMessage language).length ∧
    (createContextualFallback U userMessage language).length ≤ 2 := by
  have hmem := createContextualFallback_mem U userMessage language
  have hr : ((fallbackResponses userMessage).lookup language).getD (responsesEn userMessage) ∈
      [responsesEn userMessage, responsesEs userMessage, responsesFr userMessage,
        responsesDe userMessage] := by
    simp only [fallbackResponses, List.lookup]
    split
    · simp
    · split
      · simp
      · split
        · simp
        · split <;> simp
  obtain ⟨h1, h2, -⟩ := responses_shape userMessage _ hr _ hmem
  exact ⟨h1, h2⟩

theorem validateMessages_length (language : String) :
    ∀ (messages : List RawMessage) (validated : List Message),
      validateMessages language messages = some validated →
      validated.length = messages.length ∧
      ∀ m ∈ messages, ∃ t, m.text = some t ∧ t ≠ "" := by
  intro messages
  induction messages with
  | nil =>
    intro validated h
    simp only [validateMessages, Option.some.injEq] at h
    subst h
    simp
  | cons m ms ih =>
    intro validated h
    unfold validateMessages at h
    cases hm : validateMessage language m with
    | none => simp [hm] at h
    | some v =>
      cases hms : validateMessages language ms with
      | none => simp [hm, hms] at h
      | some vs =>
        simp only [hm, hms, Option.some.injEq] at h
        subst h
        obtain ⟨hl, ht⟩ := ih vs hms
        refine ⟨by simp [hl], ?_⟩
        intro m' hm'
        rcases List.mem_cons.mp hm' with rfl | hm'
        · unfold validateMessage at hm
          cases htext : m'.text with
          | none => simp [htext] at hm
          | some t =>
            refine ⟨t, rfl, ?_⟩
            intro h0
            simp [htext, h0] at hm
        · exact ht m' hm'

end OpenAI

namespace OpenAI

theorem validateMessage_isSome (language : String) (m : RawMessage) :
    (∃ v, validateMessage language m = some v) ↔ ∃ t, m.text = some t ∧ t ≠ "" := by
  unfold validateMessage
  cases htext : m.text with
  | none => simp
  | some t =>
    by_cases h0 : t = ""
    · simp [h0]
    · simp [h0]

theorem validateMessages_map (language : String) :
    ∀ (messages : List RawMessage) (validated : List Message),
      validateMessages language messages = some validated →
      validated.map some = messages.map (validateMessage language) := by
  intro messages
  induction messages with
  | nil =>
    intro validated h
    simp only [validateMessages, Option.some.injEq] at h
    subst h
    rfl
  | cons m ms ih =>
    intro validated h
    unfold validateMessages at h
    cases hm : validateMessage language m with
    | none => simp [hm] at h
    | some v =>
      cases hms : validateMessages language ms with
      | none => simp [hm, hms] at h
      | some vs =>
        simp only [hm, hms, Option.some.injEq] at h
        subst h
        simp only [List.map_cons, hm, ih vs hms]

theorem validateMessages_of_valid (language : String) :
    ∀ (messages : List RawMessage), (∀ m ∈ messages, ∃ t, m.text = some t ∧ t ≠ "") →
      ∃ validated, validateMessages language messages = some validated := by
  intro messages
  induction messages with
  | nil => intro _; exact ⟨[], rfl⟩
  | cons m ms ih =>
    intro h
    obtain ⟨v, hv⟩ := (validateMessage_isSome language m).mpr (h m (List.mem_cons_self _ _))
    obtain ⟨vs, hvs⟩ := ih (fun m' hm' => h m' (List.mem_cons_of_mem _ hm'))
    exact ⟨v :: vs, by simp only [validateMessages, hv, hvs]⟩

theorem validateMessages_of_invalid (language : String) (messages : List RawMessage)
    (h : ∃ m ∈ messages, m.text = none ∨ m.text = some "") :
    validateMessages language messages = none := by
  cases hv : validateMessages language messages with
  | none => rfl
  | some validated =>
    exfalso
    obtain ⟨m, hm, hbad⟩ := h
    obtain ⟨t, ht, hne⟩ := (validateMessages_length language messages validated hv).2 m hm
    rcases hbad with hbad | hbad
    · rw [hbad] at ht; cases ht
    · rw [hbad] at ht
      simp only [Option.some.injEq] at ht
      exact hne ht.symm

end OpenAI

/-- C2 (amended): for a language that is not the name of a member of
`Object.prototype`: when the user text is not blank and the chain returns a
`messages` array whose entries all have a non-empty string `text`,
`processUserInput` returns the validated entries, one message per entry and in
the order of the array, so as many messages as the chain returned (none for
an empty array, more than three when the chain returns more); when the text
is blank, or the chain throws, or it returns no `messages` array, or an entry
of the array has no non-empty string `text`, it returns the contextual
fallback, which has 1 or 2 messages. -/
theorem processUserInput_length (U : Js.Unicode) (openAIChain : OpenAI.Chain)
    (userMessage language : String) (_hkey : language ∉ Js.objectPrototypeKeys) :
    (∀ messages, Js.trim userMessage ≠ "" →
      openAIChain (Js.trim userMessage) (OpenAI.languageInstruction language) = .result messages →
      (∀ m ∈ messages, ∃ t, m.text = some t ∧ t ≠ "") →
      (OpenAI.processUserInput U openAIChain userMessage language).map some =
        messages.map (OpenAI.validateMessage language) ∧
      (OpenAI.processUserInput U openAIChain userMessage language).length = messages.length) ∧
    ((Js.trim userMessage = "" ∨
      openAIChain (Js.trim userMessage) (OpenAI.languageInstruction language) = .thrown ∨
      openAIChain (Js.trim userMessage) (OpenAI.languageInstruction language) = .invalid ∨
      (∃ messages,
        openAIChain (Js.trim userMessage) (OpenAI.languageInstruction language) =
          .result messages ∧
        ∃ m ∈ messages, m.text = none ∨ m.text = some "")) →
      OpenAI.processUserInput U openAIChain userMessage language =
        OpenAI.createContextualFallback U userMessage language ∧
      1 ≤ (OpenAI.processUserInput U openAIChain userMessage language).length ∧
      (OpenAI.processUserInput U openAIChain userMessage language).length ≤ 2) := by
  have hfb := OpenAI.createContextualFallback_length U userMessage language
  constructor
  · intro messages hclean hout hvalid
    obtain ⟨validated, hv⟩ := OpenAI.validateMessages_of_valid language messages hvalid
    have h : OpenAI.processUserInput U openAIChain userMessage language = validated := by
      unfold OpenAI.processUserInput
      simp only [hclean, if_false, hout, hv]
    rw [h]
    exact ⟨OpenAI.validateMessages_map language messages validated hv,
      (OpenAI.validateMessages_length language messages validated hv).1⟩
  · intro hcase
    have h : OpenAI.processUserInput U openAIChain userMessage language =
        OpenAI.createContextualFallback U userMessage language := by
      unfold OpenAI.processUserInput
      by_cases hclean : Js.trim userMessage = ""
      · simp only [hclean, if_true]
      · rcases hcase with hc | hc | hc | ⟨messages, hc, hbad⟩
        · exact absurd hc hclean
        · simp only [hclean, if_false, hc]
        · simp only [hclean, if_false, hc]
        · simp only [hclean, if_false, hc,
            OpenAI.validateMessages_of_invalid language messages hbad]
    rw [h]
    exact ⟨rfl, hfb⟩

/-- Witness of C2 (amended): for the language en and the text "Tell me a
story", a chain that returns four messages gives four messages, and a chain
that throws gives the two messages of the generic fallback. -/
theorem processUserInput_length_witness :
    "en" ∉ Js.objectPrototypeKeys ∧
    (OpenAI.processUserInput Js.latin1
      (fun _ _ => .result
        [⟨some "One.", some "smile", some "TalkingOne"⟩,
         ⟨some " Two. ", none, some ""⟩,
         ⟨some "Three.", some "smile", some "TalkingOne"⟩,
         ⟨some "Four.", some "smile", some "TalkingOne"⟩])
      "Tell me a story" "en").map some =
      [some { text := "One.", facialExpression := "smile", animation := "TalkingOne",
              language := some "en" },
       some { text := "Two.", facialExpression := "default", animation := "Idle",
              language := some "en" },
       some { text := "Three.", facialExpression := "smile", animation := "TalkingOne",
              language := some "en" },
       some { text := "Four.", facialExpression := "smile", animation := "TalkingOne",
              language := some "en" }] ∧
    OpenAI.processUserInput Js.latin1 (fun _ _ => .thrown) "Tell me a story" "en" =
      OpenAI.createContextualFallback Js.latin1 "Tell me a story" "en" ∧
    (OpenAI.processUserInput Js.latin1 (fun _ _ => .thrown) "Tell me a story" "en").length = 2 :=
  ⟨by decide,
   ((processUserInput_length Js.latin1
      (fun _ _ => .result
        [⟨some "One.", some "smile", some "TalkingOne"⟩,
         ⟨some " Two. ", none, some ""⟩,
         ⟨some "Three.", some "smile", some "TalkingOne"⟩,
         ⟨some "Four.", some "smile", some "TalkingOne"⟩])
      "Tell me a story" "en" (by decide)).1 _ (by decide) rfl (by decide)).1.trans (by decide),
   ((processUserInput_length Js.latin1 (fun _ _ => .thrown) "Tell me a story" "en"
      (by decide)).2 (Or.inr (Or.inl rfl))).1,
   by decide⟩

/-- C3 (failing input): an LLM message whose text is made only of white space
passes the validation and reaches the caller with the empty text. -/
theorem processUserInput_whitespace_text :
    OpenAI.processUserInput Js.latin1
      (fun _ _ => .result [⟨some "   ", some "smile", some "TalkingOne"⟩])
      "Tell me a story" "en" =
    [{ text := "", facialExpression := "smile", animation := "TalkingOne",
       language := some "en" }] := by
  decide

/-! ## Language detection -/

namespace Js

theorem hasCharIn_kana (text : String) :
    (hasCharIn 0x3040 0x309f text || hasCharIn 0x30a0 0x30ff text) = hasCharIn 0x3040 0x30ff text := by
  unfold hasCharIn
  induction text.data with
  | nil => rfl
  | cons c cs ih =>
    simp only [List.any_cons]
    rw [← ih]
    have hc : (decide (0x3040 ≤ c.toNat) && decide (c.toNat ≤ 0x30ff)) =
        ((decide (0x3040 ≤ c.toNat) && decide (c.toNat ≤ 0x309f)) ||
         (decide (0x30a0 ≤ c.toNat) && decide (c.toNat ≤ 0x30ff))) := by
      rw [Bool.eq_iff_iff]
      simp only [Bool.and_eq_true, Bool.or_eq_true, decide_eq_true_eq]
      omega
    rw [hc]
    cases (decide (0x3040 ≤ c.toNat) && decide (c.toNat ≤ 0x309f)) <;>
      cases (decide (0x30a0 ≤ c.toNat) && decide (c.toNat ≤ 0x30ff)) <;>
      cases (cs.any fun c => decide (0x3040 ≤ c.toNat) && decide (c.toNat ≤ 0x309f)) <;>
      cases (cs.any fun c => decide (0x30a0 ≤ c.toNat) && decide (c.toNat ≤ 0x30ff)) <;> rfl

theorem hasCharIn_of_forall (lo hi : Nat) (text : String) (hne : text ≠ "")
    (hall : ∀ c ∈ text.data, lo ≤ c.toNat ∧ c.toNat ≤ hi) : hasCharIn lo hi text = true := by
  unfold hasCharIn
  cases hd : text.data with
  | nil =>
    exfalso
    apply hne
    cases text
    simp only at hd
    subst hd
    rfl
  | cons c cs =>
    have hc := hall c (by rw [hd]; exact List.mem_cons_self _ _)
    simp [hc.1, hc.2]

theorem hasCharIn_eq_false_of_forall (lo hi lo' hi' : Nat) (text : String)
    (hdisj : hi < lo' ∨ hi' < lo)
    (hall : ∀ c ∈ text.data, lo ≤ c.toNat ∧ c.toNat ≤ hi) : hasCharIn lo' hi' text = false := by
  unfold hasCharIn
  rw [List.any_eq_false]
  intro c hc
  have := hall c hc
  simp only [Bool.and_eq_true, decide_eq_true_eq, not_and, not_le]
  omega

end Js

theorem server_detectLanguage_script (U : Js.Unicode) (text : String) :
    Server.detectLanguage U text =
      if Js.hasCharIn 0x4e00 0x9fff text then "zh"
      else if Js.hasCharIn 0x3040 0x30ff text then "ja"
      else if Js.hasCharIn 0x0600 0x06ff text then "ar"
      else if Js.hasCharIn 0x0900 0x097f text then "hi"
      else if Js.hasCharIn 0x0400 0x04ff text then "ru"
      else Server.detectLanguage U text := by
  unfold Server.detectLanguage
  rw [Js.hasCharIn_kana]
  split_ifs <;> rfl

theorem frontend_detectLanguage_script (U : Js.Unicode) (text : String) :
    VisemesMapping.detectLanguage U text =
      if Js.hasCharIn 0x4e00 0x9fff text then "zh"
      else if Js.hasCharIn 0x3040 0x30ff text then "ja"
      else if Js.hasCharIn 0x0600 0x06ff text then "ar"
      else if Js.hasCharIn 0x0900 0x097f text then "hi"
      else if Js.hasCharIn 0x0400 0x04ff text then "ru"
      else VisemesMapping.detectLanguage U text := by
  unfold VisemesMapping.detectLanguage
  rw [Js.hasCharIn_kana]
  split_ifs <;> rfl

theorem lipsync_detectLanguageFromText_script (U : Js.Unicode) (text : String) :
    LipSync.detectLanguageFromText U text =
      if Js.hasCharIn 0x4e00 0x9fff text then "zh"
      else if Js.hasCharIn 0x3040 0x30ff text then "ja"
      else if Js.hasCharIn 0x0600 0x06ff text then "ar"
      else if Js.hasCharIn 0x0900 0x097f text then "hi"
      else if Js.hasCharIn 0x0400 0x04ff text then "ru"
      else LipSync.detectLanguageFromText U text := by
  unfold LipSync.detectLanguageFromText
  rw [Js.hasCharIn_kana]
  split_ifs <;> rfl

theorem find_script_range (text : String) (r : Nat × Nat × String)
    (h : scriptRanges.find? (fun r => Js.hasCharIn r.1 r.2.1 text) = some r) :
    (if Js.hasCharIn 0x4e00 0x9fff text then "zh"
      else if Js.hasCharIn 0x3040 0x30ff text then "ja"
      else if Js.hasCharIn 0x0600 0x06ff text then "ar"
      else if Js.hasCharIn 0x0900 0x097f text then "hi"
      else if Js.hasCharIn 0x0400 0x04ff text then "ru"
      else r.2.2) = r.2.2 ∧
    (Js.hasCharIn 0x4e00 0x9fff text = true ∨ Js.hasCharIn 0x3040 0x30ff text = true ∨
      Js.hasCharIn 0x0600 0x06ff text = true ∨ Js.hasCharIn 0x0900 0x097f text = true ∨
      Js.hasCharIn 0x0400 0x04ff text = true) := by
  simp only [scriptRanges, List.find?] at h
  cases h1 : Js.hasCharIn 0x4e00 0x9fff text
  · cases h2 : Js.hasCharIn 0x3040 0x30ff text
    · cases h3 : Js.hasCharIn 0x0600 0x06ff text
      · cases h4 : Js.hasCharIn 0x0900 0x097f text
        · cases h5 : Js.hasCharIn 0x0400 0x04ff text
          · simp [h1, h2, h3, h4, h5] at h
          · simp [h1, h2, h3, h4, h5] at h
            subst h
            simp
        · simp [h1, h2, h3, h4] at h
          subst h
          simp
      · simp [h1, h2, h3] at h
        subst h
        simp
    · simp [h1, h2] at h
      subst h
      simp
  · simp [h1] at h
    subst h
    simp

theorem script_chain_congr (b1 b2 b3 b4 b5 : Bool) (x y : String)
    (hany : b1 = true ∨ b2 = true ∨ b3 = true ∨ b4 = true ∨ b5 = true) :
    (if b1 then "zh" else if b2 then "ja" else if b3 then "ar" else if b4 then "hi"
      else if b5 then "ru" else x) =
    (if b1 then "zh" else if b2 then "ja" else if b3 then "ar" else if b4 then "hi"
      else if b5 then "ru" else y) := by
  cases b1 <;> cases b2 <;> cases b3 <;> cases b4 <;> cases b5 <;> simp_all

theorem find_script_range_of_forall (text : String) (r : Nat × Nat × String)
    (hr : r ∈ scriptRanges) (hne : text ≠ "")
    (hall : ∀ c ∈ text.data, r.1 ≤ c.toNat ∧ c.toNat ≤ r.2.1) :
    scriptRanges.find? (fun r => Js.hasCharIn r.1 r.2.1 text) = some r := by
  simp only [scriptRanges, List.mem_cons, List.mem_singleton, List.not_mem_nil, or_false] at hr
  rcases hr with rfl | rfl | rfl | rfl | rfl
  · have ht := Js.hasCharIn_of_forall _ _ text hne hall
    simp only at ht
    simp [scriptRanges, List.find?, ht]
  · have ht := Js.hasCharIn_of_forall _ _ text hne hall
    have h1 := Js.hasCharIn_eq_false_of_forall _ _ 0x4e00 0x9fff text (by simp) hall
    simp only at ht
    simp [scriptRanges, List.find?, ht, h1]
  · have ht := Js.hasCharIn_of_forall _ _ text hne hall
    have h1 := Js.hasCharIn_eq_false_of_forall _ _ 0x4e00 0x9fff text (by simp) hall
    have h2 := Js.hasCharIn_eq_false_of_forall _ _ 0x3040 0x30ff text (by simp) hall
    simp only at ht
    simp [scriptRanges, List.find?, ht, h1, h2]
  · have ht := Js.hasCharIn_of_forall _ _ text hne hall
    have h1 := Js.hasCharIn_eq_false_of_forall _ _ 0x4e00 0x9fff text (by simp) hall
    have h2 := Js.hasCharIn_eq_false_of_forall _ _ 0x3040 0x30ff text (by simp) hall
    have h3 := Js.hasCharIn_eq_false_of_forall _ _ 0x0600 0x06ff text (by simp) hall
    simp only at ht
    simp [scriptRanges, List.find?, ht, h1, h2, h3]
  · have ht := Js.hasCharIn_of_forall _ _ text hne hall
    have h1 := Js.hasCharIn_eq_false_of_forall _ _ 0x4e00 0x9fff text (by simp) hall
    have h2 := Js.hasCharIn_eq_false_of_forall _ _ 0x3040 0x30ff text (by simp) hall
    have h3 := Js.hasCharIn_eq_false_of_forall _ _ 0x0600 0x06ff text (by simp) hall
    have h4 := Js.hasCharIn_eq_false_of_forall _ _ 0x0900 0x097f text (by simp) hall
    simp only at ht
    simp [scriptRanges, List.find?, ht, h1, h2, h3, h4]

theorem detect_of_find_script (U : Js.Unicode) (text : String) (r : Nat × Nat × String)
    (h : scriptRanges.find? (fun r => Js.hasCharIn r.1 r.2.1 text) = some r) :
    Server.detectLanguage U text = r.2.2 ∧ VisemesMapping.detectLanguage U text = r.2.2 := by
  obtain ⟨heq, hany⟩ := find_script_range text r h
  constructor
  · rw [server_detectLanguage_script, script_chain_congr _ _ _ _ _ _ r.2.2 hany]
    exact heq
  · rw [frontend_detectLanguage_script, script_chain_congr _ _ _ _ _ _ r.2.2 hany]
    exact heq

/-- C7: for every text, `detectLanguage` (in `server.js` and in
`visemesMapping.js`) returns the tag of the first of the ranges U+4E00-9FFF
(zh), U+3040-30FF (ja), U+0600-06FF (ar), U+0900-097F (hi), U+0400-04FF (ru)
of which the text has a character, whatever the Unicode data and hence the
scores are; in particular a non-empty text made only of characters of one of
these ranges gets the tag of that range. -/
theorem detectLanguage_first_script (U : Js.Unicode) (text : String) :
    (∀ r, scriptRanges.find? (fun r => Js.hasCharIn r.1 r.2.1 text) = some r →
      Server.detectLanguage U text = r.2.2 ∧ VisemesMapping.detectLanguage U text = r.2.2) ∧
    (∀ r ∈ scriptRanges, text ≠ "" → (∀ c ∈ text.data, r.1 ≤ c.toNat ∧ c.toNat ≤ r.2.1) →
      Server.detectLanguage U text = r.2.2 ∧ VisemesMapping.detectLanguage U text = r.2.2) :=
  ⟨fun r h => detect_of_find_script U text r h,
   fun r hr hne hall =>
     detect_of_find_script U text r (find_script_range_of_forall text r hr hne hall)⟩

/-- Witness of C7: an Arabic greeting followed by a Cyrillic word is tagged
ar, and a text made only of Devanagari characters is tagged hi. -/
theorem detectLanguage_first_script_witness :
    scriptRanges.find? (fun r => Js.hasCharIn r.1 r.2.1 "مرحبا привет") =
      some (0x0600, 0x06ff, "ar") ∧
    (Server.detectLanguage Js.latin1 "مرحبا привет" = "ar" ∧
      VisemesMapping.detectLanguage Js.latin1 "مرحبا привет" = "ar") ∧
    ((0x0900, 0x097f, "hi") ∈ scriptRanges ∧ "नमस्ते" ≠ "" ∧
      (∀ c ∈ "नमस्ते".data, 0x0900 ≤ c.toNat ∧ c.toNat ≤ 0x097f)) ∧
    (Server.detectLanguage Js.latin1 "नमस्ते" = "hi" ∧
      VisemesMapping.detectLanguage Js.latin1 "नमस्ते" = "hi") :=
  ⟨by decide,
   (detectLanguage_first_script Js.latin1 "مرحبا привет").1 (0x0600, 0x06ff, "ar") (by decide),
   ⟨by decide, by decide, by decide⟩,
   (detectLanguage_first_script Js.latin1 "नमस्ते").2 (0x0900, 0x097f, "hi") (by decide)
     (by decide) (by decide)⟩

/-- C8 (counterexample): a Japanese sentence with kanji next to the kana has a
character of U+3040-30FF and is tagged zh by `detectLanguage` and by
`detectLanguageFromText`. -/
theorem detectLanguage_kana_with_kanji :
    Js.hasCharIn 0x3040 0x30ff "日本語です" = true ∧
    Server.detectLanguage Js.latin1 "日本語です" = "zh" ∧
    LipSync.detectLanguageFromText Js.latin1 "日本語です" = "zh" := by
  refine ⟨by decide, by decide, by decide⟩

/-- C8 (amended): for every text that has a Hiragana or Katakana character
(U+3040-30FF), `detectLanguage` and `detectLanguageFromText` return ja when
the text has no CJK ideograph of U+4E00-9FFF, and zh when it has one. -/
theorem detectLanguage_kana (U : Js.Unicode) (text : String)
    (hkana : Js.hasCharIn 0x3040 0x30ff text = true) :
    Server.detectLanguage U text = (if Js.hasCharIn 0x4e00 0x9fff text then "zh" else "ja") ∧
    LipSync.detectLanguageFromText U text =
      (if Js.hasCharIn 0x4e00 0x9fff text then "zh" else "ja") := by
  constructor
  · rw [server_detectLanguage_script, hkana]
    simp
  · rw [lipsync_detectLanguageFromText_script, hkana]
    simp

/-- Witness of C8 (amended): a greeting written in Hiragana only. -/
theorem detectLanguage_kana_witness :
    Js.hasCharIn 0x3040 0x30ff "こんにちは" = true ∧
    (Server.detectLanguage Js.latin1 "こんにちは" =
        (if Js.hasCharIn 0x4e00 0x9fff "こんにちは" then "zh" else "ja") ∧
      LipSync.detectLanguageFromText Js.latin1 "こんにちは" =
        (if Js.hasCharIn 0x4e00 0x9fff "こんにちは" then "zh" else "ja")) :=
  ⟨by decide, detectLanguage_kana Js.latin1 "こんにちは" (by decide)⟩

namespace Js

theorem le_mathMax (xs : List Int) : ∀ x : Int,
    x ≤ mathMax x xs ∧ (∀ y ∈ xs, y ≤ mathMax x xs) ∧ (mathMax x xs = x ∨ mathMax x xs ∈ xs) := by
  induction xs with
  | nil => intro x; simp [mathMax]
  | cons a as ih =>
    intro x
    obtain ⟨h1, h2, h3⟩ := ih (max x a)
    have hstep : mathMax x (a :: as) = mathMax (max x a) as := rfl
    rw [hstep]
    refine ⟨le_trans (le_max_left x a) h1, ?_, ?_⟩
    · intro y hy
      rcases List.mem_cons.mp hy with rfl | hy
      · exact le_trans (le_max_right x y) h1
      · exact h2 y hy
    · rcases h3 with h3 | h3
      · rcases max_choice x a with hm | hm
        · left; rw [h3, hm]
        · right; rw [h3, hm]; exact List.mem_cons_self _ _
      · right; exact List.mem_cons_of_mem _ h3

end Js

theorem picksFirstHighest_max (s : List (String × Int)) (hs : s ≠ []) :
    PicksFirstHighest s
      (if Js.mathMax ((s.map Prod.snd).headD 0) ((s.map Prod.snd).tail) < 2 then "en"
       else ((s.find? (fun p => p.2 ==
          Js.mathMax ((s.map Prod.snd).headD 0) ((s.map Prod.snd).tail))).map Prod.fst).getD "en") := by
  obtain ⟨p0, rest, rfl⟩ := List.exists_cons_of_ne_nil hs
  simp only [List.map_cons, List.headD_cons, List.tail_cons]
  obtain ⟨h1, h2, h3⟩ := Js.le_mathMax (rest.map Prod.snd) p0.2
  generalize Js.mathMax p0.2 (rest.map Prod.snd) = m at h1 h2 h3
  have hle : ∀ q ∈ p0 :: rest, q.2 ≤ m := by
    intro q hq
    rcases List.mem_cons.mp hq with rfl | hq
    · exact h1
    · exact h2 q.2 (List.mem_map_of_mem _ hq)
  have hex : ∃ p ∈ p0 :: rest, p.2 = m := by
    rcases h3 with h3 | h3
    · exact ⟨p0, List.mem_cons_self _ _, h3.symm⟩
    · obtain ⟨p, hp, hpm⟩ := List.mem_map.mp h3
      exact ⟨p, List.mem_cons_of_mem _ hp, hpm⟩
  constructor
  · intro hall
    obtain ⟨p, hp, hpm⟩ := hex
    have := hall p hp
    rw [if_pos (by omega)]
  · rintro ⟨p, hp, hp2⟩
    have hm : ¬ m < 2 := by
      have := hle p hp
      omega
    rw [if_neg hm]
    cases hfind : (p0 :: rest).find? (fun p => p.2 == m) with
    | none =>
      exfalso
      rw [List.find?_eq_none] at hfind
      obtain ⟨q, hq, hqm⟩ := hex
      exact hfind q hq (by simp [hqm])
    | some b =>
      obtain ⟨hb, as, bs, hsplit, has⟩ := List.find?_eq_some.mp hfind
      have hbm : b.2 = m := by simpa using hb
      refine ⟨as, b, bs, hsplit, by simp, ?_, ?_⟩
      · intro q hq
        have h1 := has q hq
        have h2 := hle q (by rw [hsplit]; exact List.mem_append_left _ hq)
        have h3 : q.2 ≠ m := by simpa using h1
        rw [hbm]
        omega
      · intro q hq
        rw [hbm]
        exact hle q (by rw [hsplit]; exact List.mem_append_right _ (List.mem_cons_of_mem _ hq))

theorem no_script (text : String)
    (hno : ∀ r ∈ scriptRanges, Js.hasCharIn r.1 r.2.1 text = false) :
    Js.hasCharIn 0x4e00 0x9fff text = false ∧ Js.hasCharIn 0x3040 0x30ff text = false ∧
    Js.hasCharIn 0x0600 0x06ff text = false ∧ Js.hasCharIn 0x0900 0x097f text = false ∧
    Js.hasCharIn 0x0400 0x04ff text = false :=
  ⟨hno (0x4e00, 0x9fff, "zh") (by simp [scriptRanges]),
   hno (0x3040, 0x30ff, "ja") (by simp [scriptRanges]),
   hno (0x0600, 0x06ff, "ar") (by simp [scriptRanges]),
   hno (0x0900, 0x097f, "hi") (by simp [scriptRanges]),
   hno (0x0400, 0x04ff, "ru") (by simp [scriptRanges])⟩

theorem server_detectLanguage_picks (U : Js.Unicode) (text : String)
    (hno : ∀ r ∈ scriptRanges, Js.hasCharIn r.1 r.2.1 text = false) :
    PicksFirstHighest (Server.scores (Js.cleanText U text)) (Server.detectLanguage U text) := by
  obtain ⟨h1, h2, h3, h4, h5⟩ := no_script text hno
  have h := picksFirstHighest_max (Server.scores (Js.cleanText U text))
    (by simp [Server.scores, Server.languagePatterns])
  unfold Server.detectLanguage
  rw [Js.hasCharIn_kana]
  simp only [h1, h2, h3, h4, h5, Bool.false_eq_true, if_false]
  exact h

theorem frontend_detectLanguage_picks (U : Js.Unicode) (text : String)
    (hno : ∀ r ∈ scriptRanges, Js.hasCharIn r.1 r.2.1 text = false) :
    PicksFirstHighest (VisemesMapping.scores (Js.cleanText U text))
      (VisemesMapping.detectLanguage U text) := by
  obtain ⟨h1, h2, h3, h4, h5⟩ := no_script text hno
  have h := picksFirstHighest_max (VisemesMapping.scores (Js.cleanText U text))
    (by simp [VisemesMapping.scores, VisemesMapping.languagePatterns])
  unfold VisemesMapping.detectLanguage
  rw [Js.hasCharIn_kana]
  simp only [h1, h2, h3, h4, h5, Bool.false_eq_true, if_false]
  exact h

theorem server_detectLanguage_congr (U V : Js.Unicode) (text : String)
    (h : Js.cleanText U text = Js.cleanText V text) :
    Server.detectLanguage U text = Server.detectLanguage V text := by
  unfold Server.detectLanguage
  simp only [h]

theorem frontend_detectLanguage_congr (U V : Js.Unicode) (text : String)
    (h : Js.cleanText U text = Js.cleanText V text) :
    VisemesMapping.detectLanguage U text = VisemesMapping.detectLanguage V text := by
  unfold VisemesMapping.detectLanguage
  simp only [h]

theorem Js.cleanText_empty (U : Js.Unicode) : Js.cleanText U "" = "" := by
  unfold Js.cleanText
  rw [U.toLowerCase_empty]
  rfl

theorem Js.cleanText_spanish (U : Js.Unicode)
    (hlow : U.toLowerCase "¿Cómo estás, necesito información de viaje?" =
      "¿cómo estás, necesito información de viaje?")
    (hlet : ∀ c ∈ "¿cómo estás, necesito información de viaje?".data,
      U.isLetter c = !(['¿', ',', '?', ' '].contains c)) :
    Js.cleanText U "¿Cómo estás, necesito información de viaje?" =
      "cómo estás necesito información de viaje" := by
  unfold Js.cleanText
  rw [hlow]
  have hfilter : "¿cómo estás, necesito información de viaje?".data.filter
        (fun c => U.isLetter c || Js.isWhiteSpace c) =
      "¿cómo estás, necesito información de viaje?".data.filter
        (fun c => !(['¿', ',', '?', ' '].contains c) || Js.isWhiteSpace c) := by
    apply List.filter_congr
    intro c hc
    rw [hlet c hc]
  rw [hfilter]
  decide

/-- C9: for every text without a character of the five script ranges,
`detectLanguage` (in `server.js` and in `visemesMapping.js`) returns en when
every candidate score is below 2 and otherwise the first language, in the
order es, fr, de, it, pt, that attains the highest score; it returns en for
the empty string, and es for "¿Cómo estás, necesito información de viaje?"
under any Unicode data that lower-cases its capital C and counts as letters
the characters of the text other than the punctuation marks and the space. -/
theorem detectLanguage_latin (U : Js.Unicode) :
    (∀ text, (∀ r ∈ scriptRanges, Js.hasCharIn r.1 r.2.1 text = false) →
      (Server.scores (Js.cleanText U text)).map Prod.fst = ["es", "fr", "de", "it", "pt"] ∧
      PicksFirstHighest (Server.scores (Js.cleanText U text)) (Server.detectLanguage U text) ∧
      (VisemesMapping.scores (Js.cleanText U text)).map Prod.fst =
        ["es", "fr", "de", "it", "pt"] ∧
      PicksFirstHighest (VisemesMapping.scores (Js.cleanText U text))
        (VisemesMapping.detectLanguage U text)) ∧
    (Server.detectLanguage U "" = "en" ∧ VisemesMapping.detectLanguage U "" = "en") ∧
    (U.toLowerCase "¿Cómo estás, necesito información de viaje?" =
        "¿cómo estás, necesito información de viaje?" →
      (∀ c ∈ "¿cómo estás, necesito información de viaje?".data,
        U.isLetter c = !(['¿', ',', '?', ' '].contains c)) →
      Server.detectLanguage U "¿Cómo estás, necesito información de viaje?" = "es" ∧
      VisemesMapping.detectLanguage U "¿Cómo estás, necesito información de viaje?" = "es") := by
  refine ⟨?_, ⟨?_, ?_⟩, ?_⟩
  · intro text hno
    exact ⟨rfl, server_detectLanguage_picks U text hno, rfl,
      frontend_detectLanguage_picks U text hno⟩
  · have h : Js.cleanText U "" = Js.cleanText Js.latin1 "" := by
      rw [Js.cleanText_empty, Js.cleanText_empty]
    rw [server_detectLanguage_congr U Js.latin1 "" h]
    decide
  · have h : Js.cleanText U "" = Js.cleanText Js.latin1 "" := by
      rw [Js.cleanText_empty, Js.cleanText_empty]
    rw [frontend_detectLanguage_congr U Js.latin1 "" h]
    decide
  · intro hlow hlet
    have h : Js.cleanText U "¿Cómo estás, necesito información de viaje?" =
        Js.cleanText Js.latin1 "¿Cómo estás, necesito información de viaje?" := by
      rw [Js.cleanText_spanish U hlow hlet]
      decide
    rw [server_detectLanguage_congr U Js.latin1 _ h,
      frontend_detectLanguage_congr U Js.latin1 _ h]
    constructor <;> decide

/-- Witness of C9: the Latin-1 data on a French phrase, which has no character
of the script ranges, and on the Spanish example. -/
theorem detectLanguage_latin_witness :
    (∀ r ∈ scriptRanges, Js.hasCharIn r.1 r.2.1 "le chat et le chien" = false) ∧
    PicksFirstHighest (Server.scores (Js.cleanText Js.latin1 "le chat et le chien"))
      (Server.detectLanguage Js.latin1 "le chat et le chien") ∧
    Server.detectLanguage Js.latin1 "le chat et le chien" = "fr" ∧
    Server.detectLanguage Js.latin1 "¿Cómo estás, necesito información de viaje?" = "es" ∧
    VisemesMapping.detectLanguage Js.latin1 "¿Cómo estás, necesito información de viaje?" = "es" :=
  ⟨by decide,
   ((detectLanguage_latin Js.latin1).1 "le chat et le chien" (by decide)).2.1,
   by decide,
   ((detectLanguage_latin Js.latin1).2.2 (by decide) (by decide)).1,
   ((detectLanguage_latin Js.latin1).2.2 (by decide) (by decide)).2⟩

/-! ## Synthesis and alignment of the messages of a reply -/

namespace LipSync

theorem synthesizeFrom_succeeded (detectedLanguage : String) (tts : Nat → TtsOutcome) :
    ∀ n attempt, attempt + (n + 1) = MAX_RETRIES →
      ((synthesizeFrom detectedLanguage tts (n + 1) attempt).succeeded = true ↔
        ∃ k, attempt ≤ k ∧ k < MAX_RETRIES ∧ tts k = .ok) := by
  intro n
  induction n with
  | zero =>
    intro attempt hsum
    have ha : attempt = MAX_RETRIES - 1 := by omega
    unfold synthesizeFrom
    cases ht : tts attempt with
    | ok =>
      simp only [true_iff]
      exact ⟨attempt, le_refl _, by omega, ht⟩
    | error status =>
      have hlt : ¬ (status = some 429 ∧ attempt < MAX_RETRIES - 1) := by
        rintro ⟨-, h⟩
        omega
      dsimp only
      rw [if_neg hlt, if_pos ha]
      simp only [Bool.false_eq_true, false_iff]
      rintro ⟨k, hk1, hk2, hk3⟩
      have : k = attempt := by omega
      subst this
      rw [ht] at hk3
      cases hk3
  | succ n ih =>
    intro attempt hsum
    have ha : attempt ≠ MAX_RETRIES - 1 := by
      simp only [MAX_RETRIES] at hsum ⊢
      omega
    have hrest := ih (attempt + 1) (by omega)
    rw [synthesizeFrom]
    cases ht : tts attempt with
    | ok =>
      simp only [true_iff]
      exact ⟨attempt, le_refl _, by simp only [MAX_RETRIES] at hsum ⊢; omega, ht⟩
    | error status =>
      have hiff : (∃ k, attempt ≤ k ∧ k < MAX_RETRIES ∧ tts k = .ok) ↔
          ∃ k, attempt + 1 ≤ k ∧ k < MAX_RETRIES ∧ tts k = .ok := by
        constructor
        · rintro ⟨k, hk1, hk2, hk3⟩
          refine ⟨k, ?_, hk2, hk3⟩
          rcases Nat.eq_or_lt_of_le hk1 with h | h
          · subst h
            rw [ht] at hk3
            cases hk3
          · exact h
        · rintro ⟨k, hk1, hk2, hk3⟩
          exact ⟨k, by omega, hk2, hk3⟩
      rw [hiff, ← hrest]
      simp only
      split_ifs <;> simp

theorem synthesize_succeeded (detectedLanguage : String) (tts : Nat → TtsOutcome) :
    (synthesize detectedLanguage tts).succeeded = true ↔
      ∃ k, k < MAX_RETRIES ∧ tts k = .ok := by
  unfold synthesize
  have h := synthesizeFrom_succeeded detectedLanguage tts 9 0 (by decide)
  have h10 : MAX_RETRIES = 9 + 1 := rfl
  rw [h10] at h ⊢
  rw [h]
  constructor
  · rintro ⟨k, -, hk2, hk3⟩
    exact ⟨k, hk2, hk3⟩
  · rintro ⟨k, hk2, hk3⟩
    exact ⟨k, Nat.zero_le _, hk2, hk3⟩

theorem allSynthesized_iff (U : Js.Unicode) (env : Env) (language : String)
    (messages : List Message) :
    allSynthesized U env language messages = true ↔
      ∀ index, index < messages.length → ∃ k, k < MAX_RETRIES ∧ env.tts index k = .ok := by
  unfold allSynthesized
  rw [List.all_eq_true]
  constructor
  · intro h index hlt
    have := h index (List.mem_range.mpr hlt)
    rw [List.get?_eq_get hlt] at this
    simp only at this
    exact (synthesize_succeeded _ _).mp this
  · intro h index hmem
    have hlt := List.mem_range.mp hmem
    rw [List.get?_eq_get hlt]
    simp only
    exact (synthesize_succeeded _ _).mpr (h index hlt)

theorem updateAt_length (f : Message → Message) :
    ∀ (l : List Message) (i : Nat), (updateAt f i l).length = l.length := by
  intro l
  induction l with
  | nil => intro i; cases i <;> rfl
  | cons m ms ih =>
    intro i
    cases i with
    | zero => rfl
    | succ i => simp [updateAt, ih]

theorem updateAt_getElem? (f : Message → Message) :
    ∀ (l : List Message) (i j : Nat),
      (updateAt f i l)[j]? = if j = i then (l[j]?).map f else l[j]? := by
  intro l
  induction l with
  | nil => intro i j; cases i <;> simp [updateAt]
  | cons m ms ih =>
    intro i j
    cases i with
    | zero =>
      cases j with
      | zero => simp [updateAt]
      | succ j => simp [updateAt]
    | succ i =>
      cases j with
      | zero => simp [updateAt]
      | succ j => simp [updateAt, ih]

theorem foldl_updateAt_length (g : Nat → Message → Message) :
    ∀ (schedule : List Nat) (l : List Message),
      (schedule.foldl (fun ms index => updateAt (g index) index ms) l).length = l.length := by
  intro schedule
  induction schedule with
  | nil => intro l; rfl
  | cons i rest ih =>
    intro l
    rw [List.foldl_cons, ih, updateAt_length]

theorem foldl_updateAt_getElem? (g : Nat → Message → Message) :
    ∀ (schedule : List Nat) (l : List Message) (j : Nat), schedule.Nodup →
      (schedule.foldl (fun ms index => updateAt (g index) index ms) l)[j]? =
        if j ∈ schedule then (l[j]?).map (g j) else l[j]? := by
  intro schedule
  induction schedule with
  | nil => intro l j _; simp
  | cons i rest ih =>
    intro l j hnd
    obtain ⟨hi, hrest⟩ := List.nodup_cons.mp hnd
    rw [List.foldl_cons, ih _ j hrest, updateAt_getElem?]
    by_cases hji : j = i
    · subst hji
      simp [hi]
    · simp [hji]

theorem alignMessage_text (U : Js.Unicode) (env : Env) (language : String) (index : Nat)
    (message : Message) : (alignMessage U env language index message).text = message.text := by
  unfold alignMessage
  generalize env.phonemes index = o
  obtain ⟨g, a, t, r⟩ := o
  cases g <;> cases a <;> cases t <;> cases r <;> rfl

theorem alignMessage_paired (U : Js.Unicode) (env : Env) (language : String) (index : Nat)
    (message : Message) :
    (alignMessage U env language index message).audio = none ↔
      (alignMessage U env language index message).lipsync = none := by
  unfold alignMessage
  generalize env.phonemes index = o
  obtain ⟨g, a, t, r⟩ := o
  cases g <;> cases a <;> cases t <;> cases r <;> simp

theorem lipSync_getElem? (U : Js.Unicode) (env : Env) (schedule : List Nat)
    (messages : List Message) (language : String)
    (hsched : schedule.Perm (List.range messages.length)) (out : List Message)
    (hout : lipSync U env schedule messages language = some out) (j : Nat) :
    out[j]? = (messages[j]?).map (alignMessage U env language j) := by
  unfold lipSync at hout
  split_ifs at hout
  simp only [Option.some.injEq] at hout
  subst hout
  have hnd : schedule.Nodup := (List.Perm.nodup_iff hsched).mpr (List.nodup_range _)
  rw [foldl_updateAt_getElem? (alignMessage U env language) schedule messages j hnd]
  by_cases hj : j ∈ schedule
  · simp [hj]
  · have hlt : ¬ j < messages.length := fun h =>
      hj ((List.Perm.mem_iff hsched).mpr (List.mem_range.mpr h))
    have : messages[j]? = none := by
      rw [List.getElem?_eq_none_iff]
      omega
    simp [hj, this]

end LipSync

/-- C4: `lipSync` completes exactly when the synthesis of every message
succeeds within `MAX_RETRIES` attempts, and then, whatever the order in which
the alignment callbacks finish, the returned list has the length of the input
and its i-th message carries the text of the i-th input message. -/
theorem lipSync_preserves_order (U : Js.Unicode) (env : LipSync.Env) (schedule : List Nat)
    (messages : List Message) (language : String) :
    ((∃ out, LipSync.lipSync U env schedule messages language = some out) ↔
      ∀ index, index < messages.length →
        ∃ k, k < LipSync.MAX_RETRIES ∧ env.tts index k = .ok) ∧
    (∀ out, LipSync.lipSync U env schedule messages language = some out →
      out.length = messages.length ∧
      out.map (fun m => m.text) = messages.map (fun m => m.text) ∧
      ∀ i : Nat, (out[i]?).map (fun m : Message => m.text) =
        (messages[i]?).map (fun m : Message => m.text)) := by
  have htext : ∀ (sched : List Nat) (l : List Message),
      (sched.foldl (fun ms index =>
        LipSync.updateAt (LipSync.alignMessage U env language index) index ms) l).map
          (fun m => m.text) = l.map (fun m => m.text) := by
    intro sched
    induction sched with
    | nil => intro l; rfl
    | cons i rest ih =>
      intro l
      rw [List.foldl_cons, ih]
      apply List.ext_getElem?
      intro j
      rw [List.getElem?_map, List.getElem?_map, LipSync.updateAt_getElem?]
      split_ifs
      · cases l[j]? with
        | none => rfl
        | some m => simp [LipSync.alignMessage_text]
      · rfl
  constructor
  · rw [← LipSync.allSynthesized_iff U env language messages]
    unfold LipSync.lipSync
    split_ifs with h
    · simp [h]
    · simp [h]
  · intro out hout
    unfold LipSync.lipSync at hout
    split_ifs at hout
    simp only [Option.some.injEq] at hout
    subst hout
    refine ⟨LipSync.foldl_updateAt_length _ _ _, htext schedule messages, ?_⟩
    intro i
    have := congrArg (fun l => l[i]?) (htext schedule messages)
    simpa [List.getElem?_map] using this

/-- Witness of C4: two messages whose alignment callbacks finish in the order
1, 0. -/
theorem lipSync_preserves_order_witness :
    (∃ out, LipSync.lipSync Js.latin1 Example.envReadsFail [1, 0] Example.messages "en" =
      some out) ∧
    (∀ out, LipSync.lipSync Js.latin1 Example.envReadsFail [1, 0] Example.messages "en" =
        some out →
      out.length = Example.messages.length ∧
      out.map (fun m => m.text) = Example.messages.map (fun m => m.text) ∧
      ∀ i : Nat, (out[i]?).map (fun m : Message => m.text) =
        (Example.messages[i]?).map (fun m : Message => m.text)) :=
  ⟨(lipSync_preserves_order Js.latin1 Example.envReadsFail [1, 0] Example.messages "en").1.mpr
      (fun _ _ => ⟨0, by decide, rfl⟩),
   (lipSync_preserves_order Js.latin1 Example.envReadsFail [1, 0] Example.messages "en").2⟩

/-- C5: in every list that `lipSync` returns, and in every list of messages
that the `/tts` handler sends after calling it, `audio` is null exactly when
`lipsync` is null, for every outcome of the file reads and of the phoneme
step. -/
theorem lipSync_audio_iff_lipsync (U : Js.Unicode) (env : LipSync.Env) (schedule : List Nat)
    (messages : List Message) (language : String)
    (hsched : schedule.Perm (List.range messages.length)) :
    (∀ out, LipSync.lipSync U env schedule messages language = some out →
      ∀ m ∈ out, (m.audio = none ↔ m.lipsync = none)) ∧
    (∀ m ∈ Server.ttsMessages U env schedule messages language,
      (m.audio = none ↔ m.lipsync = none)) := by
  have hfirst : ∀ out, LipSync.lipSync U env schedule messages language = some out →
      ∀ m ∈ out, (m.audio = none ↔ m.lipsync = none) := by
    intro out hout m hm
    obtain ⟨j, hj⟩ := List.getElem?_of_mem hm
    rw [LipSync.lipSync_getElem? U env schedule messages language hsched out hout j] at hj
    cases hmj : messages[j]? with
    | none => simp [hmj] at hj
    | some m0 =>
      simp only [hmj, Option.map_some', Option.some.injEq] at hj
      subst hj
      exact LipSync.alignMessage_paired U env language j m0
  refine ⟨hfirst, ?_⟩
  intro m hm
  unfold Server.ttsMessages at hm
  cases hl : LipSync.lipSync U env schedule messages language with
  | some out =>
    simp only [hl] at hm
    exact hfirst out hl m hm
  | none =>
    simp only [hl, List.mem_map] at hm
    obtain ⟨m0, -, rfl⟩ := hm
    simp

/-- Witness of C5: message 0 gets its audio and its track, the reads of
message 1 fail and leave both fields null. -/
theorem lipSync_audio_iff_lipsync_witness :
    [1, 0].Perm (List.range Example.messages.length) ∧
    (∃ out, LipSync.lipSync Js.latin1 Example.envReadsFail [1, 0] Example.messages "en" =
      some out) ∧
    (∀ out, LipSync.lipSync Js.latin1 Example.envReadsFail [1, 0] Example.messages "en" =
        some out → ∀ m ∈ out, (m.audio = none ↔ m.lipsync = none)) ∧
    (∀ m ∈ Server.ttsMessages Js.latin1 Example.envReadsFail [1, 0] Example.messages "en",
      (m.audio = none ↔ m.lipsync = none)) :=
  ⟨by decide, ⟨_, rfl⟩,
   (lipSync_audio_iff_lipsync Js.latin1 Example.envReadsFail [1, 0] Example.messages "en"
      (by decide)).1,
   (lipSync_audio_iff_lipsync Js.latin1 Example.envReadsFail [1, 0] Example.messages "en"
      (by decide)).2⟩

namespace LipSync

/-- When the synthesis of one message fails at each of its attempts, `lipSync`
fails as a whole. -/
theorem lipSync_none_of_failure (U : Js.Unicode) (env : Env) (schedule : List Nat)
    (messages : List Message) (language : String)
    (hfail : ∃ index, index < messages.length ∧ ∀ k, k < MAX_RETRIES → env.tts index k ≠ .ok) :
    lipSync U env schedule messages language = none := by
  obtain ⟨index, hlt, hk⟩ := hfail
  unfold lipSync
  split_ifs with h
  · exfalso
    obtain ⟨k, hk1, hk2⟩ := (allSynthesized_iff U env language messages).mp h index hlt
    exact hk k hk1 hk2
  · rfl

end LipSync

/-- C6 (counterexample): the synthesis of message 0 fails at each of its 10
attempts and the synthesis of message 1 succeeds at once; `lipSync` fails as a
whole and the `/tts` handler answers with the two messages of the reply, both
with `audio` and `lipsync` null, so message 1 does not receive its audio. -/
theorem lipSync_sibling_blocked :
    (∀ k, k < LipSync.MAX_RETRIES → Example.envFirstFails.tts 0 k ≠ .ok) ∧
    Example.envFirstFails.tts 1 0 = .ok ∧
    LipSync.lipSync Js.latin1 Example.envFirstFails [0, 1] Example.messages "en" = none ∧
    (Server.tts Js.latin1 true
      (fun _ _ => .result [⟨some "Hello there.", some "smile", some "TalkingOne"⟩,
        ⟨some "How are you?", some "smile", some "TalkingThree"⟩])
      Example.envFirstFails [0, 1] []
      { message := some "Tell me about Paris", language := some "en" }).status = 200 ∧
    (Server.tts Js.latin1 true
      (fun _ _ => .result [⟨some "Hello there.", some "smile", some "TalkingOne"⟩,
        ⟨some "How are you?", some "smile", some "TalkingThree"⟩])
      Example.envFirstFails [0, 1] []
      { message := some "Tell me about Paris", language := some "en" }).messages.map
      (fun m => (m.text, m.audio, m.lipsync)) =
        [("Hello there.", none, none), ("How are you?", none, none)] := by
  refine ⟨by decide, by decide, by decide, by decide, by decide⟩

/-- C6 (amended): when the synthesis of one message of a reply fails at each of
its `MAX_RETRIES` attempts, `lipSync` fails as a whole, also when the synthesis
of the other messages succeeds. The `/tts` handler then answers a request
whose text is not blank as follows: for the texts hi, hello and hey, and when
no key of the response generator is configured, with the status 500, the
error "Internal server error" and the default messages; otherwise (and for a
language that is not the name of a member of `Object.prototype`) with the
status 200, the language, and every message of the enhanced reply with
`audio` and `lipsync` null. -/
theorem lipSync_fails_as_a_whole (U : Js.Unicode) (openAIApiKey : Bool)
    (openAIChain : OpenAI.Chain) (env : LipSync.Env) (schedule : List Nat)
    (defaultResponse : List Message) (request : Server.TtsRequest) (userMessage : String)
    (hmessage : request.message = some userMessage)
    (hblank : ¬ (userMessage = "" ∨ Js.trim userMessage = "")) :
    (∀ (messages : List Message) (language : String),
      (∃ index, index < messages.length ∧
        ∀ k, k < LipSync.MAX_RETRIES → env.tts index k ≠ .ok) →
      LipSync.lipSync U env schedule messages language = none) ∧
    (["hi", "hello", "hey"].contains (Js.trim (U.toLowerCase userMessage)) = true →
      (∃ index, index < Server.enhancedDefault.length ∧
        ∀ k, k < LipSync.MAX_RETRIES → env.tts index k ≠ .ok) →
      Server.tts U openAIApiKey openAIChain env schedule defaultResponse request =
        { status := 500, error := some "Internal server error", messages := defaultResponse }) ∧
    (["hi", "hello", "hey"].contains (Js.trim (U.toLowerCase userMessage)) = false →
      openAIApiKey = false →
      (∃ index, index < (Server.createContextualFallback U userMessage
          (Server.ttsLanguage U request.language userMessage)).length ∧
        ∀ k, k < LipSync.MAX_RETRIES → env.tts index k ≠ .ok) →
      Server.tts U openAIApiKey openAIChain env schedule defaultResponse request =
        { status := 500, error := some "Internal server error", messages := defaultResponse }) ∧
    (["hi", "hello", "hey"].contains (Js.trim (U.toLowerCase userMessage)) = false →
      openAIApiKey = true →
      Server.ttsLanguage U request.language userMessage ∉ Js.objectPrototypeKeys →
      (∃ index, index < (OpenAI.processUserInput U openAIChain userMessage
          (Server.ttsLanguage U request.language userMessage)).length ∧
        ∀ k, k < LipSync.MAX_RETRIES → env.tts index k ≠ .ok) →
      Server.tts U openAIApiKey openAIChain env schedule defaultResponse request =
        { status := 200
          messages :=
            (Server.enhanceMessageWithEmotion U
              (OpenAI.processUserInput U openAIChain userMessage
                (Server.ttsLanguage U request.language userMessage))
              (Server.ttsLanguage U request.language userMessage)).map
              (fun msg => { msg with audio := none, lipsync := none })
          language := some (Server.ttsLanguage U request.language userMessage) }) := by
  refine ⟨fun messages language hfail =>
    LipSync.lipSync_none_of_failure U env schedule messages language hfail, ?_, ?_, ?_⟩
  · intro hgeneric hfail
    have hnone := LipSync.lipSync_none_of_failure U env schedule Server.enhancedDefault
      (Server.ttsLanguage U request.language userMessage) hfail
    unfold Server.tts
    simp only [hmessage, hblank, if_false, hgeneric, if_true, hnone]
  · intro hgeneric hkey hfail
    have hnone := LipSync.lipSync_none_of_failure U env schedule _
      (Server.ttsLanguage U request.language userMessage) hfail
    unfold Server.tts
    simp only [hmessage, hblank, if_false, hgeneric, Bool.false_eq_true, hkey, Bool.not_false,
      if_true, hnone]
  · intro hgeneric hkey _ hfail
    have hfail' : ∃ index, index < (Server.enhanceMessageWithEmotion U
        (OpenAI.processUserInput U openAIChain userMessage
          (Server.ttsLanguage U request.language userMessage))
        (Server.ttsLanguage U request.language userMessage)).length ∧
        ∀ k, k < LipSync.MAX_RETRIES → env.tts index k ≠ .ok := by
      obtain ⟨index, hlt, hk⟩ := hfail
      exact ⟨index, by simpa only [Server.enhanceMessageWithEmotion, List.length_map] using hlt, hk⟩
    have hnone := LipSync.lipSync_none_of_failure U env schedule _
      (Server.ttsLanguage U request.language userMessage) hfail'
    unfold Server.tts
    simp only [hmessage, hblank, if_false, hgeneric, Bool.false_eq_true, hkey, Bool.not_true,
      Server.ttsMessages, hnone]

/-- Witness of C6 (amended): the run in which only message 0 fails, for the
text "hello" (the status 500) and for a text answered by the response
generator (the status 200, both messages without audio). -/
theorem lipSync_fails_as_a_whole_witness :
    Server.tts Js.latin1 true (fun _ _ => .thrown) Example.envFirstFails [0, 1] Example.messages
        { message := some "hello", language := some "en" } =
      { status := 500, error := some "Internal server error", messages := Example.messages } ∧
    (Server.tts Js.latin1 true (fun _ _ => .thrown) Example.envFirstFails [0, 1] Example.messages
        { message := some "Tell me about Paris", language := some "en" }).messages.map
      (fun m => (m.audio, m.lipsync)) = [(none, none), (none, none)] :=
  ⟨(lipSync_fails_as_a_whole Js.latin1 true (fun _ _ => .thrown) Example.envFirstFails [0, 1]
      Example.messages { message := some "hello", language := some "en" } "hello" rfl
      (by decide)).2.1 (by decide) ⟨0, by decide, by decide⟩,
   by
    rw [(lipSync_fails_as_a_whole Js.latin1 true (fun _ _ => .thrown) Example.envFirstFails [0, 1]
      Example.messages { message := some "Tell me about Paris", language := some "en" }
      "Tell me about Paris" rfl (by decide)).2.2.2 (by decide) rfl (by decide)
      ⟨0, by decide, by decide⟩]
    decide⟩

/-! ## The degraded path of the aligner -/

theorem Rhubarb.estimateTextDuration_pos (text language : String) :
    0 < Rhubarb.estimateTextDuration text language := by
  unfold Rhubarb.estimateTextDuration
  split_ifs
  · exact one_pos
  · exact lt_max_of_lt_right (by norm_num)

theorem lookup_getD_ind {α : Type} (P : α → Prop) (dflt : α) (key : String) (hd : P dflt) :
    ∀ (table : List (String × α)), (∀ p ∈ table, P p.2) → P ((table.lookup key).getD dflt) := by
  intro table
  induction table with
  | nil => intro _; exact hd
  | cons p rest ih =>
    intro h
    obtain ⟨k, v⟩ := p
    rw [List.lookup_cons]
    cases hk : key == k with
    | true => exact h (k, v) (List.mem_cons_self _ _)
    | false => exact ih (fun q hq => h q (List.mem_cons_of_mem _ hq))

theorem Rhubarb.createAdvancedFallback_wellFormed (message : Nat)
    (language emotion text : String) :
    WellFormedFallback (Rhubarb.createAdvancedFallback message language emotion text) := by
  have hd := Rhubarb.estimateTextDuration_pos text language
  unfold Rhubarb.createAdvancedFallback WellFormedFallback Rhubarb.createLanguageFallbackPattern
  generalize Rhubarb.estimateTextDuration text language = d at hd
  refine ⟨rfl, hd, ?_⟩
  simp only
  apply lookup_getD_ind (fun cues : List MouthCue => WellFormedCues d (cues.map _))
  · simp [WellFormedCues, List.Chain']
    and_intros <;> linarith
  · intro p hp
    simp only [List.mem_cons, List.mem_singleton, List.not_mem_nil, or_false] at hp
    rcases hp with rfl | rfl | rfl | rfl <;>
      simp [WellFormedCues, List.Chain'] <;>
      and_intros <;> linarith

theorem LipSync.createLanguageFallback_wellFormed (language text : String) :
    WellFormedFallback (LipSync.createLanguageFallback language text) := by
  have hd : (0 : ℚ) < max ((Js.length text : ℚ) * (8/100)) 1 := lt_max_of_lt_right one_pos
  unfold LipSync.createLanguageFallback WellFormedFallback
  generalize max ((Js.length text : ℚ) * (8/100)) 1 = d at hd
  refine ⟨rfl, hd, ?_⟩
  simp only
  apply lookup_getD_ind (fun cues : List MouthCue => WellFormedCues d cues)
  · simp [WellFormedCues, List.Chain']
    and_intros <;> linarith
  · intro p hp
    simp only [List.mem_cons, List.mem_singleton, List.not_mem_nil, or_false] at hp
    rcases hp with rfl | rfl | rfl | rfl | rfl | rfl <;>
      simp [WellFormedCues, List.Chain'] <;>
      and_intros <;> linarith

/-- C10 (outside the failing inputs): for every text and every language that
is not the name of a member of `Object.prototype`, the track of the degraded
path, built by `createAdvancedFallback` (with `estimateTextDuration` and
`createLanguageFallbackPattern`) or by `createLanguageFallback`, has
`metadata.fallback = true`, a duration greater than 0, and 2 or 3 cues that
start at 0, are sorted by start, each one starting where the previous one
ends, and whose last end equals `metadata.duration`. -/
theorem fallback_track_wellFormed (message : Nat) (language emotion text : String)
    (_hkey : language ∉ Js.objectPrototypeKeys) :
    WellFormedFallback (Rhubarb.createAdvancedFallback message language emotion text) ∧
    WellFormedFallback (LipSync.createLanguageFallback language text) :=
  ⟨Rhubarb.createAdvancedFallback_wellFormed message language emotion text,
   LipSync.createLanguageFallback_wellFormed language text⟩

/-- Witness of C10: the two tracks of the text "Bonjour" for the language fr. -/
theorem fallback_track_wellFormed_witness :
    "fr" ∉ Js.objectPrototypeKeys ∧
    WellFormedFallback (Rhubarb.createAdvancedFallback 0 "fr" "default" "Bonjour") ∧
    WellFormedFallback (LipSync.createLanguageFallback "fr" "Bonjour") :=
  ⟨by decide, fallback_track_wellFormed 0 "fr" "default" "Bonjour" (by decide)⟩

/-! ## Post-processing of the phoneme cues -/

namespace Rhubarb

theorem applySmoothingTransitions_times (c p : MouthCue) (language : String) :
    (applySmoothingTransitions c p language).start = c.start ∧
    (applySmoothingTransitions c p language).stop = c.stop := by
  unfold applySmoothingTransitions
  simp only
  split_ifs <;> exact ⟨rfl, rfl⟩

theorem processCue_times (U : Js.Unicode) (language emotion : String)
    (previous : Option MouthCue) (cue : MouthCue) :
    (processCue U language emotion previous cue).start = cue.start ∧
    (processCue U language emotion previous cue).stop =
      cue.start + max ((cue.stop - cue.start) * (timingAdjustment language).1)
        (timingAdjustment language).2 := by
  unfold processCue
  simp only
  cases previous with
  | none =>
    simp only [applyLanguageTimingAdjustments]
    split_ifs <;> exact ⟨rfl, rfl⟩
  | some p =>
    simp only
    rw [(applySmoothingTransitions_times _ p language).1,
      (applySmoothingTransitions_times _ p language).2]
    simp only [applyLanguageTimingAdjustments]
    split_ifs <;> exact ⟨rfl, rfl⟩

theorem processCues_start (U : Js.Unicode) (language emotion : String) :
    ∀ (cues : List MouthCue) (previous : Option MouthCue),
      (processCues U language emotion previous cues).map (fun c => c.start) =
        cues.map (fun c => c.start) := by
  intro cues
  induction cues with
  | nil => intro _; rfl
  | cons c rest ih =>
    intro previous
    simp only [processCues, List.map_cons, ih, (processCue_times U language emotion previous c).1]

theorem processCues_stop (U : Js.Unicode) (language emotion : String) :
    ∀ (cues : List MouthCue) (previous : Option MouthCue),
      (processCues U language emotion previous cues).map (fun c => c.stop) =
        cues.map (fun c => c.start + max ((c.stop - c.start) * (timingAdjustment language).1)
          (timingAdjustment language).2) := by
  intro cues
  induction cues with
  | nil => intro _; rfl
  | cons c rest ih =>
    intro previous
    simp only [processCues, List.map_cons, ih, (processCue_times U language emotion previous c).2]

end Rhubarb

theorem Rhubarb.timingAdjustment_es : Rhubarb.timingAdjustment "es" = (11/10, 5/100) := by
  simp [Rhubarb.timingAdjustment, Rhubarb.timingAdjustments, List.lookup]

/-- C11 (counterexample): two adjacent raw cues, from 0 to 1 and from 1 to 2,
are sorted and do not overlap; for the language es the first processed cue
ends at 1.1, after the start of the second one. -/
theorem processPhonemeData_overlap :
    SortedByStart Example.rawTrack.mouthCues ∧ NonOverlapping Example.rawTrack.mouthCues ∧
    (Rhubarb.processPhonemeData Js.latin1 Example.rawTrack "es" "default" "hola").mouthCues.map
      (fun c => c.start) = [0, 1] ∧
    (Rhubarb.processPhonemeData Js.latin1 Example.rawTrack "es" "default" "hola").mouthCues.map
      (fun c => c.stop) = [11/10, 21/10] ∧
    ¬ NonOverlapping
      (Rhubarb.processPhonemeData Js.latin1 Example.rawTrack "es" "default" "hola").mouthCues := by
  have hstart := Rhubarb.processCues_start Js.latin1 "es" "default" Example.rawTrack.mouthCues none
  have hstop := Rhubarb.processCues_stop Js.latin1 "es" "default" Example.rawTrack.mouthCues none
  rw [Rhubarb.timingAdjustment_es] at hstop
  have hstart2 : (Rhubarb.processPhonemeData Js.latin1 Example.rawTrack "es" "default"
      "hola").mouthCues.map (fun c => c.start) = [0, 1] := by
    simp only [Rhubarb.processPhonemeData, hstart]
    simp [Example.rawTrack]
  have hstop2 : (Rhubarb.processPhonemeData Js.latin1 Example.rawTrack "es" "default"
      "hola").mouthCues.map (fun c => c.stop) = [11/10, 21/10] := by
    simp only [Rhubarb.processPhonemeData, hstop]
    simp only [Example.rawTrack, List.map_cons, List.map_nil]
    norm_num
  refine ⟨?_, ?_, hstart2, hstop2, ?_⟩
  · simp [SortedByStart, Example.rawTrack, List.Chain']
  · simp [NonOverlapping, Example.rawTrack, List.Chain']
  · intro h
    unfold NonOverlapping at h
    generalize (Rhubarb.processPhonemeData Js.latin1 Example.rawTrack "es" "default"
      "hola").mouthCues = out at hstart2 hstop2 h
    rcases out with _ | ⟨a, _ | ⟨b, _ | ⟨c, rest⟩⟩⟩
    · simp at hstart2
    · simp at hstart2
    · simp only [List.map_cons, List.map_nil, List.cons.injEq, and_true] at hstart2 hstop2
      rw [List.chain'_cons] at h
      have := h.1
      rw [hstop2.1, hstart2.2] at this
      norm_num at this
    · simp at hstart2

theorem sortedByStart_iff (cues : List MouthCue) :
    SortedByStart cues ↔ (cues.map (fun c => c.start)).Chain' (fun a b => a ≤ b) := by
  unfold SortedByStart
  rw [List.chain'_map]

/-- C11 (amended): for every raw track, language, emotion and text, the cues
returned by `processPhonemeData` are as many as the raw cues and each one
keeps the `start` of its raw cue, so they are sorted by start when the raw
cues are. (The `end` of each cue is computed anew from the language, and
non-overlap is not kept.) -/
theorem processPhonemeData_cues (U : Js.Unicode) (rawData : VisemeTrack)
    (language emotion text : String) :
    (Rhubarb.processPhonemeData U rawData language emotion text).mouthCues.length =
      rawData.mouthCues.length ∧
    (Rhubarb.processPhonemeData U rawData language emotion text).mouthCues.map (fun c => c.start) =
      rawData.mouthCues.map (fun c => c.start) ∧
    (SortedByStart rawData.mouthCues →
      SortedByStart (Rhubarb.processPhonemeData U rawData language emotion text).mouthCues) := by
  have hstart := Rhubarb.processCues_start U language emotion rawData.mouthCues none
  refine ⟨?_, hstart, ?_⟩
  · have := congrArg List.length hstart
    simpa only [List.length_map] using this
  · intro h
    rw [sortedByStart_iff] at h ⊢
    simp only [Rhubarb.processPhonemeData]
    rw [hstart]
    exact h

/-- Witness of C11 (amended): for the language es the two adjacent cues of one
second stay sorted by start, although they come back overlapping. -/
theorem processPhonemeData_cues_witness :
    SortedByStart Example.rawTrack.mouthCues ∧
    SortedByStart
      (Rhubarb.processPhonemeData Js.latin1 Example.rawTrack "es" "default" "hola").mouthCues :=
  ⟨by simp [SortedByStart, Example.rawTrack, List.Chain'],
   (processPhonemeData_cues Js.latin1 Example.rawTrack "es" "default" "hola").2.2
      (by simp [SortedByStart, Example.rawTrack, List.Chain'])⟩

/-! ## The speech transcriber -/

namespace Whisper

theorem validateAudio_eq_none (length : Nat) :
    validateAudio length = none ↔ 1000 ≤ length ∧ length ≤ 26214400 := by
  unfold validateAudio MIN_FILE_SIZE MAX_FILE_SIZE
  split_ifs <;> simp <;> omega

theorem lookup_mem {α : Type} (key : String) :
    ∀ (table : List (String × α)) (v : α), table.lookup key = some v → (key, v) ∈ table := by
  intro table
  induction table with
  | nil => intro v h; simp at h
  | cons p rest ih =>
    intro v h
    obtain ⟨k, w⟩ := p
    rw [List.lookup_cons] at h
    cases hk : key == k with
    | true =>
      simp only [hk] at h
      have hkey : key = k := by simpa using hk
      cases h
      rw [hkey]
      exact List.mem_cons_self _ _
    | false =>
      simp only [hk] at h
      exact List.mem_cons_of_mem _ (ih v h)

theorem lookup_eq_none {α : Type} (key : String) :
    ∀ (table : List (String × α)), (∀ p ∈ table, p.1 ≠ key) → table.lookup key = none := by
  intro table
  induction table with
  | nil => intro _; rfl
  | cons p rest ih =>
    intro h
    obtain ⟨k, w⟩ := p
    rw [List.lookup_cons]
    have hk : (key == k) = false := by
      have := h (k, w) (List.mem_cons_self _ _)
      simpa using fun h' => this h'.symm
    simp only [hk]
    exact ih (fun q hq => h q (List.mem_cons_of_mem _ hq))

theorem mappings_values : ∀ p ∈ LANGUAGE_MAPPINGS, ∀ m, p.2 = some m → m ∈ supportedLanguages := by
  decide

theorem normalize_of_lookup (U : Js.Unicode) (language : String)
    (hne : ¬ (language = "" ∨ language = "auto")) :
    (∀ m, LANGUAGE_MAPPINGS.lookup (U.toLowerCase language) = some (some m) →
      normalizeLanguageCode U language = some m) ∧
    ((LANGUAGE_MAPPINGS.lookup (U.toLowerCase language) = some none ∨
        LANGUAGE_MAPPINGS.lookup (U.toLowerCase language) = none) →
      normalizeLanguageCode U language =
        if isTwoLetterCode (U.toLowerCase language) then some (U.toLowerCase language)
        else none) := by
  unfold normalizeLanguageCode
  rw [if_neg hne]
  constructor
  · intro m hl
    simp [hl]
  · rintro (hl | hl) <;> simp [hl]

end Whisper

/-- C12: for every audio buffer whose length is 0, below 1000 bytes or above
26214400 bytes, `convertAudioToText` fails without any call of the
transcription service, and a buffer passes the validation exactly when its
length lies in [1000, 26214400]. -/
theorem convertAudioToText_validation (U : Js.Unicode) (env : Whisper.Env)
    (invocation base length : Nat) (language : String) :
    ((length = 0 ∨ length < 1000 ∨ 26214400 < length) →
      (∃ e, (Whisper.convertAudioToText U env invocation base length language).result =
        .error e) ∧
      (Whisper.convertAudioToText U env invocation base length language).calls = 0) ∧
    (Whisper.validateAudio length = none ↔ 1000 ≤ length ∧ length ≤ 26214400) := by
  refine ⟨?_, Whisper.validateAudio_eq_none length⟩
  intro hbad
  have hv : Whisper.validateAudio length ≠ none := by
    rw [Ne, Whisper.validateAudio_eq_none]
    omega
  unfold Whisper.convertAudioToText
  cases hc : env.clientInitialized with
  | false => exact ⟨⟨_, rfl⟩, rfl⟩
  | true =>
    cases hval : Whisper.validateAudio length with
    | none => exact absurd hval hv
    | some e => exact ⟨⟨_, rfl⟩, rfl⟩

/-- Witness of C12: a buffer of 500 bytes, with a service that would answer. -/
theorem convertAudioToText_validation_witness :
    (∃ e, (Whisper.convertAudioToText Js.latin1
        ⟨true, fun _ => .ok { text := some "Hello" }, fun _ => {}⟩ 0 0 500 "auto").result =
      .error e) ∧
    (Whisper.convertAudioToText Js.latin1
      ⟨true, fun _ => .ok { text := some "Hello" }, fun _ => {}⟩ 0 0 500 "auto").calls = 0 :=
  (convertAudioToText_validation Js.latin1
    ⟨true, fun _ => .ok { text := some "Hello" }, fun _ => {}⟩ 0 0 500 "auto").1
    (Or.inr (Or.inl (by decide)))

/-- C14 (counterexample): the code ko is neither a known language name nor one
of the 11 supported codes, and `normalizeLanguageCode` returns it as the
language hint. -/
theorem normalizeLanguageCode_unsupported_code :
    "ko" ∉ supportedLanguages ∧ "ko" ∉ Whisper.languageNames.map Prod.fst ∧
    Whisper.normalizeLanguageCode Js.latin1 "ko" = some "ko" ∧
    Whisper.normalizeLanguageCode Js.latin1 "KO" = some "ko" := by
  refine ⟨by decide, by decide, by decide, by decide⟩

/-- C14 (amended): `normalizeLanguageCode` returns no language hint when the
string is empty or "auto"; otherwise, with the lower-cased string, it returns
the canonical tag of a known language name or of a supported code, no hint for
"auto", and for any other string that is not the name of a member of
`Object.prototype` the lower-cased string itself when it is made of two
letters a to z and no hint when it is not. For a string whose lower-case form
is not the name of a member of `Object.prototype` its result is therefore
absent, one of the 11 supported tags, or a two-letter lower-case code. -/
theorem normalizeLanguageCode_cases (U : Js.Unicode) (language : String) :
    ((language = "" ∨ language = "auto") → Whisper.normalizeLanguageCode U language = none) ∧
    (language ≠ "" → language ≠ "auto" →
      (∀ p ∈ Whisper.languageNames, U.toLowerCase language = p.1 →
        Whisper.normalizeLanguageCode U language = some p.2) ∧
      (∀ tag ∈ supportedLanguages, U.toLowerCase language = tag →
        Whisper.normalizeLanguageCode U language = some tag) ∧
      (U.toLowerCase language = "auto" → Whisper.normalizeLanguageCode U language = none) ∧
      (U.toLowerCase language ∉ Whisper.languageNames.map Prod.fst →
        U.toLowerCase language ∉ supportedLanguages → U.toLowerCase language ≠ "auto" →
        U.toLowerCase language ∉ Js.objectPrototypeKeys →
        Whisper.normalizeLanguageCode U language =
          if Whisper.isTwoLetterCode (U.toLowerCase language) then some (U.toLowerCase language)
          else none)) ∧
    (U.toLowerCase language ∉ Js.objectPrototypeKeys →
      Whisper.normalizeLanguageCode U language = none ∨
      (∃ tag ∈ supportedLanguages, Whisper.normalizeLanguageCode U language = some tag) ∨
      (Whisper.normalizeLanguageCode U language = some (U.toLowerCase language) ∧
        Whisper.isTwoLetterCode (U.toLowerCase language) = true)) := by
  refine ⟨?_, ?_, ?_⟩
  · intro h
    unfold Whisper.normalizeLanguageCode
    rw [if_pos h]
  · intro h1 h2
    have hne : ¬ (language = "" ∨ language = "auto") := by
      rintro (h | h)
      · exact h1 h
      · exact h2 h
    unfold Whisper.normalizeLanguageCode
    rw [if_neg hne]
    refine ⟨?_, ?_, ?_, ?_⟩
    · intro p hp hlow
      simp only [hlow]
      simp only [Whisper.languageNames, List.mem_cons, List.mem_singleton, List.not_mem_nil,
        or_false] at hp
      rcases hp with rfl | rfl | rfl | rfl | rfl | rfl | rfl | rfl | rfl | rfl | rfl <;> decide
    · intro tag htag hlow
      simp only [hlow]
      simp only [supportedLanguages, List.mem_cons, List.mem_singleton, List.not_mem_nil,
        or_false] at htag
      rcases htag with rfl | rfl | rfl | rfl | rfl | rfl | rfl | rfl | rfl | rfl | rfl <;> decide
    · intro hlow
      simp only [hlow]
      decide
    · intro hn hs ha _
      have hnone : Whisper.LANGUAGE_MAPPINGS.lookup (U.toLowerCase language) = none := by
        apply Whisper.lookup_eq_none
        intro p hp
        simp only [Whisper.LANGUAGE_MAPPINGS, List.mem_append, List.mem_map, List.mem_singleton]
          at hp
        rcases hp with (⟨q, hq, rfl⟩ | rfl) | ⟨tag, htag, rfl⟩
        · intro h
          exact hn (List.mem_map.mpr ⟨q, hq, h⟩)
        · exact fun h => ha h.symm
        · intro h
          exact hs (h ▸ htag)
      have := (Whisper.normalize_of_lookup U language hne).2 (Or.inr hnone)
      unfold Whisper.normalizeLanguageCode at this
      rw [if_neg hne] at this
      exact this
  · intro _
    by_cases h : language = "" ∨ language = "auto"
    · left
      unfold Whisper.normalizeLanguageCode
      rw [if_pos h]
    · obtain ⟨hsome, hnone⟩ := Whisper.normalize_of_lookup U language h
      cases hl : Whisper.LANGUAGE_MAPPINGS.lookup (U.toLowerCase language) with
      | none =>
        rw [hnone (Or.inr hl)]
        split_ifs with h2
        · right; right; exact ⟨rfl, h2⟩
        · left; rfl
      | some v =>
        cases v with
        | none =>
          rw [hnone (Or.inl hl)]
          split_ifs with h2
          · right; right; exact ⟨rfl, h2⟩
          · left; rfl
        | some m =>
          right; left
          exact ⟨m, Whisper.mappings_values _ (Whisper.lookup_mem _ _ _ hl) m rfl, hsome m hl⟩

/-- Witness of C14 (amended): the name "Spanish" and the code "DE". -/
theorem normalizeLanguageCode_cases_witness :
    Whisper.normalizeLanguageCode Js.latin1 "Spanish" = some "es" ∧
    Whisper.normalizeLanguageCode Js.latin1 "DE" = some "de" :=
  ⟨((normalizeLanguageCode_cases Js.latin1 "Spanish").2.1 (by decide) (by decide)).1
      ("spanish", "es") (by decide) (by decide),
   ((normalizeLanguageCode_cases Js.latin1 "DE").2.1 (by decide) (by decide)).2.1
      "de" (by decide) (by decide)⟩

namespace Whisper

theorem transcribe_first (call : Nat → ApiOutcome) :
    (∀ t, call 1 = .ok t → transcribe call = ⟨.ok t, 1, []⟩) ∧
    (∀ e, call 1 = .error e → (e.status = some 400 ∨ e.status = some 413) →
      transcribe call = ⟨.error e, 1, []⟩) := by
  constructor
  · intro t h
    simp [transcribe, transcribeFrom, h]
  · intro e h hs
    simp [transcribe, transcribeFrom, h, hs]

theorem transcribe_second (call : Nat → ApiOutcome) (e1 : JsError) (h1 : call 1 = .error e1)
    (hr1 : e1.status ≠ some 400 ∧ e1.status ≠ some 413) :
    (∀ t, call 2 = .ok t → transcribe call = ⟨.ok t, 2, [2000]⟩) ∧
    (∀ e, call 2 = .error e → (e.status = some 400 ∨ e.status = some 413) →
      transcribe call = ⟨.error e, 2, [2000]⟩) := by
  constructor
  · intro t h
    simp [transcribe, transcribeFrom, h, h1, hr1.1, hr1.2]
  · intro e h hs
    simp [transcribe, transcribeFrom, h, h1, hr1.1, hr1.2, hs]

theorem transcribe_third (call : Nat → ApiOutcome) (e1 e2 : JsError)
    (h1 : call 1 = .error e1) (hr1 : e1.status ≠ some 400 ∧ e1.status ≠ some 413)
    (h2 : call 2 = .error e2) (hr2 : e2.status ≠ some 400 ∧ e2.status ≠ some 413) :
    (∀ t, call 3 = .ok t → transcribe call = ⟨.ok t, 3, [2000, 4000]⟩) ∧
    (∀ e, call 3 = .error e → transcribe call = ⟨.error e, 3, [2000, 4000]⟩) := by
  constructor
  · intro t h
    simp [transcribe, transcribeFrom, h, h1, h2, hr1.1, hr1.2, hr2.1, hr2.2]
  · intro e h
    by_cases hs : e.status = some 400 ∨ e.status = some 413
    · simp [transcribe, transcribeFrom, h, h1, h2, hr1.1, hr1.2, hr2.1, hr2.2, hs]
    · have hs' : e.status ≠ some 400 ∧ e.status ≠ some 413 := by
        constructor
        · exact fun h' => hs (Or.inl h')
        · exact fun h' => hs (Or.inr h')
      simp [transcribe, transcribeFrom, h, h1, h2, hr1.1, hr1.2, hr2.1, hr2.2, hs'.1, hs'.2]

theorem transcribe_calls_le (call : Nat → ApiOutcome) : (transcribe call).calls ≤ 3 := by
  cases h1 : call 1 with
  | ok t => rw [(transcribe_first call).1 t h1]; simp
  | error e1 =>
    by_cases hs1 : e1.status = some 400 ∨ e1.status = some 413
    · rw [(transcribe_first call).2 e1 h1 hs1]; simp
    · have hr1 : e1.status ≠ some 400 ∧ e1.status ≠ some 413 :=
        ⟨fun h' => hs1 (Or.inl h'), fun h' => hs1 (Or.inr h')⟩
      cases h2 : call 2 with
      | ok t => rw [(transcribe_second call e1 h1 hr1).1 t h2]; simp
      | error e2 =>
        by_cases hs2 : e2.status = some 400 ∨ e2.status = some 413
        · rw [(transcribe_second call e1 h1 hr1).2 e2 h2 hs2]; simp
        · have hr2 : e2.status ≠ some 400 ∧ e2.status ≠ some 413 :=
            ⟨fun h' => hs2 (Or.inl h'), fun h' => hs2 (Or.inr h')⟩
          cases h3 : call 3 with
          | ok t => rw [(transcribe_third call e1 e2 h1 hr1 h2 hr2).1 t h3]
          | error e3 => rw [(transcribe_third call e1 e2 h1 hr1 h2 hr2).2 e3 h3]

theorem convertAudioToText_run (U : Js.Unicode) (env : Env) (invocation base length : Nat)
    (language : String) (hclient : env.clientInitialized = true)
    (hvalid : validateAudio length = none) (hwrite : (env.files invocation).writeError = none)
    (hconv : (env.files invocation).conversionOk = true ∨
      (env.files invocation).copyError = none) :
    (convertAudioToText U env invocation base length language).detectionCalls =
      (if language = "auto" ∨ normalizeLanguageCode U language = none then 1 else 0) ∧
    (convertAudioToText U env invocation base length language).calls =
      (convertAudioToText U env invocation base length language).detectionCalls +
      (transcribe (fun attempt => env.api (base +
        (convertAudioToText U env invocation base length language).detectionCalls +
          attempt - 1))).calls ∧
    (convertAudioToText U env invocation base length language).delays =
      (transcribe (fun attempt => env.api (base +
        (convertAudioToText U env invocation base length language).detectionCalls +
          attempt - 1))).delays := by
  have hfile : (if (env.files invocation).conversionOk = true then none
      else (env.files invocation).copyError) = none := by
    rcases hconv with h | h
    · rw [if_pos h]
    · split_ifs
      · rfl
      · exact h
  unfold convertAudioToText
  simp only [hclient, hvalid, hwrite, hfile, Bool.not_true, Bool.false_eq_true, if_false]
  have hd : (decide (language = "auto") || (normalizeLanguageCode U language).isNone) = true ↔
      (language = "auto" ∨ normalizeLanguageCode U language = none) := by
    simp [Option.isNone_iff_eq_none]
  by_cases hdet : language = "auto" ∨ normalizeLanguageCode U language = none
  · have hb := hd.mpr hdet
    simp only [hb, if_true, if_pos hdet]
    split
    · exact ⟨rfl, rfl, rfl⟩
    · split <;> exact ⟨rfl, rfl, rfl⟩
  · have hb : (decide (language = "auto") || (normalizeLanguageCode U language).isNone) = false := by
      rw [Bool.eq_false_iff, Ne, hd]
      exact hdet
    simp only [hb, Bool.false_eq_true, if_false, if_neg hdet]
    split
    · exact ⟨rfl, rfl, rfl⟩
    · split <;> exact ⟨rfl, rfl, rfl⟩

end Whisper

namespace Whisper

theorem convertAudioToText_early (U : Js.Unicode) (env : Env) (invocation base length : Nat)
    (language : String)
    (h : ¬ (env.clientInitialized = true ∧ validateAudio length = none ∧
      (env.files invocation).writeError = none ∧
      ((env.files invocation).conversionOk = true ∨ (env.files invocation).copyError = none))) :
    (convertAudioToText U env invocation base length language).calls = 0 ∧
    (convertAudioToText U env invocation base length language).detectionCalls = 0 ∧
    (convertAudioToText U env invocation base length language).delays = [] := by
  unfold convertAudioToText
  cases hc : env.clientInitialized with
  | false => simp
  | true =>
    cases hv : validateAudio length with
    | some e => simp
    | none =>
      cases hw : (env.files invocation).writeError with
      | some e => simp [hw]
      | none =>
        cases hk : (env.files invocation).conversionOk with
        | true => exact absurd ⟨hc, hv, hw, Or.inl hk⟩ h
        | false =>
          cases hcp : (env.files invocation).copyError with
          | none => exact absurd ⟨hc, hv, hw, Or.inr hcp⟩ h
          | some e => simp [hw, hk, hcp]

theorem retryable_error (o : ApiOutcome) (h : Retryable o) :
    ∃ e, o = .error e ∧ e.status ≠ some 400 ∧ e.status ≠ some 413 := h

end Whisper

/-- C15 (counterexample): with the language "auto" the detection of the
language is one call of the transcription service, made before the retry
loop; when the three attempts of the loop then fail with status 500,
`convertAudioToText` has called the service 4 times. -/
theorem convertAudioToText_four_calls :
    (Whisper.convertAudioToText Js.latin1 Example.envServerErrors 0 0 2000 "auto").calls = 4 ∧
    (Whisper.convertAudioToText Js.latin1 Example.envServerErrors 0 0 2000 "auto").detectionCalls
      = 1 ∧
    (Whisper.convertAudioToText Js.latin1 Example.envServerErrors 0 0 2000 "auto").delays =
      [2000, 4000] := by
  obtain ⟨hd, hc, hdel⟩ := Whisper.convertAudioToText_run Js.latin1 Example.envServerErrors 0 0
    2000 "auto" rfl (by decide) rfl (Or.inl rfl)
  rw [if_pos (Or.inl rfl)] at hd
  rw [hd] at hc hdel
  have hloop := (Whisper.transcribe_third
    (fun attempt => Example.envServerErrors.api (0 + 1 + attempt - 1))
    { message := "Internal server error", status := some 500 }
    { message := "Internal server error", status := some 500 }
    rfl (by decide) rfl (by decide)).2
    { message := "Internal server error", status := some 500 } rfl
  rw [hloop] at hc hdel
  exact ⟨hc, hd, hdel⟩

/-- C15 (amended): in `convertAudioToText` the retry loop calls the
transcription service at most 3 times, after at most one more call of the
same service for the detection of the language (made when the language is
"auto" or is not recognised), so at most 4 calls in all. The loop stops at the
first success; a failure with status 400 or 413 on attempt k is propagated
after exactly k calls of the loop; and after each failed attempt j that is
retried (j = 1, 2) the loop waits 2^j × 1000 ms before attempt j + 1. -/
theorem convertAudioToText_retry (U : Js.Unicode) (env : Whisper.Env)
    (invocation base length : Nat) (language : String) :
    ((Whisper.convertAudioToText U env invocation base length language).calls ≤ 4 ∧
      (Whisper.convertAudioToText U env invocation base length language).detectionCalls ≤ 1 ∧
      (Whisper.convertAudioToText U env invocation base length language).calls -
        (Whisper.convertAudioToText U env invocation base length language).detectionCalls ≤ 3) ∧
    (env.clientInitialized = true → Whisper.validateAudio length = none →
      (env.files invocation).writeError = none →
      ((env.files invocation).conversionOk = true ∨ (env.files invocation).copyError = none) →
      (Whisper.convertAudioToText U env invocation base length language).detectionCalls =
        (if language = "auto" ∨ Whisper.normalizeLanguageCode U language = none then 1 else 0) ∧
      (Whisper.convertAudioToText U env invocation base length language).calls =
        (Whisper.convertAudioToText U env invocation base length language).detectionCalls +
        (Whisper.transcribe (fun attempt => env.api (base +
          (Whisper.convertAudioToText U env invocation base length language).detectionCalls +
            attempt - 1))).calls ∧
      (Whisper.convertAudioToText U env invocation base length language).delays =
        (Whisper.transcribe (fun attempt => env.api (base +
          (Whisper.convertAudioToText U env invocation base length language).detectionCalls +
            attempt - 1))).delays) ∧
    (∀ call : Nat → Whisper.ApiOutcome,
      (Whisper.transcribe call).calls ≤ 3 ∧
      ∀ k, 1 ≤ k → k ≤ 3 → (∀ j, 1 ≤ j → j < k → Whisper.Retryable (call j)) →
        (∀ t, call k = .ok t → Whisper.transcribe call = ⟨.ok t, k, Whisper.backoffs k⟩) ∧
        (∀ e, call k = .error e → (e.status = some 400 ∨ e.status = some 413) →
          Whisper.transcribe call = ⟨.error e, k, Whisper.backoffs k⟩) ∧
        (∀ e, k = 3 → call k = .error e →
          Whisper.transcribe call = ⟨.error e, k, Whisper.backoffs k⟩)) := by
  refine ⟨?_, ?_, ?_⟩
  · by_cases h : env.clientInitialized = true ∧ Whisper.validateAudio length = none ∧
        (env.files invocation).writeError = none ∧
        ((env.files invocation).conversionOk = true ∨ (env.files invocation).copyError = none)
    · obtain ⟨hd, hc, -⟩ := Whisper.convertAudioToText_run U env invocation base length language
        h.1 h.2.1 h.2.2.1 h.2.2.2
      have hle := Whisper.transcribe_calls_le (fun attempt => env.api (base +
        (Whisper.convertAudioToText U env invocation base length language).detectionCalls +
          attempt - 1))
      have hd1 : (Whisper.convertAudioToText U env invocation base length language).detectionCalls
          ≤ 1 := by
        rw [hd]
        split_ifs <;> simp
      omega
    · obtain ⟨hc, hd, -⟩ := Whisper.convertAudioToText_early U env invocation base length
        language h
      omega
  · intro h1 h2 h3 h4
    exact Whisper.convertAudioToText_run U env invocation base length language h1 h2 h3 h4
  · intro call
    refine ⟨Whisper.transcribe_calls_le call, ?_⟩
    intro k hk1 hk3 hretry
    have hk : k = 1 ∨ k = 2 ∨ k = 3 := by omega
    rcases hk with rfl | rfl | rfl
    · refine ⟨?_, ?_, ?_⟩
      · intro t ht
        exact (Whisper.transcribe_first call).1 t ht
      · intro e he hs
        exact (Whisper.transcribe_first call).2 e he hs
      · intro e h
        omega
    · obtain ⟨e1, h1, hr1⟩ := hretry 1 (le_refl _) (by omega)
      refine ⟨?_, ?_, ?_⟩
      · intro t ht
        exact (Whisper.transcribe_second call e1 h1 hr1).1 t ht
      · intro e he hs
        exact (Whisper.transcribe_second call e1 h1 hr1).2 e he hs
      · intro e h
        omega
    · obtain ⟨e1, h1, hr1⟩ := hretry 1 (le_refl _) (by omega)
      obtain ⟨e2, h2, hr2⟩ := hretry 2 (by omega) (by omega)
      refine ⟨?_, ?_, ?_⟩
      · intro t ht
        exact (Whisper.transcribe_third call e1 e2 h1 hr1 h2 hr2).1 t ht
      · intro e he _
        exact (Whisper.transcribe_third call e1 e2 h1 hr1 h2 hr2).2 e he
      · intro e _ he
        exact (Whisper.transcribe_third call e1 e2 h1 hr1 h2 hr2).2 e he

/-- Witness of C15 (amended): a service that fails once with status 500 and
then answers; the loop makes 2 calls and waits 2000 ms in between. -/
theorem convertAudioToText_retry_witness :
    Whisper.transcribe (fun attempt =>
        if attempt = 1 then .error { message := "Internal server error", status := some 500 }
        else .ok { text := some "Hello" }) =
      ⟨.ok { text := some "Hello" }, 2, Whisper.backoffs 2⟩ ∧
    Whisper.backoffs 2 = [2000] :=
  ⟨(((convertAudioToText_retry Js.latin1 Example.envServerErrors 0 0 2000 "auto").2.2
      (fun attempt =>
        if attempt = 1 then .error { message := "Internal server error", status := some 500 }
        else .ok { text := some "Hello" })).2 2 (by decide) (by decide)
      (fun j hj1 hj2 => by
        have hj : j = 1 := by omega
        subst hj
        exact ⟨{ message := "Internal server error", status := some 500 }, rfl,
          by decide, by decide⟩)).1 { text := some "Hello" } rfl,
   by decide⟩

/-- C16 (counterexample): a service that rejects every call with status 401
is called 3 times by the retry loop, with waits of 2000 and 4000 ms, before the
error is thrown. -/
theorem convertAudioToText_retries_unauthorized :
    Whisper.transcribe (fun attempt => Example.envUnauthorized.api (attempt - 1)) =
      ⟨.error { message := "Incorrect API key provided", status := some 401 }, 3,
        [2000, 4000]⟩ ∧
    (Whisper.convertAudioToText Js.latin1 Example.envUnauthorized 0 0 2000 "en").calls = 3 := by
  have hloop : ∀ b : Nat, Whisper.transcribe (fun attempt =>
      Example.envUnauthorized.api (b + attempt - 1)) =
        ⟨.error { message := "Incorrect API key provided", status := some 401 }, 3,
          [2000, 4000]⟩ := fun b =>
    (Whisper.transcribe_third _
      { message := "Incorrect API key provided", status := some 401 }
      { message := "Incorrect API key provided", status := some 401 }
      rfl (by decide) rfl (by decide)).2
      { message := "Incorrect API key provided", status := some 401 } rfl
  refine ⟨by simpa using hloop 0, ?_⟩
  obtain ⟨hd, hc, -⟩ := Whisper.convertAudioToText_run Js.latin1 Example.envUnauthorized 0 0
    2000 "en" rfl (by decide) rfl (Or.inl rfl)
  have hne : ¬ ("en" = "auto" ∨ Whisper.normalizeLanguageCode Js.latin1 "en" = none) := by
    decide
  rw [if_neg hne] at hd
  rw [hd] at hc
  rw [hc, hloop (0 + 0)]
  rfl

/-- C16 (amended): in `convertAudioToText` only the failures with status 400
or 413 are not retried. An authentication failure (status 401 or 403) is
retried like any other failure: when each of the three attempts fails with
status 401 or 403 the service is called 3 times, with waits of 2000 and
4000 ms, and the error of the last attempt is then thrown; the caller receives
it as the error "OpenAI API authentication failed. Please check your API
key.". -/
theorem convertAudioToText_auth_failure (call : Nat → Whisper.ApiOutcome)
    (e1 e2 e3 : Whisper.JsError) (h1 : call 1 = .error e1) (h2 : call 2 = .error e2)
    (h3 : call 3 = .error e3) (hs1 : e1.status = some 401 ∨ e1.status = some 403)
    (hs2 : e2.status = some 401 ∨ e2.status = some 403)
    (hs3 : e3.status = some 401 ∨ e3.status = some 403) :
    Whisper.transcribe call = ⟨.error e3, 3, [2000, 4000]⟩ ∧
    Whisper.enhanceErrorMessage e3 =
      { message := "OpenAI API authentication failed. Please check your API key." } := by
  have hr : ∀ e : Whisper.JsError, (e.status = some 401 ∨ e.status = some 403) →
      e.status ≠ some 400 ∧ e.status ≠ some 413 ∧ e.status ≠ some 429 := by
    intro e he
    rcases he with he | he <;> rw [he] <;> simp
  refine ⟨(Whisper.transcribe_third call e1 e2 h1 ⟨(hr e1 hs1).1, (hr e1 hs1).2.1⟩ h2
    ⟨(hr e2 hs2).1, (hr e2 hs2).2.1⟩).2 e3 h3, ?_⟩
  unfold Whisper.enhanceErrorMessage
  simp [(hr e3 hs3).1, (hr e3 hs3).2.1, (hr e3 hs3).2.2, hs3]

/-- Witness of C16 (amended): the service that answers 401 to every call. -/
theorem convertAudioToText_auth_failure_witness :
    Whisper.transcribe (fun attempt => Example.envUnauthorized.api (attempt - 1)) =
      ⟨.error { message := "Incorrect API key provided", status := some 401 }, 3,
        [2000, 4000]⟩ ∧
    Whisper.enhanceErrorMessage { message := "Incorrect API key provided", status := some 401 } =
      { message := "OpenAI API authentication failed. Please check your API key." } :=
  convertAudioToText_auth_failure (fun attempt => Example.envUnauthorized.api (attempt - 1))
    { message := "Incorrect API key provided", status := some 401 }
    { message := "Incorrect API key provided", status := some 401 }
    { message := "Incorrect API key provided", status := some 401 }
    rfl rfl rfl (Or.inl rfl) (Or.inl rfl) (Or.inl rfl)

/-- C13 (counterexample): a `/sts` request whose decoded audio has 500 bytes
is rejected by the validation of `convertAudioToText`, and the handler then
submits it to the transcription service through `basicAudioToText`: when the
service answers, the handler goes on with the transcription; when the service
rejects every call, the handler answers with status 200. -/
theorem sts_undersized_submitted :
    Whisper.validateAudio Example.smallRequest.audioLength ≠ none ∧
    Server.stsTranscribe Js.latin1 true Example.envAnswers Example.smallRequest =
      (.transcribed "Hello", 1) ∧
    Server.stsTranscribe Js.latin1 true Example.envUnauthorized Example.smallRequest =
      (.responded
        { status := 200
          messages :=
            [{ text := "I'm having trouble understanding the audio. Please check the debug files to see if your recording contains voice data."
               facialExpression := "surprised"
               animation := "Idle" }]
          transcription := some ""
          error := some "Audio processing failed" }, 1) := by
  refine ⟨by decide, by decide, by decide⟩

theorem Whisper.convertAudioToText_rejected (U : Js.Unicode) (env : Whisper.Env)
    (invocation base length : Nat) (language : String) (e : Whisper.JsError)
    (hclient : env.clientInitialized = true) (hv : Whisper.validateAudio length = some e) :
    Whisper.convertAudioToText U env invocation base length language =
      { result := .error (Whisper.enhanceErrorMessage e), calls := 0 } := by
  unfold Whisper.convertAudioToText
  simp [hclient, hv]

/-- C13 (amended): a `/sts` request whose decoded audio is empty (0 bytes) is
answered with status 400 without any call of the transcription service. A
request whose non-empty audio is rejected by the validation of the transcriber
(less than 1000 bytes, or more than 25 MB) is tried again: after the two
rejected calls of `convertAudioToText`, `basicAudioToText` submits the audio to
the transcription service, once and without validation; the handler goes on
with the transcription when that call succeeds and answers with status 200
and an apology message when it fails. -/
theorem sts_rejected_audio (U : Js.Unicode) (env : Whisper.Env) (request : Server.StsRequest)
    (haudio : ¬ (request.audio = none ∨ request.audio = some ""))
    (hclient : env.clientInitialized = true) :
    (request.audioLength = 0 →
      Server.stsTranscribe U true env request =
        (.responded { status := 400, error := some "Invalid audio data" }, 0)) ∧
    (request.audioLength ≠ 0 → Whisper.validateAudio request.audioLength ≠ none →
      (env.files 2).writeError = none →
      (Server.stsTranscribe U true env request).2 = 1 ∧
      (∀ t, env.api 0 = .ok t →
        (Server.stsTranscribe U true env request).1 =
          .transcribed (Js.trim (Js.orElse t.text ""))) ∧
      (∀ e, env.api 0 = .error e →
        ∃ r, (Server.stsTranscribe U true env request).1 = .responded r ∧ r.status = 200 ∧
          r.error = some "Audio processing failed")) := by
  constructor
  · intro h0
    unfold Server.stsTranscribe
    simp [haudio, h0]
  · intro h0 hv hw
    cases hval : Whisper.validateAudio request.audioLength with
    | none => exact absurd hval hv
    | some err =>
      have hrun : ∀ invocation base, Whisper.convertAudioToText U env invocation base
          request.audioLength "auto" =
            { result := .error (Whisper.enhanceErrorMessage err), calls := 0 } :=
        fun invocation base =>
          Whisper.convertAudioToText_rejected U env invocation base _ "auto" err hclient hval
      unfold Server.stsTranscribe
      simp only [haudio, h0, if_false, Bool.not_true, Bool.false_eq_true, hrun,
        Whisper.convertAudioToTextWithFallback, Whisper.basicAudioToText, hclient, hw]
      cases hapi : env.api 0 with
      | ok t => simp [hapi]
      | error e => simp [hapi]

/-- Witness of C13 (amended): the request with 500 bytes of audio and the
transcriber that answers. -/
theorem sts_rejected_audio_witness :
    (Server.stsTranscribe Js.latin1 true Example.envAnswers Example.smallRequest).2 = 1 ∧
    (∀ t, Example.envAnswers.api 0 = .ok t →
      (Server.stsTranscribe Js.latin1 true Example.envAnswers Example.smallRequest).1 =
        .transcribed (Js.trim (Js.orElse t.text ""))) ∧
    (∀ e, Example.envAnswers.api 0 = .error e →
      ∃ r, (Server.stsTranscribe Js.latin1 true Example.envAnswers Example.smallRequest).1 =
        .responded r ∧ r.status = 200 ∧ r.error = some "Audio processing failed") :=
  (sts_rejected_audio Js.latin1 Example.envAnswers Example.smallRequest (by decide) rfl).2
    (by decide) (by decide) rfl

/-! ## The speech synthesizer -/

namespace ElevenLabs

theorem convertTextToSpeech_rateLimited (config : Config) (text : String)
    (fileName : Option String) (call : Call) (data : Option ErrorBody) (message : String)
    (hkey : config.apiKeyConfigured = true) (hvoice : config.validVoiceId = true)
    (htext : ¬ (text = "" ∨ Js.trim text = ""))
    (h : call.http = .status 429 data message) :
    convertTextToSpeech config text fileName call =
      .error { message := "ElevenLabs API rate limit exceeded. Please try again later." } := by
  unfold convertTextToSpeech
  simp only [hkey, hvoice, htext, h, Bool.not_true, Bool.false_eq_true, if_false]
  unfold rethrow
  simp

theorem chain_range_map (f : Nat → Nat) (lo : Nat) (hf : ∀ i, lo ≤ i → f i < f (i + 1)) :
    ∀ (n a : Nat), lo ≤ a → ((List.range' a n).map f).Chain' (fun x y => x < y) := by
  intro n
  induction n with
  | zero => intro a _; simp
  | succ n ih =>
    intro a ha
    rw [List.range'_succ, List.map_cons]
    cases n with
    | zero => simp
    | succ m =>
      rw [List.range'_succ, List.map_cons, List.chain'_cons]
      refine ⟨hf a ha, ?_⟩
      have := ih (a + 1) (by omega)
      rw [List.range'_succ, List.map_cons] at this
      exact this

theorem retryFrom_success (maxRetries : Nat) (tts : Nat → Except TtsError String) (k : Nat)
    (audio : String) (hk : k ≤ maxRetries) (hok : tts k = .ok audio) :
    ∀ (d a remaining : Nat) (last : Option TtsError), a + d = k → d < remaining →
      (∀ i, a ≤ i → i < k → tts i =
        .error { message := "ElevenLabs API rate limit exceeded. Please try again later." }) →
      retryFrom maxRetries tts remaining a last =
        ⟨.ok audio, d + 1, (List.range' a d).map (fun i => 2 ^ (i - 1) * 1000)⟩ := by
  intro d
  induction d with
  | zero =>
    intro a remaining last ha hr _
    obtain ⟨r, rfl⟩ : ∃ r, remaining = r + 1 := ⟨remaining - 1, by omega⟩
    have hak : a = k := by omega
    subst hak
    simp [retryFrom, hok]
  | succ d ih =>
    intro a remaining last ha hr hfail
    obtain ⟨r, rfl⟩ : ∃ r, remaining = r + 1 := ⟨remaining - 1, by omega⟩
    have hfa := hfail a (le_refl _) (by omega)
    have hrest := ih (a + 1) r
      (some { message := "ElevenLabs API rate limit exceeded. Please try again later." })
      (by omega) (by omega) (fun i hi1 hi2 => hfail i (by omega) hi2)
    have hinc : (Js.includes "ElevenLabs API rate limit exceeded. Please try again later."
        "API key" || Js.includes "ElevenLabs API rate limit exceeded. Please try again later."
        "Voice ID") = false := by decide
    have hlt : a < maxRetries := by omega
    rw [retryFrom]
    simp only [hfa, hinc, Bool.false_eq_true, if_false, hrest, if_pos hlt, List.range'_succ,
      List.map_cons]

end ElevenLabs

/-- C17: for every k with 1 ≤ k ≤ maxRetries, when the first k - 1 requests
of the synthesis are answered with status 429 and the k-th succeeds,
`convertTextToSpeechWithRetry` returns the audio of the k-th call after
exactly k calls, having waited 2^(i-1) × 1000 ms after the i-th failure, so the
delays strictly increase (429, 429, 200 gives 3 calls and the delays 1000 and
2000); a failure of the first call whose message names the API key or the
Voice ID is rethrown after that single call. -/
theorem convertTextToSpeechWithRetry_backoff (config : ElevenLabs.Config) (text : String)
    (fileName : Option String) (maxRetries : Nat) (calls : Nat → ElevenLabs.Call)
    (hkey : config.apiKeyConfigured = true) (hvoice : config.validVoiceId = true)
    (htext : ¬ (text = "" ∨ Js.trim text = "")) :
    (∀ k audio, 1 ≤ k → k ≤ maxRetries →
      (∀ i, 1 ≤ i → i < k → ∃ data message, (calls i).http = .status 429 data message) →
      ElevenLabs.convertTextToSpeech config text fileName (calls k) = .ok audio →
      ElevenLabs.convertTextToSpeechWithRetry config text fileName maxRetries calls =
        ⟨.ok audio, k, (List.range' 1 (k - 1)).map (fun i => 2 ^ (i - 1) * 1000)⟩ ∧
      ((List.range' 1 (k - 1)).map (fun i => 2 ^ (i - 1) * 1000)).Chain' (fun x y => x < y)) ∧
    (3 ≤ maxRetries → (∀ i, i ≤ 2 → calls i = Example.rateLimitedTwice i) →
      calls 3 = Example.rateLimitedTwice 3 →
      ElevenLabs.convertTextToSpeechWithRetry config text fileName maxRetries calls =
        ⟨.ok "SUQz", 3, [1000, 2000]⟩) ∧
    (∀ e, 1 ≤ maxRetries →
      ElevenLabs.convertTextToSpeech config text fileName (calls 1) = .error e →
      (Js.includes e.message "API key" = true ∨ Js.includes e.message "Voice ID" = true) →
      ElevenLabs.convertTextToSpeechWithRetry config text fileName maxRetries calls =
        ⟨.error e, 1, []⟩) := by
  have hmain : ∀ k audio, 1 ≤ k → k ≤ maxRetries →
      (∀ i, 1 ≤ i → i < k → ∃ data message, (calls i).http = .status 429 data message) →
      ElevenLabs.convertTextToSpeech config text fileName (calls k) = .ok audio →
      ElevenLabs.convertTextToSpeechWithRetry config text fileName maxRetries calls =
        ⟨.ok audio, k, (List.range' 1 (k - 1)).map (fun i => 2 ^ (i - 1) * 1000)⟩ := by
    intro k audio hk1 hk2 hfail hok
    unfold ElevenLabs.convertTextToSpeechWithRetry
    have := ElevenLabs.retryFrom_success maxRetries
      (fun attempt => ElevenLabs.convertTextToSpeech config text fileName (calls attempt))
      k audio hk2 hok (k - 1) 1 maxRetries none (by omega) (by omega)
      (fun i hi1 hi2 => by
        obtain ⟨data, message, h⟩ := hfail i hi1 hi2
        exact ElevenLabs.convertTextToSpeech_rateLimited config text fileName (calls i) data
          message hkey hvoice htext h)
    rw [this]
    have hk : k - 1 + 1 = k := by omega
    rw [hk]
  refine ⟨?_, ?_, ?_⟩
  · intro k audio hk1 hk2 hfail hok
    refine ⟨hmain k audio hk1 hk2 hfail hok, ?_⟩
    apply ElevenLabs.chain_range_map _ 1 _ _ _ (le_refl _)
    intro i hi
    obtain ⟨j, rfl⟩ : ∃ j, i = j + 1 := ⟨i - 1, by omega⟩
    have h2 : 2 ^ (j + 1 + 1 - 1) = 2 * 2 ^ (j + 1 - 1) := by
      simp only [Nat.add_sub_cancel]
      rw [pow_succ]
      ring
    rw [h2]
    have hpos : 0 < 2 ^ (j + 1 - 1) := pow_pos (by norm_num) _
    omega
  · intro h3 hcalls hcall3
    have := hmain 3 "SUQz" (by norm_num) h3
      (fun i hi1 hi2 => by
        rw [hcalls i (by omega)]
        unfold Example.rateLimitedTwice
        rw [if_pos (by omega)]
        exact ⟨none, _, rfl⟩)
      (by
        rw [hcall3]
        unfold ElevenLabs.convertTextToSpeech
        simp [hkey, hvoice, htext, Example.rateLimitedTwice])
    rw [this]
    rfl
  · intro e h1 herr hinc
    unfold ElevenLabs.convertTextToSpeechWithRetry
    obtain ⟨r, rfl⟩ : ∃ r, maxRetries = r + 1 := ⟨maxRetries - 1, by omega⟩
    have hb : (Js.includes e.message "API key" || Js.includes e.message "Voice ID") = true := by
      rcases hinc with h | h <;> simp [h]
    rw [ElevenLabs.retryFrom]
    simp only [herr, hb, if_true]

/-- Witness of C17: the service that answers 429, 429 and then 200, with
`maxRetries = 3`. -/
theorem convertTextToSpeechWithRetry_backoff_witness :
    ElevenLabs.convertTextToSpeechWithRetry Example.ttsConfig "Hello" none 3
      Example.rateLimitedTwice = ⟨.ok "SUQz", 3, [1000, 2000]⟩ :=
  (convertTextToSpeechWithRetry_backoff Example.ttsConfig "Hello" none 3
    Example.rateLimitedTwice rfl rfl (by decide)).2.1 (by decide) (fun _ _ => rfl) rfl

/-- C19 (failing input): for a status 400 response whose body parses and has
`detail.status = "model_does_not_support_language_code_parameter"`,
`convertTextToSpeech` throws the generic error "Bad request: Bad request" and
not the error "Model configuration error - language code parameter not
supported". -/
theorem convertTextToSpeech_language_code_error :
    ElevenLabs.convertTextToSpeech Example.ttsConfig "Hello" none Example.languageCodeRejected =
      .error { message := "Bad request: Bad request" } ∧
    ElevenLabs.convertTextToSpeech Example.ttsConfig "Hello" none Example.languageCodeRejected ≠
      .error { message := "Model configuration error - language code parameter not supported" } := by
  have h : ElevenLabs.convertTextToSpeech Example.ttsConfig "Hello" none
      Example.languageCodeRejected = .error { message := "Bad request: Bad request" } := by
    have ht : ¬ ("Hello" = "" ∨ Js.trim "Hello" = "") := by decide
    simp only [ElevenLabs.convertTextToSpeech, Example.ttsConfig, Example.languageCodeRejected,
      ht, Bool.not_true, Bool.false_eq_true, if_false, ElevenLabs.rethrow,
      ElevenLabs.badRequestMessage, if_true]
    rfl
  refine ⟨h, ?_⟩
  rw [h]
  intro hh
  injection hh with hh
  injection hh with hm _
  revert hm
  decide

namespace LipSync

theorem synthesizeFrom_first_ok (detectedLanguage : String) (tts : Nat → TtsOutcome) (k : Nat)
    (hk : k < MAX_RETRIES) (hok : tts k = .ok) :
    ∀ (d a : Nat), a + d = k → (∀ j, a ≤ j → j < k → ∃ s, tts j = .error s) →
      synthesizeFrom detectedLanguage tts (MAX_RETRIES - a) a =
        ⟨true, d + 1,
          (List.range' a d).filterMap (fun j =>
            if tts j = .error (some 429) then some (RETRY_DELAY * 2 ^ j) else none) ++
          [if ["zh", "ja", "ar", "hi"].contains detectedLanguage then RETRY_DELAY * 2
           else RETRY_DELAY]⟩ := by
  intro d
  induction d with
  | zero =>
    intro a ha _
    have hak : a = k := by omega
    subst hak
    obtain ⟨r, hr⟩ : ∃ r, MAX_RETRIES - a = r + 1 := ⟨MAX_RETRIES - a - 1, by omega⟩
    rw [hr, synthesizeFrom]
    simp [hok]
  | succ d ih =>
    intro a ha hfail
    obtain ⟨s, hs⟩ := hfail a (le_refl _) (by omega)
    obtain ⟨r, hr⟩ : ∃ r, MAX_RETRIES - a = r + 1 := ⟨MAX_RETRIES - a - 1, by omega⟩
    have hr' : MAX_RETRIES - (a + 1) = r := by omega
    have hrest := ih (a + 1) (by omega) (fun j hj1 hj2 => hfail j (by omega) hj2)
    rw [hr'] at hrest
    have hne : a ≠ MAX_RETRIES - 1 := by omega
    have hlt : a < MAX_RETRIES - 1 := by omega
    rw [hr, synthesizeFrom]
    simp only [hs, hrest, List.range'_succ]
    by_cases h429 : s = some 429
    · subst h429
      simp [hlt, hs]
    · have hne429 : ¬ (TtsOutcome.error s = TtsOutcome.error (some 429)) := by
        intro h
        injection h with h
        exact h429 h
      simp [h429, hne, hs, hne429]

theorem synthesizeFrom_all_fail (detectedLanguage : String) (tts : Nat → TtsOutcome) :
    ∀ (n a : Nat), a + (n + 1) = MAX_RETRIES → (∀ j, a ≤ j → ∃ s, tts j = .error s) →
      (synthesizeFrom detectedLanguage tts (n + 1) a).succeeded = false ∧
      (synthesizeFrom detectedLanguage tts (n + 1) a).calls = n + 1 := by
  intro n
  induction n with
  | zero =>
    intro a ha hfail
    obtain ⟨s, hs⟩ := hfail a (le_refl _)
    have ha' : a = MAX_RETRIES - 1 := by omega
    have hlt : ¬ (s = some 429 ∧ a < MAX_RETRIES - 1) := by
      rintro ⟨-, h⟩
      omega
    rw [synthesizeFrom]
    simp only [hs]
    rw [if_neg hlt, if_pos ha']
    exact ⟨rfl, rfl⟩
  | succ n ih =>
    intro a ha hfail
    obtain ⟨s, hs⟩ := hfail a (le_refl _)
    have hne : a ≠ MAX_RETRIES - 1 := by
      simp only [MAX_RETRIES] at ha ⊢
      omega
    obtain ⟨h1, h2⟩ := ih (a + 1) (by omega) (fun j hj => hfail j (by omega))
    rw [synthesizeFrom]
    simp only [hs]
    split_ifs
    · exact ⟨h1, by rw [h2]⟩
    · exact ⟨h1, by rw [h2]⟩

end LipSync

namespace LipSync

/-- An error thrown by `convertTextToSpeech` carries no `response`: the retry
loop of `lipSync` sees no status. -/
theorem outcomeOf_convertTextToSpeech (config : ElevenLabs.Config) (text : String)
    (fileName : Option String) (call : ElevenLabs.Call) :
    outcomeOf (ElevenLabs.convertTextToSpeech config text fileName call) = .ok ∨
    outcomeOf (ElevenLabs.convertTextToSpeech config text fileName call) = .error none := by
  have hre : ∀ status data message,
      (ElevenLabs.rethrow config status data message).responseStatus = none := by
    intro status data message
    unfold ElevenLabs.rethrow
    split
    · rfl
    · split_ifs <;> rfl
  unfold ElevenLabs.convertTextToSpeech
  split_ifs
  · right; rfl
  · right; rfl
  · right; simp only [outcomeOf, hre]
  · split
    · split
      · right; simp only [outcomeOf, hre]
      · left; rfl
    · right; simp only [outcomeOf, hre]
    · right; simp only [outcomeOf, hre]

end LipSync

/-- C18 (failing input): every error that `convertTextToSpeech` throws is a new
error without `response`, so the loop of `lipSync` never sees the status 429
(nor 401, nor 404): whatever the calls are answered, each failure is followed
by the next attempt at once, until a call succeeds or `MAX_RETRIES` calls are
made, and the only delay is the pause after the success. A call answered with
status 429 at attempt 0 for the language zh is retried without any back-off
(the 200 ms are the pause after the success), and a call answered with status
401 is retried. -/
theorem lipSync_backoff_unreached (config : ElevenLabs.Config) (text : String)
    (fileName : Option String) (calls : Nat → ElevenLabs.Call) (detectedLanguage : String) :
    (∀ call status,
      LipSync.outcomeOf (ElevenLabs.convertTextToSpeech config text fileName call) ≠
        .error (some status)) ∧
    (∀ k, k < LipSync.MAX_RETRIES →
      (∀ j, j < k →
        LipSync.outcomeOf (ElevenLabs.convertTextToSpeech config text fileName (calls j)) ≠ .ok) →
      LipSync.outcomeOf (ElevenLabs.convertTextToSpeech config text fileName (calls k)) = .ok →
      LipSync.synthesize detectedLanguage (fun attempt =>
          LipSync.outcomeOf (ElevenLabs.convertTextToSpeech config text fileName (calls attempt))) =
        ⟨true, k + 1,
          [if ["zh", "ja", "ar", "hi"].contains detectedLanguage then LipSync.RETRY_DELAY * 2
           else LipSync.RETRY_DELAY]⟩) ∧
    ((∀ j, LipSync.outcomeOf (ElevenLabs.convertTextToSpeech config text fileName (calls j)) ≠
        .ok) →
      (LipSync.synthesize detectedLanguage (fun attempt =>
          LipSync.outcomeOf (ElevenLabs.convertTextToSpeech config text fileName
            (calls attempt)))).succeeded = false ∧
      (LipSync.synthesize detectedLanguage (fun attempt =>
          LipSync.outcomeOf (ElevenLabs.convertTextToSpeech config text fileName
            (calls attempt)))).calls = LipSync.MAX_RETRIES) ∧
    ElevenLabs.convertTextToSpeech Example.ttsConfig "Hello" none
        { http := .status 429 none "Request failed with status code 429" } =
      .error { message := "ElevenLabs API rate limit exceeded. Please try again later." } ∧
    LipSync.synthesize "zh" (fun attempt =>
        LipSync.outcomeOf (ElevenLabs.convertTextToSpeech Example.ttsConfig "Hello" none
          (if attempt = 0 then { http := .status 429 none "Request failed with status code 429" }
           else { http := .ok "SUQz" }))) =
      ⟨true, 2, [200]⟩ ∧
    LipSync.synthesize "en" (fun attempt =>
        LipSync.outcomeOf (ElevenLabs.convertTextToSpeech Example.ttsConfig "Hello" none
          (if attempt = 0 then { http := .status 401 none "Request failed with status code 401" }
           else { http := .ok "SUQz" }))) =
      ⟨true, 2, [100]⟩ := by
  have hcases := LipSync.outcomeOf_convertTextToSpeech config text fileName
  have ht : ¬ ("Hello" = "" ∨ Js.trim "Hello" = "") := by decide
  refine ⟨?_, ?_, ?_, ?_, by decide, by decide⟩
  · intro call status h
    rcases hcases call with h1 | h1 <;> rw [h1] at h <;> cases h
  · intro k hk hfail hok
    have hfail' : ∀ j, 0 ≤ j → j < k → ∃ s, (fun attempt => LipSync.outcomeOf
        (ElevenLabs.convertTextToSpeech config text fileName (calls attempt))) j = .error s := by
      intro j _ hj
      rcases hcases (calls j) with h1 | h1
      · exact absurd h1 (hfail j hj)
      · exact ⟨none, h1⟩
    have h := LipSync.synthesizeFrom_first_ok detectedLanguage (fun attempt => LipSync.outcomeOf
      (ElevenLabs.convertTextToSpeech config text fileName (calls attempt))) k hk hok k 0
      (by omega) hfail'
    have hnil : (List.range' 0 k).filterMap (fun j =>
        if (fun attempt => LipSync.outcomeOf
          (ElevenLabs.convertTextToSpeech config text fileName (calls attempt))) j =
            .error (some 429) then some (LipSync.RETRY_DELAY * 2 ^ j) else none) = [] := by
      rw [List.filterMap_eq_nil_iff]
      intro j _
      have hne : ¬ (LipSync.outcomeOf (ElevenLabs.convertTextToSpeech config text fileName
          (calls j)) = .error (some 429)) := by
        intro h429
        rcases hcases (calls j) with h1 | h1 <;> rw [h1] at h429 <;> cases h429
      simp only [hne, if_false]
    rw [hnil] at h
    exact h
  · intro hfail
    exact LipSync.synthesizeFrom_all_fail detectedLanguage _ 9 0 rfl (fun j _ => by
      rcases hcases (calls j) with h1 | h1
      · exact absurd h1 (hfail j)
      · exact ⟨none, h1⟩)
  · simp only [ElevenLabs.convertTextToSpeech, Example.ttsConfig, ht, Bool.not_true,
      Bool.false_eq_true, if_false, ElevenLabs.rethrow]
    rfl

/-- C20 (failing input): a message whose `facialExpression` and `animation`
are the placeholders "default" and "Idle" keeps them, although the heuristic
detects the emotion happy and suggests smile and TalkingOne; the same text
with both fields missing gets the two suggestions. -/
theorem enhanceMessageWithEmotion_keeps_placeholders :
    (Server.enhanceMessageWithEmotion Js.latin1 [Example.placeholderMessage] "en").map
      (fun m => (m.facialExpression, m.animation, m.detectedEmotion, m.suggestedAnimation)) =
      [("default", "Idle", some "happy", some "TalkingOne")] ∧
    (Server.emotionInfo "happy").1 = "smile" ∧
    (Server.enhanceMessageWithEmotion Js.latin1
        [{ Example.placeholderMessage with facialExpression := "", animation := "" }] "en").map
      (fun m => (m.facialExpression, m.animation)) = [("smile", "TalkingOne")] := by
  have h : (Server.emotionInfo "happy").1 = "smile" := by
    simp [Server.emotionInfo, Server.emotionMapping, List.lookup]
  have hd : Audios.detectEmotionFromText Js.latin1 "I am so happy to see you" "en" = "happy" := by
    decide
  refine ⟨by decide, h, ?_⟩
  simp only [Server.enhanceMessageWithEmotion, Server.enhanceMessage, Example.placeholderMessage,
    List.map_cons, List.map_nil, hd, h, if_true]
  decide

/-! ## Keyword precedence of the contextual fallback -/

namespace Js

/-- The substring test is the infix relation on lists. -/
theorem includesList_iff (l sub : List Char) : includesList l sub = true ↔ sub <:+: l := by
  induction l with
  | nil => simp [includesList, List.isEmpty_iff]
  | cons c cs ih =>
    simp only [includesList, Bool.or_eq_true, ih, List.infix_cons_iff, List.isPrefixOf_iff_prefix]

/-- A list that starts with a character that is no white space and occurs in
`l` occurs in `l` without its leading white space. -/
theorem infix_trimStartList (a : Char) (sub l : List Char) (ha : isWhiteSpace a = false)
    (h : (a :: sub) <:+: l) : (a :: sub) <:+: trimStartList l := by
  induction l with
  | nil => exact h
  | cons c cs ih =>
    unfold trimStartList
    by_cases hc : isWhiteSpace c = true
    · rw [List.dropWhile_cons_of_pos hc]
      rcases List.infix_cons_iff.mp h with hp | hi
      · obtain ⟨t, ht⟩ := hp
        simp only [List.cons_append, List.cons.injEq] at ht
        rw [ht.1] at ha
        rw [ha] at hc
        exact absurd hc (by decide)
      · exact ih hi
    · rw [List.dropWhile_cons_of_neg hc]
      exact h

/-- A list whose first and last characters are no white space and that
occurs in `l` occurs in the trimmed `l`. -/
theorem infix_trimList (sub l : List Char) (hne : sub ≠ [])
    (hhead : ∀ a, sub.head? = some a → isWhiteSpace a = false)
    (hlast : ∀ a, sub.getLast? = some a → isWhiteSpace a = false)
    (h : sub <:+: l) : sub <:+: trimList l := by
  obtain ⟨a, rest, rfl⟩ := List.exists_cons_of_ne_nil hne
  have h1 : (a :: rest) <:+: trimStartList l :=
    infix_trimStartList a rest l (hhead a rfl) h
  have hr : (a :: rest).reverse ≠ [] := by simp
  obtain ⟨b, rest2, hb⟩ := List.exists_cons_of_ne_nil hr
  have hbl : (a :: rest).getLast? = some b := by
    rw [List.getLast?_eq_head?_reverse, hb]; rfl
  have h2 : (b :: rest2) <:+: trimStartList (trimStartList l).reverse := by
    apply infix_trimStartList b rest2 _ (hlast b hbl)
    rw [← hb]
    exact List.reverse_infix.mpr h1
  unfold trimList
  have h3 := List.reverse_infix.mpr h2
  rw [← hb, List.reverse_reverse] at h3
  exact h3

/-- Trimming keeps every occurrence of a keyword without outer white space. -/
theorem includes_trim (s sub : String) (hne : sub.data ≠ [])
    (hhead : ∀ a, sub.data.head? = some a → isWhiteSpace a = false)
    (hlast : ∀ a, sub.data.getLast? = some a → isWhiteSpace a = false)
    (h : includes s sub = true) : includes (trim s) sub = true := by
  unfold includes at h ⊢
  rw [includesList_iff] at h ⊢
  exact infix_trimList sub.data s.data hne hhead hlast h

end Js

namespace OpenAI

/-- The chain of tests of `createContextualFallback` picks the reply of the
first keyword group with a hit. -/
theorem createContextualFallback_eq_firstHit (U : Js.Unicode) (userMessage language : String) :
    createContextualFallback U userMessage language
      = firstHit (Js.trim (U.toLowerCase userMessage))
          (((fallbackResponses userMessage).lookup language).getD (responsesEn userMessage)) := by
  unfold createContextualFallback firstHit keywordGroups
  simp only [List.find?]
  generalize helloKeywords.any (Js.includes (Js.trim (U.toLowerCase userMessage))) = b1
  generalize howAreYouKeywords.any (Js.includes (Js.trim (U.toLowerCase userMessage))) = b2
  generalize weatherKeywords.any (Js.includes (Js.trim (U.toLowerCase userMessage))) = b3
  generalize travelKeywords.any (Js.includes (Js.trim (U.toLowerCase userMessage))) = b4
  generalize nameKeywords.any (Js.includes (Js.trim (U.toLowerCase userMessage))) = b5
  cases b1 <;> cases b2 <;> cases b3 <;> cases b4 <;> cases b5 <;> rfl

end OpenAI

/-- C29 (outside the failing inputs): for a language that is not the name of a
member of `Object.prototype`, when the lower-cased text contains "hi", "hey"
or "hello" anywhere, `createContextualFallback` returns the greeting reply of
the selected language table (the table of the language, the English one when
there is none), whatever other keywords the text holds; in general the
keyword groups are tried in the order greeting, how-are-you, weather, travel,
name, and the first group with a substring hit gives the reply, the generic
reply being returned when no group has a hit. -/
theorem createContextualFallback_greeting_first (U : Js.Unicode) (userMessage language : String)
    (_hkey : language ∉ Js.objectPrototypeKeys)
    (h : Js.includes (U.toLowerCase userMessage) "hi" = true ∨
         Js.includes (U.toLowerCase userMessage) "hey" = true ∨
         Js.includes (U.toLowerCase userMessage) "hello" = true) :
    OpenAI.createContextualFallback U userMessage language
        = (((OpenAI.fallbackResponses userMessage).lookup language).getD
            (OpenAI.responsesEn userMessage)).hello ∧
      ∀ text tag : String, tag ∉ Js.objectPrototypeKeys →
        OpenAI.createContextualFallback U text tag
          = OpenAI.firstHit (Js.trim (U.toLowerCase text))
              (((OpenAI.fallbackResponses text).lookup tag).getD (OpenAI.responsesEn text)) := by
  refine ⟨?_, fun text tag _ => OpenAI.createContextualFallback_eq_firstHit U text tag⟩
  have hany : OpenAI.helloKeywords.any (Js.includes (Js.trim (U.toLowerCase userMessage))) = true := by
    rw [List.any_eq_true]
    rcases h with h | h | h
    · exact ⟨"hi", by decide, Js.includes_trim _ _ (by decide) (by decide) (by decide) h⟩
    · exact ⟨"hey", by decide, Js.includes_trim _ _ (by decide) (by decide) (by decide) h⟩
    · exact ⟨"hello", by decide, Js.includes_trim _ _ (by decide) (by decide) (by decide) h⟩
  unfold OpenAI.createContextualFallback
  simp only [hany, if_true]

/-- Witness of C29: a text that asks for the weather in Chicago, with the
Spanish table: "chicago" contains "hi", so the greeting is returned. -/
theorem createContextualFallback_greeting_first_witness :
    "es" ∉ Js.objectPrototypeKeys ∧
    Js.includes (Js.latin1.toLowerCase "What is the weather in Chicago") "hi" = true ∧
    OpenAI.createContextualFallback Js.latin1 "What is the weather in Chicago" "es"
      = (OpenAI.responsesEs "What is the weather in Chicago").hello :=
  ⟨by decide, by decide,
   (createContextualFallback_greeting_first Js.latin1 "What is the weather in Chicago" "es"
      (by decide) (Or.inl (by decide))).1⟩

/-! ## The score of the frontend language detector -/

namespace Js

/-- A pattern matches somewhere exactly when the scan counts a match. -/
theorem testList_iff_occurrences (p : Pattern) (l : List Char) :
    p.testList l = true ↔ 1 ≤ occurrencesAux p l 0 := by
  induction l with
  | nil =>
    simp only [Pattern.testList, occurrencesAux]
    split_ifs with h <;> simp [h]
  | cons c cs ih =>
    simp only [Pattern.testList, occurrencesAux, Bool.or_eq_true]
    split_ifs with h
    · simp [h]
    · simp [h, ih]

/-- For a pattern that occurs at most once, the length of the result of
`match` is the number of occurrences. -/
theorem matchLength_eq_occurrences (p : Pattern) (s : String) (h : p.occurrences s ≤ 1) :
    p.matchLength s = p.occurrences s := by
  unfold Pattern.matchLength
  unfold Pattern.occurrences at h ⊢
  by_cases ht : p.testList s.data = true
  · have := (testList_iff_occurrences p s.data).mp ht
    rw [if_pos ht]; omega
  · have h0 : ¬ 1 ≤ occurrencesAux p s.data 0 := fun h1 =>
      ht ((testList_iff_occurrences p s.data).mpr h1)
    rw [if_neg ht]; omega

end Js

/-- C23 (counterexample): for the cleaned text "ça" the Spanish candidate has no
stop word and no orthographic pattern but the negative pattern `ç`, so the
sum over occurrences is -3, while the stored score is 0; for the cleaned
text "y" the word `y` is in the Spanish stop-word list, so the sum is 3,
while the stored score is 0 because words of one character are dropped. -/
theorem score_not_occurrence_sum :
    (VisemesMapping.scores (Js.cleanText Js.latin1 "ça")).lookup "es" = some 0 ∧
    (VisemesMapping.languagePatterns.lookup "es").map (fun config => VisemesMapping.occurrenceScore config (Js.cleanText Js.latin1 "ça"))
      = some (-3) ∧
    (VisemesMapping.scores (Js.cleanText Js.latin1 "y")).lookup "es" = some 0 ∧
    (VisemesMapping.languagePatterns.lookup "es").map (fun config => VisemesMapping.occurrenceScore config (Js.cleanText Js.latin1 "y"))
      = some 3 := by
  decide

/-- C23 (amended): for a cleaned text in which no orthographic and no negative
pattern of the table occurs more than once, the stored score of every
candidate is the larger of 0 and 3 × the number of words longer than one
character found in its stop-word list, plus 2 × the number of occurrences of
its orthographic patterns, minus 3 × the number of occurrences of its
negative patterns. -/
theorem score_clamped (cleanText : String)
    (h : ∀ entry ∈ VisemesMapping.languagePatterns, ∀ pattern ∈ entry.2.patterns ++ entry.2.negativePatterns,
      pattern.occurrences cleanText ≤ 1) :
    VisemesMapping.scores cleanText = VisemesMapping.languagePatterns.map
      (fun entry => (entry.1, VisemesMapping.clampedScore entry.2 cleanText)) := by
  unfold VisemesMapping.scores
  apply List.map_congr_left
  intro entry hentry
  have hp : entry.2.patterns.map (fun pattern => pattern.matchLength cleanText * 2)
      = entry.2.patterns.map (fun pattern => pattern.occurrences cleanText * 2) := by
    apply List.map_congr_left
    intro pattern hpat
    rw [Js.matchLength_eq_occurrences pattern cleanText
      (h entry hentry pattern (List.mem_append_left _ hpat))]
  have hn : entry.2.negativePatterns.map (fun pattern => pattern.matchLength cleanText * 3)
      = entry.2.negativePatterns.map (fun pattern => pattern.occurrences cleanText * 3) := by
    apply List.map_congr_left
    intro pattern hpat
    rw [Js.matchLength_eq_occurrences pattern cleanText
      (h entry hentry pattern (List.mem_append_right _ hpat))]
  have hsum : ∀ (k : Nat) (l : List Js.Pattern),
      (l.map (fun pattern => pattern.occurrences cleanText * k)).sum
        = k * (l.map (fun pattern => pattern.occurrences cleanText)).sum := by
    intro k l
    induction l with
    | nil => simp
    | cons a t ih => simp only [List.map_cons, List.sum_cons, ih]; ring
  simp only [VisemesMapping.score, VisemesMapping.clampedScore, hp, hn, hsum]
  congr 4
  omega

/-- Witness of C23 (amended): for the cleaned text of "¿Qué es la niña?" the
Spanish candidate scores 8 (two stop words and `ñ`). -/
theorem score_clamped_witness :
    (∀ entry ∈ VisemesMapping.languagePatterns, ∀ pattern ∈ entry.2.patterns ++ entry.2.negativePatterns,
      pattern.occurrences (Js.cleanText Js.latin1 "¿Qué es la niña?") ≤ 1) ∧
    VisemesMapping.scores (Js.cleanText Js.latin1 "¿Qué es la niña?")
      = VisemesMapping.languagePatterns.map (fun entry =>
          (entry.1, VisemesMapping.clampedScore entry.2 (Js.cleanText Js.latin1 "¿Qué es la niña?"))) :=
  ⟨by decide, score_clamped _ (by decide)⟩


/-! ## Mapping, scaling and smoothing of the phoneme cues -/

namespace Rhubarb

theorem applySmoothingTransitions_value (c p : MouthCue) (language : String) :
    (applySmoothingTransitions c p language).value = c.value ∧
    (applySmoothingTransitions c p language).intensity = c.intensity ∧
    (applySmoothingTransitions c p language).sharpness = c.sharpness := by
  unfold applySmoothingTransitions
  simp only
  split_ifs <;> exact ⟨rfl, rfl, rfl⟩

/-- The value, the intensity and the sharpness of a processed cue. -/
theorem processCue_value (U : Js.Unicode) (language emotion : String)
    (previous : Option MouthCue) (cue : MouthCue) :
    (processCue U language emotion previous cue).value = visemeOf U language cue.value ∧
    (processCue U language emotion previous cue).intensity =
      (if ["D", "E", "F"].contains (visemeOf U language cue.value) = true then
        some (orOne cue.intensity *
          ((EMOTION_PHONEME_MODIFIERS.lookup emotion).getD ⟨1, 1⟩).vowelIntensity)
      else cue.intensity) ∧
    (processCue U language emotion previous cue).sharpness =
      (if ["B", "C", "G", "H"].contains (visemeOf U language cue.value) = true then
        some (orOne cue.sharpness *
          ((EMOTION_PHONEME_MODIFIERS.lookup emotion).getD ⟨1, 1⟩).consonantSharpness)
      else cue.sharpness) := by
  unfold processCue visemeOf
  simp only
  cases previous with
  | none =>
    simp only [applyLanguageTimingAdjustments]
    split_ifs <;> exact ⟨rfl, rfl, rfl⟩
  | some p =>
    simp only
    rw [(applySmoothingTransitions_value _ p language).1,
      (applySmoothingTransitions_value _ p language).2.1,
      (applySmoothingTransitions_value _ p language).2.2]
    simp only [applyLanguageTimingAdjustments]
    split_ifs <;> exact ⟨rfl, rfl, rfl⟩

theorem processCues_value (U : Js.Unicode) (language emotion : String) :
    ∀ (cues : List MouthCue) (previous : Option MouthCue),
      (processCues U language emotion previous cues).map (fun c => c.value) =
        cues.map (fun c => visemeOf U language c.value) := by
  intro cues
  induction cues with
  | nil => intro _; rfl
  | cons c rest ih =>
    intro previous
    simp only [processCues, List.map_cons, ih, (processCue_value U language emotion previous c).1]

theorem processCues_getElem?_zero (U : Js.Unicode) (language emotion : String)
    (cues : List MouthCue) (previous : Option MouthCue) (c : MouthCue)
    (hc : cues[0]? = some c) :
    (processCues U language emotion previous cues)[0]? =
      some (processCue U language emotion previous c) := by
  cases cues with
  | nil => simp at hc
  | cons a rest =>
    simp only [List.getElem?_cons_zero, Option.some.injEq] at hc
    subst hc
    simp [processCues]

theorem processCues_getElem?_succ (U : Js.Unicode) (language emotion : String) :
    ∀ (cues : List MouthCue) (previous : Option MouthCue) (i : Nat) (p c : MouthCue),
      cues[i]? = some p → cues[i + 1]? = some c →
      (processCues U language emotion previous cues)[i + 1]? =
        some (processCue U language emotion (some p) c) := by
  intro cues
  induction cues with
  | nil => intro _ i p c hp _; simp at hp
  | cons a rest ih =>
    intro previous i p c hp hc
    simp only [List.getElem?_cons_succ] at hc
    simp only [processCues, List.getElem?_cons_succ]
    cases i with
    | zero =>
      simp only [List.getElem?_cons_zero, Option.some.injEq] at hp
      subst hp
      exact processCues_getElem?_zero U language emotion rest (some a) c hc
    | succ j =>
      simp only [List.getElem?_cons_succ] at hp
      exact ih (some a) j p c hp hc

/-- A language other than en, es and fr uses the default table. -/
theorem phoneMapping_default (language : String)
    (hen : language ≠ "en") (hes : language ≠ "es") (hfr : language ≠ "fr") :
    (PHONEME_VISEME_MAPPING.lookup language).getD defaultMapping = defaultMapping := by
  unfold PHONEME_VISEME_MAPPING
  simp only [List.lookup]
  have h1 : (language == "en") = false := by simpa using hen
  have h2 : (language == "es") = false := by simpa using hes
  have h3 : (language == "fr") = false := by simpa using hfr
  simp only [h1, h2, h3]
  cases h : (language == "default") <;> rfl

end Rhubarb

/-- C26 (counterexample): for the language en the raw cue with the label `B` comes
back with the value `A`, because the lower-cased label `b` is a phoneme of the
English table; likewise `D`, `F`, `G` and `H` come back as `C`, `G`, `B` and
`C`, and in es and fr `A`, `B`, `D`, `F`, `G` come back as `D`, `A`, `C`,
`G`, `B`. -/
theorem processPhonemeData_remaps_viseme :
    (Rhubarb.processPhonemeData Js.latin1
      { metadata := { soundFile := "audios/message_0.wav", duration := 1 }
        mouthCues := [{ start := 0, stop := 1, value := "B" }] }
      "en" "default" "b").mouthCues.map (fun c => c.value) = ["A"] ∧
    visemeSymbols.map (Rhubarb.visemeOf Js.latin1 "en") = ["A", "A", "C", "C", "E", "G", "B", "C"] ∧
    visemeSymbols.map (Rhubarb.visemeOf Js.latin1 "es") = ["D", "A", "C", "C", "E", "G", "B", "H"] ∧
    visemeSymbols.map (Rhubarb.visemeOf Js.latin1 "fr") = ["D", "A", "C", "C", "E", "G", "B", "H"] := by
  refine ⟨?_, by decide, by decide, by decide⟩
  simp only [Rhubarb.processPhonemeData, Rhubarb.processCues_value]
  decide

/-- C26 (amended): for a language without a phoneme table of its own (every
language but en, es and fr) and a runtime that lower-cases the letters A to H
as usual, every raw cue whose value is one of the viseme symbols A to H comes
back from `processPhonemeData` with the same value; in general the value of
the processed cue is the entry of the lower-cased label in the table of the
language, else the entry of the label, else the label. -/
theorem processPhonemeData_viseme_passes (U : Js.Unicode) (rawData : VisemeTrack)
    (language emotion text : String)
    (hen : language ≠ "en") (hes : language ≠ "es") (hfr : language ≠ "fr")
    (hU : ∀ v ∈ visemeSymbols, U.toLowerCase v = Js.latin1.toLowerCase v) :
    (∀ (i : Nat) (cue : MouthCue), rawData.mouthCues[i]? = some cue → cue.value ∈ visemeSymbols →
      ((Rhubarb.processPhonemeData U rawData language emotion text).mouthCues[i]?).map
        (fun c => c.value) = some cue.value) ∧
    ∀ (track : VisemeTrack) (tag : String),
      (Rhubarb.processPhonemeData U track tag emotion text).mouthCues.map (fun c => c.value)
        = track.mouthCues.map (fun c => Rhubarb.visemeOf U tag c.value) := by
  refine ⟨?_, fun track tag => Rhubarb.processCues_value U tag emotion track.mouthCues none⟩
  intro i cue hcue hv
  have hmap := Rhubarb.processCues_value U language emotion rawData.mouthCues none
  have hi : ((Rhubarb.processCues U language emotion none rawData.mouthCues).map
      (fun c => c.value))[i]? = some (Rhubarb.visemeOf U language cue.value) := by
    rw [hmap, List.getElem?_map, hcue]; rfl
  rw [List.getElem?_map] at hi
  simp only [Rhubarb.processPhonemeData]
  rw [hi]
  congr 1
  unfold Rhubarb.visemeOf
  rw [Rhubarb.phoneMapping_default language hen hes hfr, hU cue.value hv]
  revert hv
  generalize cue.value = v
  intro hv
  simp only [visemeSymbols, List.mem_cons, List.mem_singleton, List.not_mem_nil, or_false] at hv
  rcases hv with rfl | rfl | rfl | rfl | rfl | rfl | rfl | rfl <;> decide

/-- Witness of C26 (amended): for the language de and the raw visemes `D` and
`E` the second cue keeps the value `E`. -/
theorem processPhonemeData_viseme_passes_witness :
    ((Rhubarb.processPhonemeData Js.latin1 Example.visemeTrack "de" "happy" "ja").mouthCues[1]?).map
      (fun c => c.value) = some "E" :=
  (processPhonemeData_viseme_passes Js.latin1 Example.visemeTrack "de" "happy" "ja"
    (by decide) (by decide) (by decide) (fun _ _ => rfl)).1 1
    { start := 1/10, stop := 2/10, value := "E" } rfl (by decide)

namespace Rhubarb

/-- With a previous raw cue, the processed cue is the smoothing of the cue
processed without one. -/
theorem processCue_some (U : Js.Unicode) (language emotion : String) (p c : MouthCue) :
    processCue U language emotion (some p) c =
      applySmoothingTransitions (processCue U language emotion none c) p language := rfl

/-- The first cue keeps the smoothing fields of the raw cue. -/
theorem processCue_none_flags (U : Js.Unicode) (language emotion : String) (c : MouthCue) :
    (processCue U language emotion none c).blendFromPrevious = c.blendFromPrevious ∧
    (processCue U language emotion none c).smoothTransition = c.smoothTransition := by
  unfold processCue
  simp only [applyLanguageTimingAdjustments]
  split_ifs <;> exact ⟨rfl, rfl⟩

/-- The smoothing fields that `applySmoothingTransitions` returns. -/
theorem applySmoothingTransitions_flags (c p : MouthCue) (language : String) :
    ((applySmoothingTransitions c p language).blendFromPrevious = true ↔
      c.blendFromPrevious = true ∨ (areSimilar c.value p.value = true ∧ c.start - p.stop < 2/100)) ∧
    (applySmoothingTransitions c p language).smoothTransition =
      (if areSimilar c.value p.value = true ∧ c.start - p.stop < 2/100
        then some (smoothingFactor language) else c.smoothTransition) := by
  unfold applySmoothingTransitions areSimilar smoothingFactor
  simp only
  generalize (similarVisemes.any fun group => group.contains c.value && group.contains p.value) = b
  cases b
  · simp
  · by_cases hg : c.start - p.stop < 2/100 <;> simp [hg]

/-- The smoothing fields of a processed cue that has a previous raw cue. -/
theorem processCue_flags (U : Js.Unicode) (language emotion : String) (p c : MouthCue) :
    ((processCue U language emotion (some p) c).blendFromPrevious = true ↔
      c.blendFromPrevious = true ∨
        (areSimilar (visemeOf U language c.value) p.value = true ∧ c.start - p.stop < 2/100)) ∧
    (processCue U language emotion (some p) c).smoothTransition =
      (if areSimilar (visemeOf U language c.value) p.value = true ∧ c.start - p.stop < 2/100
        then some (smoothingFactor language) else c.smoothTransition) := by
  rw [processCue_some]
  have h := applySmoothingTransitions_flags (processCue U language emotion none c) p language
  rw [(processCue_value U language emotion none c).1, (processCue_times U language emotion none c).1,
    (processCue_none_flags U language emotion c).1, (processCue_none_flags U language emotion c).2] at h
  exact h

end Rhubarb

/-- C27: on the degraded path the track of "Hello there" for en and the
emotion happy has the cues `D`, `C` and `A`, and each of them, the consonant
`C` and the rest `A` included, carries the intensity 1 × 1.2, the vowel
multiplier of happy, while none carries a sharpness; on the primary path the
rest cue `A` is scaled by neither multiplier and the consonant `C` gets the
sharpness 1 × 1.1 only. -/
theorem createAdvancedFallback_scales_every_cue :
    (Rhubarb.createAdvancedFallback 0 "en" "happy" "Hello there").mouthCues.map
        (fun c => (c.value, c.intensity, c.sharpness))
      = [("D", some (12/10), none), ("C", some (12/10), none), ("A", some (12/10), none)] ∧
    (Rhubarb.processPhonemeData Js.latin1 Example.restTrack "de" "happy"
        "Hello there").mouthCues.map (fun c => (c.value, c.intensity, c.sharpness))
      = [("A", none, none), ("C", none, some (11/10))] := by
  constructor
  · simp [Rhubarb.createAdvancedFallback, Rhubarb.createLanguageFallbackPattern,
      Rhubarb.EMOTION_PHONEME_MODIFIERS, List.lookup, Rhubarb.orOne]
  · have hA : Rhubarb.visemeOf Js.latin1 "de" "A" = "A" := by decide
    have hC : Rhubarb.visemeOf Js.latin1 "de" "C" = "C" := by decide
    simp only [Rhubarb.processPhonemeData, Example.restTrack, Rhubarb.processCues, List.map_cons,
      List.map_nil, Rhubarb.processCue_value, hA, hC]
    simp [Rhubarb.EMOTION_PHONEME_MODIFIERS, List.lookup, Rhubarb.orOne]

/-- C28 (failing input): for the language en the raw cues `aa` and `eh` are
adjacent (the later one starts where the earlier one ends, a gap of 0) and
their visemes `D` and `E` form a pair, yet the later cue is not flagged,
because the raw label `aa` of the earlier cue is compared; and the raw cues
`D` and `E` are mapped to `C` and `E`, which form no pair, yet the later cue
is flagged. -/
theorem processPhonemeData_smoothing_on_raw_label :
    (Rhubarb.processPhonemeData Js.latin1 Example.phonemeTrack "en" "default" "a").mouthCues.map
        (fun c => (c.value, c.blendFromPrevious, c.smoothTransition))
      = [("D", false, none), ("E", false, none)] ∧
    (Rhubarb.processPhonemeData Js.latin1 Example.visemeTrack "en" "default" "a").mouthCues.map
        (fun c => (c.value, c.blendFromPrevious, c.smoothTransition))
      = [("C", false, none), ("E", true, some (3/10))] := by
  have key : ∀ (p c : MouthCue) (b : Bool),
      c.blendFromPrevious = false → c.smoothTransition = none →
      (Rhubarb.areSimilar (Rhubarb.visemeOf Js.latin1 "en" c.value) p.value = true ∧
        c.start - p.stop < 2/100 ↔ b = true) →
      ((Rhubarb.processCue Js.latin1 "en" "default" (some p) c).blendFromPrevious = b ∧
       (Rhubarb.processCue Js.latin1 "en" "default" (some p) c).smoothTransition =
        if b = true then some (Rhubarb.smoothingFactor "en") else none) := by
    intro p c b hb hs hiff
    have h := Rhubarb.processCue_flags Js.latin1 "en" "default" p c
    rw [hb, hs] at h
    cases b with
    | true =>
      have hc := hiff.mpr rfl
      refine ⟨h.1.mpr (Or.inr hc), ?_⟩
      rw [h.2, if_pos hc]; rfl
    | false =>
      have hc : ¬ (Rhubarb.areSimilar (Rhubarb.visemeOf Js.latin1 "en" c.value) p.value = true ∧
          c.start - p.stop < 2/100) := fun hc => by simpa using hiff.mp hc
      refine ⟨?_, ?_⟩
      · cases hbl : (Rhubarb.processCue Js.latin1 "en" "default" (some p) c).blendFromPrevious with
        | false => rfl
        | true =>
          rcases h.1.mp hbl with h1 | h1
          · simp at h1
          · exact absurd h1 hc
      · rw [h.2, if_neg hc]; rfl
  have hf : Rhubarb.smoothingFactor "en" = 3/10 := by
    simp [Rhubarb.smoothingFactor, Rhubarb.smoothingFactors, List.lookup]
  constructor
  · have h2 := key { start := 0, stop := 1/10, value := "aa" }
      { start := 1/10, stop := 2/10, value := "eh" } false rfl rfl
      ⟨fun h => absurd h.1 (by decide), fun h => by simp at h⟩
    have h1 := Rhubarb.processCue_none_flags Js.latin1 "en" "default"
      { start := 0, stop := 1/10, value := "aa" }
    have hD : Rhubarb.visemeOf Js.latin1 "en" "aa" = "D" := by decide
    have hE : Rhubarb.visemeOf Js.latin1 "en" "eh" = "E" := by decide
    simp only [Rhubarb.processPhonemeData, Example.phonemeTrack, Rhubarb.processCues, List.map_cons,
      List.map_nil, Rhubarb.processCue_value, h1.1, h1.2, h2.1, h2.2, hD, hE]
    simp
  · have h2 := key { start := 0, stop := 1/10, value := "D" }
      { start := 1/10, stop := 2/10, value := "E" } true rfl rfl
      ⟨fun _ => rfl, fun _ => ⟨by decide, by norm_num⟩⟩
    have h1 := Rhubarb.processCue_none_flags Js.latin1 "en" "default"
      { start := 0, stop := 1/10, value := "D" }
    have hD : Rhubarb.visemeOf Js.latin1 "en" "D" = "C" := by decide
    have hE : Rhubarb.visemeOf Js.latin1 "en" "E" = "E" := by decide
    simp only [Rhubarb.processPhonemeData, Example.visemeTrack, Rhubarb.processCues, List.map_cons,
      List.map_nil, Rhubarb.processCue_value, h1.1, h1.2, h2.1, h2.2, hf, hD, hE]
    simp

/-! ## The language hint of the transcriber -/

namespace Whisper

/-- A normalized language code is neither empty nor "auto". -/
theorem normalizeLanguageCode_some_ne (U : Js.Unicode) (language m : String)
    (h : normalizeLanguageCode U language = some m) : m ≠ "" ∧ m ≠ "auto" := by
  unfold normalizeLanguageCode at h
  split_ifs at h with hl
  simp only at h
  cases hj : (LANGUAGE_MAPPINGS.lookup (U.toLowerCase language)).join with
  | some mapped =>
    rw [hj] at h
    simp only [Option.some.injEq] at h
    subst h
    have hlook : LANGUAGE_MAPPINGS.lookup (U.toLowerCase language) = some (some mapped) := by
      cases hq : LANGUAGE_MAPPINGS.lookup (U.toLowerCase language) with
      | none => rw [hq] at hj; simp at hj
      | some o =>
        rw [hq] at hj
        have ho : o = some mapped := by simpa using hj
        rw [ho]
    have hmem := mappings_values _ (lookup_mem _ _ _ hlook) mapped rfl
    have hall : ∀ tag ∈ supportedLanguages, tag ≠ "" ∧ tag ≠ "auto" := by decide
    exact hall mapped hmem
  | none =>
    rw [hj] at h
    simp only at h
    split_ifs at h with h2
    simp only [Option.some.injEq] at h
    subst h
    unfold isTwoLetterCode at h2
    simp only [Bool.and_eq_true, beq_iff_eq] at h2
    constructor
    · intro he
      rw [he] at h2
      exact absurd h2.1 (by decide)
    · intro he
      rw [he] at h2
      exact absurd h2.1 (by decide)

/-- The language that `detectLanguageWithWhisper` returns is neither empty
nor "auto". -/
theorem detectLanguageWithWhisper_ne (U : Js.Unicode) (outcome : ApiOutcome) :
    (detectLanguageWithWhisper U outcome).1 ≠ "" ∧ (detectLanguageWithWhisper U outcome).1 ≠ "auto" := by
  cases outcome with
  | error e => simp only [detectLanguageWithWhisper]; exact ⟨by decide, by decide⟩
  | ok t =>
    simp only [detectLanguageWithWhisper]
    cases hn : normalizeLanguageCode U (Js.orElse t.language "en") with
    | none => simp only [Js.orElse]; exact ⟨by decide, by decide⟩
    | some m =>
      have hm := normalizeLanguageCode_some_ne U _ m hn
      simp only [Js.orElse, if_neg hm.1]
      exact hm

/-- The hint of an invocation that reaches Step 4. -/
theorem convertAudioToText_hint (U : Js.Unicode) (env : Env) (invocation base length : Nat)
    (language : String) (hclient : env.clientInitialized = true)
    (hvalid : validateAudio length = none) (hwrite : (env.files invocation).writeError = none)
    (hconv : (env.files invocation).conversionOk = true ∨
      (env.files invocation).copyError = none) :
    (convertAudioToText U env invocation base length language).languageHint =
      (if language = "auto" ∨ normalizeLanguageCode U language = none then
        some (if (detectLanguageWithWhisper U (env.api base)).2 > LANGUAGE_CONFIDENCE_THRESHOLD
          then (detectLanguageWithWhisper U (env.api base)).1 else "en")
      else normalizeLanguageCode U language) := by
  have hfile : (if (env.files invocation).conversionOk = true then none
      else (env.files invocation).copyError) = none := by
    rcases hconv with h | h
    · rw [if_pos h]
    · split_ifs
      · rfl
      · exact h
  have hd : (decide (language = "auto") || (normalizeLanguageCode U language).isNone) = true ↔
      (language = "auto" ∨ normalizeLanguageCode U language = none) := by
    simp [Option.isNone_iff_eq_none]
  unfold convertAudioToText
  simp only [hclient, hvalid, hwrite, hfile, Bool.not_true, Bool.false_eq_true, if_false]
  by_cases hdet : language = "auto" ∨ normalizeLanguageCode U language = none
  · have hb := hd.mpr hdet
    have hne := detectLanguageWithWhisper_ne U (env.api base)
    have hx : ∀ x : String, x ≠ "" → x ≠ "auto" →
        (if x = "" ∨ x = "auto" then none else some x) = some x := by
      intro x h1 h2
      rw [if_neg (fun h => h.elim h1 h2)]
    have hchosen : (if (detectLanguageWithWhisper U (env.api base)).2 > LANGUAGE_CONFIDENCE_THRESHOLD
          then (detectLanguageWithWhisper U (env.api base)).1 else "en") ≠ "" ∧
        (if (detectLanguageWithWhisper U (env.api base)).2 > LANGUAGE_CONFIDENCE_THRESHOLD
          then (detectLanguageWithWhisper U (env.api base)).1 else "en") ≠ "auto" := by
      by_cases hgt : (detectLanguageWithWhisper U (env.api base)).2 > LANGUAGE_CONFIDENCE_THRESHOLD
      · rw [if_pos hgt]; exact hne
      · rw [if_neg hgt]; exact ⟨by decide, by decide⟩
    have hhint := hx _ hchosen.1 hchosen.2
    simp only [hb, if_true, if_pos hdet, hhint]
    split
    · rfl
    · split <;> rfl
  · have hb : (decide (language = "auto") || (normalizeLanguageCode U language).isNone) = false := by
      rw [Bool.eq_false_iff, Ne, hd]
      exact hdet
    simp only [hb, Bool.false_eq_true, if_false, if_neg hdet]
    cases hn : normalizeLanguageCode U language with
    | none => exact absurd (Or.inr hn) hdet
    | some m =>
      have hm := normalizeLanguageCode_some_ne U language m hn
      have hor : ¬ (m = "" ∨ m = "auto") := fun h => h.elim hm.1 hm.2
      simp only [Option.getD_some, if_neg hor]
      split
      · rfl
      · split <;> rfl

end Whisper

/-- C24 (counterexample): a confidence of exactly 0.7: the caller requested
"auto", the detection returns es with the confidence 0.7, which is not below
0.7, and the hint sent with the transcription is en. -/
theorem convertAudioToText_hint_at_threshold :
    Whisper.detectLanguageWithWhisper Js.latin1 (Example.envThreshold.api 0) = ("es", 7/10) ∧
    ¬ ((7/10 : ℚ) < 7/10) ∧
    (Whisper.convertAudioToText Js.latin1 Example.envThreshold 0 0 2000 "auto").languageHint
      = some "en" := by
  have hdet : Whisper.detectLanguageWithWhisper Js.latin1 (Example.envThreshold.api 0)
      = ("es", 7/10) := by
    have hn : Whisper.normalizeLanguageCode Js.latin1 "spanish" = some "es" := by decide
    simp only [Example.envThreshold, if_true, Whisper.detectLanguageWithWhisper, Js.orElse]
    rw [if_neg (by decide), hn]
    simp only [if_neg (show ¬ ("es" = "") by decide), List.headD_cons]
    norm_num
  refine ⟨hdet, by norm_num, ?_⟩
  rw [Whisper.convertAudioToText_hint Js.latin1 Example.envThreshold 0 0 2000 "auto" rfl
    (by decide) rfl (Or.inl rfl)]
  rw [if_pos (Or.inl rfl), hdet]
  simp only [Whisper.LANGUAGE_CONFIDENCE_THRESHOLD]
  norm_num

/-- C24 (amended): in an invocation of `convertAudioToText` that reaches the
language step, when the caller requested "auto" one detection call is made
and the hint sent with the transcription is the detected language when its
confidence is above 0.7 and en otherwise (at 0.7 and below); when the caller
requested a language that `normalizeLanguageCode` resolves, the resolved code
is the hint and no detection call is made. -/
theorem convertAudioToText_language_hint (U : Js.Unicode) (env : Whisper.Env)
    (invocation base length : Nat) (language : String)
    (hclient : env.clientInitialized = true)
    (hvalid : Whisper.validateAudio length = none)
    (hwrite : (env.files invocation).writeError = none)
    (hconv : (env.files invocation).conversionOk = true ∨
      (env.files invocation).copyError = none) :
    (language = "auto" →
      (Whisper.convertAudioToText U env invocation base length language).detectionCalls = 1 ∧
      (Whisper.convertAudioToText U env invocation base length language).languageHint =
        some (if (Whisper.detectLanguageWithWhisper U (env.api base)).2 > 7/10
          then (Whisper.detectLanguageWithWhisper U (env.api base)).1 else "en")) ∧
    (∀ code, Whisper.normalizeLanguageCode U language = some code →
      (Whisper.convertAudioToText U env invocation base length language).detectionCalls = 0 ∧
      (Whisper.convertAudioToText U env invocation base length language).languageHint =
        some code) := by
  have hrun := (Whisper.convertAudioToText_run U env invocation base length language hclient
    hvalid hwrite hconv).1
  have hhint := Whisper.convertAudioToText_hint U env invocation base length language hclient
    hvalid hwrite hconv
  constructor
  · intro hauto
    rw [hrun, hhint, if_pos (Or.inl hauto), if_pos (Or.inl hauto)]
    exact ⟨rfl, rfl⟩
  · intro code hcode
    have hnot : ¬ (language = "auto" ∨ Whisper.normalizeLanguageCode U language = none) := by
      rintro (h | h)
      · rw [h] at hcode
        simp [Whisper.normalizeLanguageCode] at hcode
      · rw [h] at hcode
        simp at hcode
    rw [hrun, hhint, if_neg hnot, if_neg hnot]
    exact ⟨rfl, hcode⟩

/-- Witness of C24 (amended): a detection with the confidence 0.9, whose
language es is the hint, and the requested language "French", whose hint is
fr. -/
theorem convertAudioToText_language_hint_witness :
    (Whisper.convertAudioToText Js.latin1 Example.envConfident 0 0 2000 "auto").languageHint
      = some "es" ∧
    (Whisper.convertAudioToText Js.latin1 Example.envConfident 0 0 2000 "French").detectionCalls = 0 ∧
    (Whisper.convertAudioToText Js.latin1 Example.envConfident 0 0 2000 "French").languageHint
      = some "fr" := by
  have hdet : Whisper.detectLanguageWithWhisper Js.latin1 (Example.envConfident.api 0)
      = ("es", 9/10) := by
    have hn : Whisper.normalizeLanguageCode Js.latin1 "spanish" = some "es" := by decide
    simp only [Example.envConfident, if_true, Whisper.detectLanguageWithWhisper, Js.orElse]
    rw [if_neg (by decide), hn]
    simp only [if_neg (show ¬ ("es" = "") by decide), List.headD_cons]
    norm_num
  refine ⟨?_, (convertAudioToText_language_hint Js.latin1 Example.envConfident 0 0 2000 "French"
    rfl (by decide) rfl (Or.inl rfl)).2 "fr" (by decide)⟩
  rw [((convertAudioToText_language_hint Js.latin1 Example.envConfident 0 0 2000 "auto" rfl
    (by decide) rfl (Or.inl rfl)).1 rfl).2, hdet]
  norm_num

/-! ## The names of the working files -/

theorem decodeDigits_digitChar (m : Nat) (h : m < 10) : (Nat.digitChar m).toNat - 48 = m := by
  interval_cases m <;> rfl

theorem decodeDigits_toDigitsCore :
    ∀ (fuel n : Nat) (ds : List Char), n < fuel →
      decodeDigits 0 (Nat.toDigitsCore 10 fuel n ds) = decodeDigits n ds := by
  intro fuel
  induction fuel with
  | zero => intro n ds h; omega
  | succ fuel ih =>
    intro n ds h
    simp only [Nat.toDigitsCore]
    have hd := decodeDigits_digitChar (n % 10) (Nat.mod_lt _ (by norm_num))
    split_ifs with h0
    · simp only [decodeDigits, List.foldl_cons, Nat.zero_mul, Nat.zero_add, hd]
      congr 1
      omega
    · have hlt : n / 10 < fuel := by omega
      rw [ih (n / 10) _ hlt]
      simp only [decodeDigits, List.foldl_cons, hd]
      congr 1
      omega

/-- The decimal numeral of a natural number determines the number. -/
theorem toString_nat_injective (i j : Nat) (h : toString i = toString j) : i = j := by
  have hi := decodeDigits_toDigitsCore (i + 1) i [] (Nat.lt_succ_self i)
  have hj := decodeDigits_toDigitsCore (j + 1) j [] (Nat.lt_succ_self j)
  have hd : Nat.toDigits 10 i = Nat.toDigits 10 j := by
    have h2 : (Nat.toDigits 10 i).asString = (Nat.toDigits 10 j).asString := h
    exact congrArg String.data h2
  unfold Nat.toDigits at hd
  rw [hd] at hi
  rw [hi] at hj
  simpa [decodeDigits] using hj

/-- A file name built around the decimal numeral of a number determines the
number. -/
theorem fileName_injective (pre post : String) (i j : Nat)
    (h : pre ++ toString i ++ post = pre ++ toString j ++ post) : i = j := by
  apply toString_nat_injective
  have hdata := congrArg String.data h
  simp only [String.data_append, List.append_assoc] at hdata
  have h1 := List.append_cancel_left hdata
  have h2 := List.append_cancel_right h1
  exact String.ext h2

/-- C22 (counterexample): the first messages of the requests 1 and 2, and two
transcriptions started in the same millisecond, are distinct operations and
get the same file names. -/
theorem working_files_collide :
    (⟨1, 0⟩ : MessageOperation) ≠ ⟨2, 0⟩ ∧
    MessageOperation.files ⟨1, 0⟩ = MessageOperation.files ⟨2, 0⟩ ∧
    MessageOperation.files ⟨1, 0⟩
      = ["audios/message_0.mp3", "/tmp/message_0.mp3", "/tmp/message_0.json"] ∧
    (⟨1, 1700000000000⟩ : TranscriptionOperation) ≠ ⟨2, 1700000000000⟩ ∧
    TranscriptionOperation.files ⟨1, 1700000000000⟩ = TranscriptionOperation.files ⟨2, 1700000000000⟩ ∧
    TranscriptionOperation.files ⟨1, 1700000000000⟩
      = ["/tmp/whisper_input_1700000000000.webm", "/tmp/whisper_processed_1700000000000.mp3"] := by
  refine ⟨by decide, rfl, by decide, by decide, rfl, by decide⟩

/-- C22 (amended): the names of the working files of a message are a function
of the index of the message alone, and those of a transcription a function
of the millisecond at which it starts alone: two operations get the same
name exactly when their indices, respectively their milliseconds, are equal,
whatever the requests they belong to. -/
theorem working_files_by_index (a b : MessageOperation) (s t : TranscriptionOperation) :
    (LipSync.fileName a.index = LipSync.fileName b.index ↔ a.index = b.index) ∧
    (LipSync.fileNameHead a.index = LipSync.fileNameHead b.index ↔ a.index = b.index) ∧
    (Rhubarb.outputJsonPath a.index = Rhubarb.outputJsonPath b.index ↔ a.index = b.index) ∧
    (Whisper.originalPath s.timestamp = Whisper.originalPath t.timestamp ↔
      s.timestamp = t.timestamp) ∧
    (Whisper.processedPath s.timestamp = Whisper.processedPath t.timestamp ↔
      s.timestamp = t.timestamp) ∧
    (a.files = b.files ↔ a.index = b.index) ∧
    (s.files = t.files ↔ s.timestamp = t.timestamp) := by
  have h1 : LipSync.fileName a.index = LipSync.fileName b.index ↔ a.index = b.index :=
    ⟨fun h => fileName_injective _ _ _ _ h, fun h => by rw [h]⟩
  have h2 : LipSync.fileNameHead a.index = LipSync.fileNameHead b.index ↔ a.index = b.index :=
    ⟨fun h => fileName_injective _ _ _ _ h, fun h => by rw [h]⟩
  have h3 : Rhubarb.outputJsonPath a.index = Rhubarb.outputJsonPath b.index ↔ a.index = b.index :=
    ⟨fun h => fileName_injective _ _ _ _ h, fun h => by rw [h]⟩
  have h4 : Whisper.originalPath s.timestamp = Whisper.originalPath t.timestamp ↔
      s.timestamp = t.timestamp :=
    ⟨fun h => fileName_injective _ _ _ _ h, fun h => by rw [h]⟩
  have h5 : Whisper.processedPath s.timestamp = Whisper.processedPath t.timestamp ↔
      s.timestamp = t.timestamp :=
    ⟨fun h => fileName_injective _ _ _ _ h, fun h => by rw [h]⟩
  refine ⟨h1, h2, h3, h4, h5, ?_, ?_⟩
  · constructor
    · intro h
      simp only [MessageOperation.files, List.cons.injEq] at h
      exact h1.mp h.1
    · intro h
      simp only [MessageOperation.files, h]
  · constructor
    · intro h
      simp only [TranscriptionOperation.files, List.cons.injEq] at h
      exact h4.mp h.1
    · intro h
      simp only [TranscriptionOperation.files, h]

/-! ## The language field of the responses -/

namespace Server

/-- The function `detectLanguage` of `server.js` returns a supported tag. -/
theorem detectLanguage_supported (U : Js.Unicode) (text : String) :
    detectLanguage U text ∈ supportedLanguages := by
  unfold detectLanguage
  split_ifs
  · decide
  · decide
  · decide
  · decide
  · decide
  · simp only
    split_ifs
    · decide
    · cases hfind : (scores (Js.cleanText U text)).find? (fun p => p.2 ==
          Js.mathMax (((scores (Js.cleanText U text)).map Prod.snd).headD 0)
            (((scores (Js.cleanText U text)).map Prod.snd).tail)) with
      | none => decide
      | some p =>
        have hmem := List.mem_of_find?_eq_some hfind
        simp only [Option.map_some', Option.getD_some]
        unfold scores at hmem
        simp only [languagePatterns, List.map_cons, List.map_nil, List.mem_cons,
          List.mem_singleton, List.not_mem_nil, or_false] at hmem
        rcases hmem with h | h | h | h | h <;> (rw [h]; simp [supportedLanguages])

/-- The constant `detectedLanguage` of `/tts`. -/
theorem ttsLanguage_cases (U : Js.Unicode) (language : Option String) (userMessage : String) :
    ((language = none ∨ language = some "" ∨ language = some "auto") →
      ttsLanguage U language userMessage = detectLanguage U userMessage) ∧
    (∀ l, language = some l → l ≠ "" → l ≠ "auto" → ttsLanguage U language userMessage = l) := by
  unfold ttsLanguage
  constructor
  · rintro (h | h | h) <;> subst h <;> simp [Js.orElse]
  · intro l h h1 h2
    subst h
    simp [Js.orElse, h1, h2]

/-- The constant `detectedLanguage` of `/sts`. -/
theorem stsLanguage_cases (U : Js.Unicode) (language : Option String) (transcription : String) :
    ((language = none ∨ language = some "") →
      stsLanguage U language transcription = detectLanguage U transcription) ∧
    (∀ l, language = some l → l ≠ "" → stsLanguage U language transcription = l) := by
  unfold stsLanguage
  constructor
  · rintro (h | h) <;> subst h <;> simp [Js.orElse]
  · intro l h h1
    subst h
    simp [Js.orElse, h1]

/-- The response of `/tts` to a request without a text. -/
theorem tts_blank (U : Js.Unicode) (openAIApiKey : Bool) (openAIChain : OpenAI.Chain)
    (env : LipSync.Env) (schedule : List Nat) (defaultResponse : List Message)
    (request : TtsRequest)
    (h : request.message = none ∨
      ∃ userMessage, request.message = some userMessage ∧
        (userMessage = "" ∨ Js.trim userMessage = "")) :
    tts U openAIApiKey openAIChain env schedule defaultResponse request =
      { status := 400, error := some "Message is required" } := by
  unfold tts
  rcases h with h | ⟨userMessage, h, hb⟩
  · simp only [h]
  · simp only [h, hb, if_true]

/-- The response of `/tts` to a request with a text: the status 200 with the
constant `detectedLanguage`, or the status 500 with the default messages. -/
theorem tts_answer (U : Js.Unicode) (openAIApiKey : Bool) (openAIChain : OpenAI.Chain)
    (env : LipSync.Env) (schedule : List Nat) (defaultResponse : List Message)
    (request : TtsRequest) (userMessage : String) (hmessage : request.message = some userMessage)
    (hblank : ¬ (userMessage = "" ∨ Js.trim userMessage = "")) :
    (((tts U openAIApiKey openAIChain env schedule defaultResponse request).status = 200 ∧
      (tts U openAIApiKey openAIChain env schedule defaultResponse request).language =
        some (ttsLanguage U request.language userMessage)) ∨
     ((["hi", "hello", "hey"].contains (Js.trim (U.toLowerCase userMessage)) = true ∨
        openAIApiKey = false) ∧
      tts U openAIApiKey openAIChain env schedule defaultResponse request =
        { status := 500, error := some "Internal server error", messages := defaultResponse })) := by
  unfold tts
  simp only [hmessage, hblank, if_false]
  cases hg : ["hi", "hello", "hey"].contains (Js.trim (U.toLowerCase userMessage)) with
  | true =>
    simp only [if_true]
    split
    · left; simp
    · right; simp
  | false =>
    simp only [Bool.false_eq_true, if_false]
    cases openAIApiKey with
    | false =>
      simp only [Bool.not_false, if_true]
      split
      · left; simp
      · right; simp
    | true => left; simp

/-- A response that ends the transcription stage of `/sts` has no language. -/
theorem stsTranscribe_responded (U : Js.Unicode) (openAIApiKey : Bool) (whisperEnv : Whisper.Env)
    (request : StsRequest) (response : Response)
    (h : (stsTranscribe U openAIApiKey whisperEnv request).1 = .responded response) :
    response.language = none ∧
    (response.status = 200 → response.messages.length = 1 ∧ response.transcription = some "") ∧
    (response.status ≠ 200 → response.messages = []) := by
  unfold stsTranscribe at h
  split_ifs at h
  · cases h; exact ⟨rfl, by decide, fun _ => rfl⟩
  · cases h; exact ⟨rfl, by decide, fun _ => rfl⟩
  · cases h; exact ⟨rfl, by decide, fun _ => rfl⟩
  · simp only at h
    split at h
    · cases h
    · split at h
      · cases h
      · cases h; exact ⟨rfl, fun _ => ⟨rfl, rfl⟩, fun h => absurd rfl h⟩

/-- When the status 200 of `/tts` is reached in the two branches that call
`lipSync` outside the last `try`. -/
theorem tts_status (U : Js.Unicode) (openAIApiKey : Bool) (openAIChain : OpenAI.Chain)
    (env : LipSync.Env) (schedule : List Nat) (defaultResponse : List Message)
    (request : TtsRequest) (userMessage : String) (hmessage : request.message = some userMessage)
    (hblank : ¬ (userMessage = "" ∨ Js.trim userMessage = "")) :
    (["hi", "hello", "hey"].contains (Js.trim (U.toLowerCase userMessage)) = true →
      ((tts U openAIApiKey openAIChain env schedule defaultResponse request).status = 200 ↔
        (LipSync.lipSync U env schedule enhancedDefault
          (ttsLanguage U request.language userMessage)).isSome = true)) ∧
    (["hi", "hello", "hey"].contains (Js.trim (U.toLowerCase userMessage)) = false →
      openAIApiKey = false →
      ((tts U openAIApiKey openAIChain env schedule defaultResponse request).status = 200 ↔
        (LipSync.lipSync U env schedule
          (createContextualFallback U userMessage (ttsLanguage U request.language userMessage))
          (ttsLanguage U request.language userMessage)).isSome = true)) ∧
    (["hi", "hello", "hey"].contains (Js.trim (U.toLowerCase userMessage)) = false →
      openAIApiKey = true →
      (tts U openAIApiKey openAIChain env schedule defaultResponse request).status = 200) := by
  unfold tts
  simp only [hmessage, hblank, if_false]
  refine ⟨?_, ?_, ?_⟩
  · intro hg
    simp only [hg, if_true]
    cases LipSync.lipSync U env schedule enhancedDefault
      (ttsLanguage U request.language userMessage) <;> simp
  · intro hg hk
    simp only [hg, hk, Bool.false_eq_true, if_false, Bool.not_false, if_true]
    cases LipSync.lipSync U env schedule
      (createContextualFallback U userMessage (ttsLanguage U request.language userMessage))
      (ttsLanguage U request.language userMessage) <;> simp
  · intro hg hk
    simp only [hg, hk, Bool.false_eq_true, if_false, Bool.not_true]

/-- The response of `/sts` once the audio is transcribed. -/
theorem sts_answer (U : Js.Unicode) (openAIApiKey : Bool) (openAIChain : OpenAI.Chain)
    (whisperEnv : Whisper.Env) (env : LipSync.Env) (schedule : List Nat) (request : StsRequest)
    (transcription : String)
    (h : (stsTranscribe U openAIApiKey whisperEnv request).1 = .transcribed transcription) :
    ((transcription = "" ∨ Js.trim transcription = "") →
      (sts U openAIApiKey openAIChain whisperEnv env schedule request).status = 200 ∧
      (sts U openAIApiKey openAIChain whisperEnv env schedule request).messages.length = 1 ∧
      (sts U openAIApiKey openAIChain whisperEnv env schedule request).transcription =
        some transcription ∧
      (sts U openAIApiKey openAIChain whisperEnv env schedule request).language = none) ∧
    (¬ (transcription = "" ∨ Js.trim transcription = "") →
      (∀ processedMessages,
        LipSync.lipSync U env schedule
          (enhanceMessageWithEmotion U
            (OpenAI.processUserInput U openAIChain transcription
              (stsLanguage U request.language transcription))
            (stsLanguage U request.language transcription))
          (stsLanguage U request.language transcription) = some processedMessages →
        sts U openAIApiKey openAIChain whisperEnv env schedule request =
          { status := 200, messages := processedMessages, transcription := some transcription
            language := some (stsLanguage U request.language transcription) }) ∧
      (LipSync.lipSync U env schedule
          (enhanceMessageWithEmotion U
            (OpenAI.processUserInput U openAIChain transcription
              (stsLanguage U request.language transcription))
            (stsLanguage U request.language transcription))
          (stsLanguage U request.language transcription) = none →
        (sts U openAIApiKey openAIChain whisperEnv env schedule request).status = 200 ∧
        (sts U openAIApiKey openAIChain whisperEnv env schedule request).messages.length = 2 ∧
        (sts U openAIApiKey openAIChain whisperEnv env schedule request).transcription =
          some transcription ∧
        (sts U openAIApiKey openAIChain whisperEnv env schedule request).language = none)) := by
  unfold sts
  simp only [h]
  constructor
  · intro hb
    simp only [hb, if_true]
    simp
  · intro hb
    simp only [hb, if_false]
    constructor
    · intro processedMessages hl
      simp only [hl]
    · intro hl
      simp only [hl]
      simp

end Server

/-- C21 (counterexample): the response to a `/tts` request with the language
"xx" has the status 200, a message list and the language "xx", which is not
one of the supported tags; the response to a `/sts` request with the language
"auto" has a message list and the language "auto"; and the response to a
`/sts` request whose audio cannot be transcribed has a message list and no
language field. -/
theorem tts_language_unsupported :
    (Server.tts Js.latin1 true (fun _ _ => .thrown) Example.envFirstFails [0, 1] []
      { message := some "Tell me about Paris", language := some "xx" }).status = 200 ∧
    (Server.tts Js.latin1 true (fun _ _ => .thrown) Example.envFirstFails [0, 1] []
      { message := some "Tell me about Paris", language := some "xx" }).messages ≠ [] ∧
    (Server.tts Js.latin1 true (fun _ _ => .thrown) Example.envFirstFails [0, 1] []
      { message := some "Tell me about Paris", language := some "xx" }).language = some "xx" ∧
    "xx" ∉ supportedLanguages ∧
    (Server.sts Js.latin1 true (fun _ _ => .thrown) Example.envAnswers Example.envReadsFail
      [0, 1] { Example.smallRequest with language := some "auto" }).messages.length = 1 ∧
    (Server.sts Js.latin1 true (fun _ _ => .thrown) Example.envAnswers Example.envReadsFail
      [0, 1] { Example.smallRequest with language := some "auto" }).language = some "auto" ∧
    "auto" ∉ supportedLanguages ∧
    (Server.sts Js.latin1 true (fun _ _ => .thrown) Example.envServerErrors Example.envFirstFails
      [0, 1] { audio := some "UklGRg==", audioLength := 2000 }).messages ≠ [] ∧
    (Server.sts Js.latin1 true (fun _ _ => .thrown) Example.envServerErrors Example.envFirstFails
      [0, 1] { audio := some "UklGRg==", audioLength := 2000 }).language = none := by
  refine ⟨by decide, by decide, by decide, by decide, by decide, by decide, by decide, by decide,
    by decide⟩

/-- C21 (amended): for requests whose language string is not the name of a
member of `Object.prototype`. A `/tts` request without a text is answered with
the status 400 and no language. A `/tts` request with a text is answered with
the status 200 or 500: with the status 200 the language field is present and
is the tag that `detectLanguage` gives to the text, one of the 11 supported
tags, when the request carries no language, an empty one or "auto", and the
language string of the request as it is otherwise; the status 500 is given
when `lipSync` fails for the texts hi, hello and hey or without a key of the
response generator, and that response carries the default messages and no
language. A `/sts` response carries a language exactly when the audio was
transcribed to a text that is not blank and `lipSync` succeeded on the reply:
the field is then the tag that `detectLanguage` gives to the transcription,
one of the 11 supported tags, when the request carries no language or an
empty one, and the language string of the request as it is otherwise, "auto"
included. The other `/sts` responses carry no language: the ones that end the
transcription stage (status 400 or 500 without messages, or status 200 with
one message and an empty transcription), the reply to a blank transcription
(one message) and the reply sent when the processing fails (two messages). -/
theorem response_language (U : Js.Unicode) (openAIApiKey : Bool) (openAIChain : OpenAI.Chain)
    (whisperEnv : Whisper.Env) (env : LipSync.Env) (schedule : List Nat)
    (defaultResponse : List Message) (ttsRequest : Server.TtsRequest)
    (stsRequest : Server.StsRequest)
    (_httsKey : ∀ l, ttsRequest.language = some l → l ∉ Js.objectPrototypeKeys)
    (_hstsKey : ∀ l, stsRequest.language = some l → l ∉ Js.objectPrototypeKeys) :
    ((ttsRequest.message = none ∨
        ∃ userMessage, ttsRequest.message = some userMessage ∧
          (userMessage = "" ∨ Js.trim userMessage = "")) →
      (Server.tts U openAIApiKey openAIChain env schedule defaultResponse ttsRequest).status =
        400 ∧
      (Server.tts U openAIApiKey openAIChain env schedule defaultResponse ttsRequest).language =
        none) ∧
    (∀ userMessage, ttsRequest.message = some userMessage →
      ¬ (userMessage = "" ∨ Js.trim userMessage = "") →
      ((Server.tts U openAIApiKey openAIChain env schedule defaultResponse ttsRequest).status =
          200 →
        (Server.tts U openAIApiKey openAIChain env schedule defaultResponse ttsRequest).language =
          some (Server.ttsLanguage U ttsRequest.language userMessage)) ∧
      ((Server.tts U openAIApiKey openAIChain env schedule defaultResponse ttsRequest).status ≠
          200 →
        (["hi", "hello", "hey"].contains (Js.trim (U.toLowerCase userMessage)) = true ∨
          openAIApiKey = false) ∧
        Server.tts U openAIApiKey openAIChain env schedule defaultResponse ttsRequest =
          { status := 500, error := some "Internal server error",
            messages := defaultResponse }) ∧
      (["hi", "hello", "hey"].contains (Js.trim (U.toLowerCase userMessage)) = true →
        ((Server.tts U openAIApiKey openAIChain env schedule defaultResponse
            ttsRequest).status = 200 ↔
          (LipSync.lipSync U env schedule Server.enhancedDefault
            (Server.ttsLanguage U ttsRequest.language userMessage)).isSome = true)) ∧
      (["hi", "hello", "hey"].contains (Js.trim (U.toLowerCase userMessage)) = false →
        openAIApiKey = false →
        ((Server.tts U openAIApiKey openAIChain env schedule defaultResponse
            ttsRequest).status = 200 ↔
          (LipSync.lipSync U env schedule
            (Server.createContextualFallback U userMessage
              (Server.ttsLanguage U ttsRequest.language userMessage))
            (Server.ttsLanguage U ttsRequest.language userMessage)).isSome = true)) ∧
      (["hi", "hello", "hey"].contains (Js.trim (U.toLowerCase userMessage)) = false →
        openAIApiKey = true →
        (Server.tts U openAIApiKey openAIChain env schedule defaultResponse
          ttsRequest).status = 200) ∧
      ((ttsRequest.language = none ∨ ttsRequest.language = some "" ∨
          ttsRequest.language = some "auto") →
        Server.ttsLanguage U ttsRequest.language userMessage =
          Server.detectLanguage U userMessage ∧
        Server.detectLanguage U userMessage ∈ supportedLanguages) ∧
      (∀ l, ttsRequest.language = some l → l ≠ "" → l ≠ "auto" →
        Server.ttsLanguage U ttsRequest.language userMessage = l)) ∧
    (∀ response,
      (Server.stsTranscribe U openAIApiKey whisperEnv stsRequest).1 = .responded response →
      Server.sts U openAIApiKey openAIChain whisperEnv env schedule stsRequest = response ∧
      response.language = none ∧
      (response.status = 200 →
        response.messages.length = 1 ∧ response.transcription = some "") ∧
      (response.status ≠ 200 → response.messages = [])) ∧
    (∀ transcription,
      (Server.stsTranscribe U openAIApiKey whisperEnv stsRequest).1 =
        .transcribed transcription →
      ((transcription = "" ∨ Js.trim transcription = "") →
        (Server.sts U openAIApiKey openAIChain whisperEnv env schedule stsRequest).status =
          200 ∧
        (Server.sts U openAIApiKey openAIChain whisperEnv env schedule
          stsRequest).messages.length = 1 ∧
        (Server.sts U openAIApiKey openAIChain whisperEnv env schedule
          stsRequest).transcription = some transcription ∧
        (Server.sts U openAIApiKey openAIChain whisperEnv env schedule stsRequest).language =
          none) ∧
      (¬ (transcription = "" ∨ Js.trim transcription = "") →
        (∀ processedMessages,
          LipSync.lipSync U env schedule
            (Server.enhanceMessageWithEmotion U
              (OpenAI.processUserInput U openAIChain transcription
                (Server.stsLanguage U stsRequest.language transcription))
              (Server.stsLanguage U stsRequest.language transcription))
            (Server.stsLanguage U stsRequest.language transcription) = some processedMessages →
          Server.sts U openAIApiKey openAIChain whisperEnv env schedule stsRequest =
            { status := 200, messages := processedMessages
              transcription := some transcription
              language := some (Server.stsLanguage U stsRequest.language transcription) }) ∧
        (LipSync.lipSync U env schedule
            (Server.enhanceMessageWithEmotion U
              (OpenAI.processUserInput U openAIChain transcription
                (Server.stsLanguage U stsRequest.language transcription))
              (Server.stsLanguage U stsRequest.language transcription))
            (Server.stsLanguage U stsRequest.language transcription) = none →
          (Server.sts U openAIApiKey openAIChain whisperEnv env schedule stsRequest).status =
            200 ∧
          (Server.sts U openAIApiKey openAIChain whisperEnv env schedule
            stsRequest).messages.length = 2 ∧
          (Server.sts U openAIApiKey openAIChain whisperEnv env schedule
            stsRequest).transcription = some transcription ∧
          (Server.sts U openAIApiKey openAIChain whisperEnv env schedule stsRequest).language =
            none)) ∧
      ((stsRequest.language = none ∨ stsRequest.language = some "") →
        Server.stsLanguage U stsRequest.language transcription =
          Server.detectLanguage U transcription ∧
        Server.detectLanguage U transcription ∈ supportedLanguages) ∧
      (∀ l, stsRequest.language = some l → l ≠ "" →
        Server.stsLanguage U stsRequest.language transcription = l) ∧
      (stsRequest.language = some "auto" →
        Server.stsLanguage U stsRequest.language transcription = "auto")) := by
  refine ⟨?_, ?_, ?_, ?_⟩
  · intro h
    rw [Server.tts_blank U openAIApiKey openAIChain env schedule defaultResponse ttsRequest h]
    exact ⟨rfl, rfl⟩
  · intro userMessage hmessage hblank
    have hans := Server.tts_answer U openAIApiKey openAIChain env schedule defaultResponse
      ttsRequest userMessage hmessage hblank
    have hstatus := Server.tts_status U openAIApiKey openAIChain env schedule defaultResponse
      ttsRequest userMessage hmessage hblank
    refine ⟨?_, ?_, hstatus.1, hstatus.2.1, hstatus.2.2, ?_, ?_⟩
    · intro h200
      rcases hans with h | ⟨_, h⟩
      · exact h.2
      · rw [h] at h200; simp at h200
    · intro hne
      rcases hans with h | h
      · exact absurd h.1 hne
      · exact h
    · intro hl
      exact ⟨(Server.ttsLanguage_cases U ttsRequest.language userMessage).1 hl,
        Server.detectLanguage_supported U userMessage⟩
    · exact (Server.ttsLanguage_cases U ttsRequest.language userMessage).2
  · intro response h
    refine ⟨?_, Server.stsTranscribe_responded U openAIApiKey whisperEnv stsRequest response h⟩
    unfold Server.sts
    simp only [h]
  · intro transcription h
    have hans := Server.sts_answer U openAIApiKey openAIChain whisperEnv env schedule stsRequest
      transcription h
    refine ⟨hans.1, hans.2, ?_, (Server.stsLanguage_cases U stsRequest.language transcription).2,
      ?_⟩
    · intro hl
      exact ⟨(Server.stsLanguage_cases U stsRequest.language transcription).1 hl,
        Server.detectLanguage_supported U transcription⟩
    · intro hl
      exact (Server.stsLanguage_cases U stsRequest.language transcription).2 "auto" hl
        (by decide)

/-- Witness of C21 (amended): a `/tts` request with the language "fr", answered
with the language "fr", and a `/sts` request with the language "es", whose
audio is transcribed to "Hello" and which is answered with the language "es". -/
theorem response_language_witness :
    (Server.tts Js.latin1 true (fun _ _ => .thrown) Example.envReadsFail [0, 1] []
      { message := some "Tell me about Paris", language := some "fr" }).language = some "fr" ∧
    (Server.sts Js.latin1 true (fun _ _ => .thrown) Example.envAnswers Example.envReadsFail
      [0, 1] { Example.smallRequest with language := some "es" }).language = some "es" :=
  ⟨by
    rw [((response_language Js.latin1 true (fun _ _ => .thrown) Example.envAnswers
      Example.envReadsFail [0, 1] []
      { message := some "Tell me about Paris", language := some "fr" }
      { Example.smallRequest with language := some "es" }
      (fun l h => by cases h; decide) (fun l h => by cases h; decide)).2.1
      "Tell me about Paris" rfl (by decide)).1 (by decide)]
    decide,
   by
    obtain ⟨processedMessages, hl⟩ : ∃ processedMessages,
        LipSync.lipSync Js.latin1 Example.envReadsFail [0, 1]
          (Server.enhanceMessageWithEmotion Js.latin1
            (OpenAI.processUserInput Js.latin1 (fun _ _ => .thrown) "Hello"
              (Server.stsLanguage Js.latin1 (some "es") "Hello"))
            (Server.stsLanguage Js.latin1 (some "es") "Hello"))
          (Server.stsLanguage Js.latin1 (some "es") "Hello") = some processedMessages :=
      ⟨_, rfl⟩
    rw [(((response_language Js.latin1 true (fun _ _ => .thrown) Example.envAnswers
      Example.envReadsFail [0, 1] []
      { message := some "Tell me about Paris", language := some "fr" }
      { Example.smallRequest with language := some "es" }
      (fun l h => by cases h; decide) (fun l h => by cases h; decide)).2.2.2
      "Hello" (by decide)).2.1 (by decide)).1 processedMessages hl]
    rfl⟩

/-! ## Post-processing of a transcription -/

namespace Whisper

theorem toNat_ofNat_small (n : Nat) (h : n < 0xD800) : (Char.ofNat n).toNat = n := by
  have hv : n.isValidChar := Or.inl h
  simp only [Char.ofNat, hv, dite_true, Char.toNat, Char.ofNatAux, UInt32.toNat]
  simp

theorem toUpperAscii_toNat (c : Char) :
    (toUpperAscii c).toNat = if 0x61 ≤ c.toNat ∧ c.toNat ≤ 0x7A then c.toNat - 32 else c.toNat := by
  unfold toUpperAscii
  by_cases h : 0x61 ≤ c.toNat ∧ c.toNat ≤ 0x7A
  · have hb : (decide (0x61 ≤ c.toNat) && decide (c.toNat ≤ 0x7A)) = true := by simp [h]
    rw [if_pos hb, if_pos h]
    exact toNat_ofNat_small _ (by omega)
  · have hb : ¬ ((decide (0x61 ≤ c.toNat) && decide (c.toNat ≤ 0x7A)) = true) := by
      simpa using h
    rw [if_neg hb, if_neg h]

theorem isWordChar_iff (c : Char) :
    isWordChar c = true ↔
      ((0x30 ≤ c.toNat ∧ c.toNat ≤ 0x39) ∨ (0x41 ≤ c.toNat ∧ c.toNat ≤ 0x5A) ∨ c.toNat = 0x5F ∨
        (0x61 ≤ c.toNat ∧ c.toNat ≤ 0x7A)) := by
  simp only [isWordChar, Bool.or_eq_true, Bool.and_eq_true, decide_eq_true_eq, beq_iff_eq]
  tauto

theorem isWhiteSpace_le (c : Char) (h : Js.isWhiteSpace c = true) :
    c.toNat ≤ 0x20 ∨ 0xA0 ≤ c.toNat := by
  simp only [Js.isWhiteSpace, Bool.or_eq_true, Bool.and_eq_true, decide_eq_true_eq,
    beq_iff_eq] at h
  omega

/-- A word character is no white space. -/
theorem isWordChar_not_ws (c : Char) (h : isWordChar c = true) : Js.isWhiteSpace c = false := by
  rw [isWordChar_iff] at h
  cases hw : Js.isWhiteSpace c with
  | false => rfl
  | true =>
    have := isWhiteSpace_le c hw
    omega

/-- The upper-case form of a word character is a word character that is its
own upper-case form. -/
theorem toUpperAscii_word (c : Char) (h : isWordChar c = true) :
    isWordChar (toUpperAscii c) = true ∧ toUpperAscii (toUpperAscii c) = toUpperAscii c := by
  have hn := toUpperAscii_toNat c
  rw [isWordChar_iff] at h
  constructor
  · rw [isWordChar_iff, hn]
    split_ifs <;> omega
  · have h2 : ¬ (0x61 ≤ (toUpperAscii c).toNat ∧ (toUpperAscii c).toNat ≤ 0x7A) := by
      rw [hn]; split_ifs <;> omega
    have hb : ¬ ((decide (0x61 ≤ (toUpperAscii c).toNat) &&
        decide ((toUpperAscii c).toNat ≤ 0x7A)) = true) := by simpa using h2
    clear hn
    generalize toUpperAscii c = d at h2 hb ⊢
    unfold toUpperAscii
    rw [if_neg hb]

/-! ### Tidy lists -/

theorem tidy_mono : ∀ (l : List Char), tidy true l = true → tidy false l = true := by
  intro l h
  cases l with
  | nil => rfl
  | cons c cs =>
    simp only [tidy] at h ⊢
    split_ifs at h ⊢ with hc
    · simp at h
    · exact h

theorem tidy_of_no_ws : ∀ (l : List Char) (p : Bool),
    (∀ c ∈ l, Js.isWhiteSpace c = false) → tidy p l = true := by
  intro l
  induction l with
  | nil => intro _ _; rfl
  | cons c cs ih =>
    intro p h
    simp only [tidy, h c (List.mem_cons_self _ _), Bool.false_eq_true, if_false]
    exact ih false (fun x hx => h x (List.mem_cons_of_mem _ hx))

/-- A tidy list that follows characters without white space. -/
theorem tidy_append_no_ws : ∀ (x : List Char) (p : Bool) (r : List Char),
    (∀ c ∈ x, Js.isWhiteSpace c = false) →
    tidy p (x ++ r) = if x = [] then tidy p r else tidy false r := by
  intro x
  induction x with
  | nil => intro p r _; rfl
  | cons c cs ih =>
    intro p r h
    have hc := h c (List.mem_cons_self _ _)
    have hrec := ih false r (fun x hx => h x (List.mem_cons_of_mem _ hx))
    have hstep : tidy p (c :: (cs ++ r)) = tidy false (cs ++ r) := by
      simp only [tidy, hc, Bool.false_eq_true, if_false]
    rw [List.cons_append, hstep, hrec, if_neg (List.cons_ne_nil c cs)]
    split_ifs <;> rfl

theorem tidy_append_char : ∀ (l : List Char) (p : Bool) (c : Char),
    Js.isWhiteSpace c = false → tidy p l = true → tidy p (l ++ [c]) = true := by
  intro l
  induction l with
  | nil =>
    intro p c hc _
    simp [tidy, hc]
  | cons a as ih =>
    intro p c hc h
    simp only [List.cons_append, tidy] at h ⊢
    split_ifs at h ⊢ with ha
    · simp only [Bool.and_eq_true] at h ⊢
      exact ⟨h.1, ih true c hc h.2⟩
    · exact ih false c hc h

theorem tidy_head (l : List Char) (h : tidy true l = true) :
    ∀ c, l.head? = some c → Js.isWhiteSpace c = false := by
  intro c hc
  cases l with
  | nil => simp at hc
  | cons a as =>
    simp only [List.head?_cons, Option.some.injEq] at hc
    subst hc
    simp only [tidy] at h
    split_ifs at h with ha
    · simp at h
    · simpa using ha

theorem tidy_singleSpaced : ∀ (l : List Char) (p : Bool), tidy p l = true → SingleSpaced l := by
  intro l
  induction l with
  | nil => intro _ _; exact ⟨fun c hc => by simp at hc, List.chain'_nil⟩
  | cons a as ih =>
    intro p h
    simp only [tidy] at h
    split_ifs at h with ha
    · simp only [Bool.and_eq_true, beq_iff_eq] at h
      obtain ⟨h1, h2⟩ := ih true h.2
      refine ⟨?_, ?_⟩
      · intro c hc hws
        rcases List.mem_cons.mp hc with rfl | hc
        · exact h.1.2
        · exact h1 c hc hws
      · rw [List.chain'_cons']
        refine ⟨?_, h2⟩
        intro b hb hab
        exact absurd hab.2 (by rw [tidy_head as h.2 b hb]; simp)
    · obtain ⟨h1, h2⟩ := ih false h
      refine ⟨?_, ?_⟩
      · intro c hc hws
        rcases List.mem_cons.mp hc with rfl | hc
        · exact absurd hws ha
        · exact h1 c hc hws
      · rw [List.chain'_cons']
        exact ⟨fun b _ hab => ha hab.1, h2⟩

/-! ### Collapsing and trimming -/

theorem collapseWhiteSpace_tidy : ∀ (l : List Char),
    tidy true (collapseWhiteSpace l true) = true ∧
    tidy false (collapseWhiteSpace l false) = true := by
  intro l
  induction l with
  | nil => exact ⟨rfl, rfl⟩
  | cons c cs ih =>
    by_cases hc : Js.isWhiteSpace c = true
    · simp only [collapseWhiteSpace, hc, if_true, Bool.false_eq_true, if_false]
      refine ⟨ih.1, ?_⟩
      have hsp : Js.isWhiteSpace ' ' = true := by decide
      simp only [tidy, hsp, if_true, Bool.not_false, beq_self_eq_true, Bool.true_and]
      exact ih.1
    · simp only [collapseWhiteSpace, hc, if_false, tidy]
      exact ⟨ih.2, ih.2⟩

theorem collapseWhiteSpace_tidy_head (l : List Char)
    (h : ∀ c, l.head? = some c → Js.isWhiteSpace c = false) :
    tidy true (collapseWhiteSpace l false) = true := by
  cases l with
  | nil => rfl
  | cons c cs =>
    have hc := h c rfl
    simp only [collapseWhiteSpace, hc, Bool.false_eq_true, if_false, tidy]
    exact (collapseWhiteSpace_tidy cs).2

/-- Collapsing leaves a tidy list as it is. -/
theorem collapseWhiteSpace_of_tidy : ∀ (l : List Char) (p b : Bool),
    tidy p l = true → (b = true → p = true) → collapseWhiteSpace l b = l := by
  intro l
  induction l with
  | nil => intro _ _ _ _; rfl
  | cons c cs ih =>
    intro p b h hb
    simp only [tidy] at h
    by_cases hc : Js.isWhiteSpace c = true
    · simp only [hc, if_true, Bool.and_eq_true, Bool.not_eq_true', beq_iff_eq] at h
      have hbf : b = false := by
        cases b with
        | false => rfl
        | true => have := hb rfl; rw [h.1.1] at this; cases this
      subst hbf
      simp only [collapseWhiteSpace, hc, if_true, Bool.false_eq_true, if_false]
      rw [ih true true h.2 (fun _ => rfl), h.1.2]
    · have hc2 : Js.isWhiteSpace c = false := by simpa using hc
      simp only [hc2, Bool.false_eq_true, if_false] at h
      simp only [collapseWhiteSpace, hc2, Bool.false_eq_true, if_false]
      rw [ih false false h (fun hf => by cases hf)]

theorem collapseWhiteSpace_ne_nil (l : List Char) (hne : l ≠ [])
    (h : ∀ c, l.head? = some c → Js.isWhiteSpace c = false) :
    collapseWhiteSpace l false ≠ [] := by
  cases l with
  | nil => exact absurd rfl hne
  | cons c cs =>
    have hc := h c rfl
    simp [collapseWhiteSpace, hc]

theorem trimStartList_head (l : List Char) :
    ∀ c, (Js.trimStartList l).head? = some c → Js.isWhiteSpace c = false := by
  intro c hc
  have := List.head?_dropWhile_not Js.isWhiteSpace l
  unfold Js.trimStartList at hc
  rw [hc] at this
  exact this

theorem trimStartList_of_head (l : List Char)
    (h : ∀ c, l.head? = some c → Js.isWhiteSpace c = false) : Js.trimStartList l = l := by
  cases l with
  | nil => rfl
  | cons c cs =>
    unfold Js.trimStartList
    rw [List.dropWhile_cons_of_neg]
    rw [h c rfl]
    simp

/-- Trimming leaves a list without outer white space as it is. -/
theorem trimList_of_clean (l : List Char)
    (hhead : ∀ c, l.head? = some c → Js.isWhiteSpace c = false)
    (hlast : ∀ c, l.getLast? = some c → Js.isWhiteSpace c = false) : Js.trimList l = l := by
  unfold Js.trimList
  rw [trimStartList_of_head l hhead, trimStartList_of_head l.reverse, List.reverse_reverse]
  intro c hc
  rw [List.head?_reverse] at hc
  exact hlast c hc

theorem trimList_ne_nil (l : List Char) (h : ∃ c ∈ l, Js.isWhiteSpace c = false) :
    Js.trimList l ≠ [] := by
  obtain ⟨c, hc, hws⟩ := h
  have h1 : c ∈ Js.trimStartList l := by
    unfold Js.trimStartList
    induction l with
    | nil => simp at hc
    | cons a as ih =>
      by_cases ha : Js.isWhiteSpace a = true
      · rw [List.dropWhile_cons_of_pos ha]
        rcases List.mem_cons.mp hc with rfl | hc
        · rw [hws] at ha; cases ha
        · exact ih hc
      · rw [List.dropWhile_cons_of_neg ha]
        exact hc
  have h2 : c ∈ Js.trimStartList (Js.trimStartList l).reverse := by
    have hr : c ∈ (Js.trimStartList l).reverse := List.mem_reverse.mpr h1
    generalize (Js.trimStartList l).reverse = r at hr
    unfold Js.trimStartList
    induction r with
    | nil => simp at hr
    | cons a as ih =>
      by_cases ha : Js.isWhiteSpace a = true
      · rw [List.dropWhile_cons_of_pos ha]
        rcases List.mem_cons.mp hr with rfl | hr
        · rw [hws] at ha; cases ha
        · exact ih hr
      · rw [List.dropWhile_cons_of_neg ha]
        exact hr
  unfold Js.trimList
  intro hnil
  have : c ∈ (Js.trimStartList (Js.trimStartList l).reverse).reverse := List.mem_reverse.mpr h2
  rw [hnil] at this
  simp at this

/-- The trimmed list does not start with white space. -/
theorem trimList_head (l : List Char) :
    ∀ c, (Js.trimList l).head? = some c → Js.isWhiteSpace c = false := by
  intro c hc
  unfold Js.trimList at hc
  rw [List.head?_reverse] at hc
  -- the last character of a suffix of the reversed list is the head of the list
  have hsuf : (Js.trimStartList (Js.trimStartList l).reverse) <:+ (Js.trimStartList l).reverse :=
    List.dropWhile_suffix _
  obtain ⟨pre, hpre⟩ := hsuf
  have hne : Js.trimStartList (Js.trimStartList l).reverse ≠ [] := by
    intro hnil; rw [hnil] at hc; simp at hc
  have hlast : (Js.trimStartList l).reverse.getLast? = some c := by
    rw [← hpre, List.getLast?_append, hc]; rfl
  rw [List.getLast?_reverse] at hlast
  exact trimStartList_head l c hlast

end Whisper

namespace Whisper

/-! ### Replacing words -/

/-- A character that is no word character ends the word being read. -/
theorem mapWords_nonword (f : List Char → List Char) :
    ∀ (l cur : List Char) (c : Char) (tail : List Char), isWordChar c = false →
      mapWords f cur (l ++ c :: tail) = mapWords f cur l ++ c :: mapWords f [] tail := by
  intro l
  induction l with
  | nil =>
    intro cur c tail hc
    simp only [List.nil_append, mapWords, hc, Bool.false_eq_true, if_false]
  | cons a as ih =>
    intro cur c tail hc
    cases ha : isWordChar a with
    | true =>
      simp only [List.cons_append, mapWords, ha, if_true]
      exact ih (a :: cur) c tail hc
    | false =>
      simp only [List.cons_append, mapWords, ha, Bool.false_eq_true, if_false, List.append_eq]
      rw [ih [] c tail hc]
      simp only [List.append_assoc, List.cons_append]

/-- A run of word characters is replaced as one word. -/
theorem mapWords_word (f : List Char → List Char) :
    ∀ (w cur : List Char), (∀ c ∈ w, isWordChar c = true) →
      mapWords f cur w = if cur.reverse ++ w = [] then [] else f (cur.reverse ++ w) := by
  intro w
  induction w with
  | nil =>
    intro cur _
    simp only [mapWords, List.append_nil, List.reverse_eq_nil_iff, List.isEmpty_iff]
  | cons a as ih =>
    intro cur h
    have ha := h a (List.mem_cons_self _ _)
    simp only [mapWords, ha, if_true]
    rw [ih (a :: cur) (fun x hx => h x (List.mem_cons_of_mem _ hx))]
    simp only [List.reverse_cons, List.append_assoc, List.singleton_append]

theorem mapWords_word_nil (f : List Char → List Char) (w : List Char) (hne : w ≠ [])
    (h : ∀ c ∈ w, isWordChar c = true) : mapWords f [] w = f w := by
  rw [mapWords_word f w [] h]
  simp only [List.reverse_nil, List.nil_append]
  rw [if_neg hne]

/-- Induction on a text read word by word. -/
theorem words_induction (P : List Char → Prop)
    (hword : ∀ w, (∀ c ∈ w, isWordChar c = true) → P w)
    (hstep : ∀ w c tail, (∀ x ∈ w, isWordChar x = true) → isWordChar c = false → P tail →
      P (w ++ c :: tail)) : ∀ l, P l := by
  have key : ∀ n, ∀ l : List Char, l.length = n → P l := by
    intro n
    induction n using Nat.strong_induction_on with
    | _ n ih =>
      intro l hn
      have hsplit := List.takeWhile_append_dropWhile isWordChar l
      have hw : ∀ c ∈ l.takeWhile isWordChar, isWordChar c = true :=
        fun c hc => List.mem_takeWhile_imp hc
      cases hd : l.dropWhile isWordChar with
      | nil =>
        rw [hd, List.append_nil] at hsplit
        rw [← hsplit]
        exact hword _ hw
      | cons c tail =>
        have hc : isWordChar c = false := by
          have := List.head?_dropWhile_not isWordChar l
          rw [hd] at this
          exact this
        rw [hd] at hsplit
        have hlen : tail.length < n := by
          rw [← hn, ← hsplit]
          simp only [List.length_append, List.length_cons]
          omega
        rw [← hsplit]
        exact hstep _ c tail hw hc (ih tail.length hlen tail rfl)
  exact fun l => key l.length l rfl

theorem mapWords_id : ∀ (l cur : List Char), mapWords (fun w => w) cur l = cur.reverse ++ l := by
  intro l
  induction l with
  | nil =>
    intro cur
    cases cur with
    | nil => rfl
    | cons a as => simp [mapWords]
  | cons a as ih =>
    intro cur
    cases ha : isWordChar a with
    | true =>
      simp only [mapWords, ha, if_true]
      rw [ih (a :: cur)]
      simp
    | false =>
      simp only [mapWords, ha, Bool.false_eq_true, if_false]
      rw [ih []]
      cases cur with
      | nil => simp
      | cons b bs => simp

/-- Two replacements one after the other are the replacement by the
composite, when the first one maps a word to a word. -/
theorem mapWords_comp (f1 f2 : List Char → List Char)
    (h1 : ∀ w, w ≠ [] → (∀ c ∈ w, isWordChar c = true) →
      f1 w ≠ [] ∧ ∀ c ∈ f1 w, isWordChar c = true) :
    ∀ l, mapWords f2 [] (mapWords f1 [] l) = mapWords (fun w => f2 (f1 w)) [] l := by
  apply words_induction
  · intro w hw
    by_cases hne : w = []
    · subst hne; rfl
    · rw [mapWords_word_nil f1 w hne hw, mapWords_word_nil _ w hne hw,
        mapWords_word_nil f2 (f1 w) (h1 w hne hw).1 (h1 w hne hw).2]
  · intro w c tail hw hc ih
    rw [mapWords_nonword f1 w [] c tail hc, mapWords_nonword _ w [] c tail hc,
      mapWords_nonword f2 _ [] c _ hc, ih]
    congr 1
    by_cases hne : w = []
    · subst hne; rfl
    · rw [mapWords_word_nil f1 w hne hw, mapWords_word_nil _ w hne hw,
        mapWords_word_nil f2 (f1 w) (h1 w hne hw).1 (h1 w hne hw).2]

/-- The image of a word under a stable replacement. -/
theorem mapWords_stable_word (f : List Char → List Char) (hf : StableFix f) (w : List Char)
    (hw : ∀ c ∈ w, isWordChar c = true) :
    (mapWords f [] w = [] ↔ w = []) ∧ (∀ c ∈ mapWords f [] w, Js.isWhiteSpace c = false) ∧
    mapWords f [] (mapWords f [] w) = mapWords f [] w := by
  by_cases hne : w = []
  · subst hne
    exact ⟨⟨fun _ => rfl, fun _ => rfl⟩, fun c hc => by simp [mapWords] at hc, rfl⟩
  · rw [mapWords_word_nil f w hne hw]
    obtain ⟨h1, h2, h3, _⟩ := hf w hne hw
    exact ⟨⟨fun h => absurd h h1, fun h => absurd h hne⟩, h2, h3⟩

/-- A stable replacement has no effect the second time. -/
theorem mapWords_idem (f : List Char → List Char) (hf : StableFix f) :
    ∀ l, mapWords f [] (mapWords f [] l) = mapWords f [] l := by
  apply words_induction
  · intro w hw
    exact (mapWords_stable_word f hf w hw).2.2
  · intro w c tail hw hc ih
    rw [mapWords_nonword f w [] c tail hc, mapWords_nonword f _ [] c _ hc, ih,
      (mapWords_stable_word f hf w hw).2.2]

theorem mapWords_ne_nil (f : List Char → List Char) (hf : StableFix f) :
    ∀ l, l ≠ [] → mapWords f [] l ≠ [] := by
  apply words_induction
  · intro w hw hne h
    exact hne ((mapWords_stable_word f hf w hw).1.mp h)
  · intro w c tail hw hc _ _
    rw [mapWords_nonword f w [] c tail hc]
    simp

/-- A stable replacement keeps a tidy list tidy. -/
theorem mapWords_tidy (f : List Char → List Char) (hf : StableFix f) :
    ∀ l, ∀ p, tidy p l = true → tidy p (mapWords f [] l) = true := by
  apply words_induction
  · intro w hw p _
    exact tidy_of_no_ws _ p (mapWords_stable_word f hf w hw).2.1
  · intro w c tail hw hc ih p h
    rw [mapWords_nonword f w [] c tail hc]
    have hwws : ∀ x ∈ w, Js.isWhiteSpace x = false := fun x hx => isWordChar_not_ws x (hw x hx)
    rw [tidy_append_no_ws w p _ hwws] at h
    rw [tidy_append_no_ws _ p _ (mapWords_stable_word f hf w hw).2.1]
    have hiff := (mapWords_stable_word f hf w hw).1
    have key : ∀ q, tidy q (c :: tail) = true → tidy q (c :: mapWords f [] tail) = true := by
      intro q hq
      simp only [tidy] at hq ⊢
      split_ifs at hq ⊢ with hws
      · simp only [Bool.and_eq_true] at hq ⊢
        exact ⟨hq.1, ih true hq.2⟩
      · exact ih false hq
    by_cases hne : w = []
    · rw [if_pos hne] at h
      rw [if_pos (hiff.mpr hne)]
      exact key p h
    · rw [if_neg hne] at h
      rw [if_neg (fun hx => hne (hiff.mp hx))]
      exact key false h

theorem capitalizeFirst_append (x y : List Char) (hne : x ≠ []) :
    capitalizeFirst (x ++ y) = capitalizeFirst x ++ y := by
  cases x with
  | nil => exact absurd rfl hne
  | cons a as =>
    simp only [List.cons_append, capitalizeFirst]
    split_ifs <;> rfl

theorem capitalizeFirst_idem (l : List Char) :
    capitalizeFirst (capitalizeFirst l) = capitalizeFirst l := by
  cases l with
  | nil => rfl
  | cons a as =>
    cases ha : isWordChar a with
    | true =>
      have h := toUpperAscii_word a ha
      simp only [capitalizeFirst, ha, if_true, h.1, h.2]
    | false => simp only [capitalizeFirst, ha, Bool.false_eq_true, if_false]

theorem capitalizeFirst_tidy (l : List Char) (h : tidy true l = true) :
    tidy true (capitalizeFirst l) = true := by
  cases l with
  | nil => rfl
  | cons a as =>
    cases ha : isWordChar a with
    | true =>
      have hup := isWordChar_not_ws _ (toUpperAscii_word a ha).1
      have hws := isWordChar_not_ws a ha
      simp only [tidy, hws, Bool.false_eq_true, if_false] at h
      simp only [capitalizeFirst, ha, if_true, tidy, hup, Bool.false_eq_true, if_false]
      exact h
    | false =>
      simp only [capitalizeFirst, ha, Bool.false_eq_true, if_false]
      exact h

theorem capitalizeFirst_ne_nil (l : List Char) (h : l ≠ []) : capitalizeFirst l ≠ [] := by
  cases l with
  | nil => exact absurd rfl h
  | cons a as =>
    simp only [capitalizeFirst]
    split_ifs <;> simp

/-- A stable replacement keeps the first character capitalized. -/
theorem mapWords_capitalized (f : List Char → List Char) (hf : StableFix f) :
    ∀ l, capitalizeFirst l = l → capitalizeFirst (mapWords f [] l) = mapWords f [] l := by
  apply words_induction
  · intro w hw hcap
    by_cases hne : w = []
    · subst hne; rfl
    · rw [mapWords_word_nil f w hne hw]
      exact (hf w hne hw).2.2.2 hcap
  · intro w c tail hw hc _ hcap
    rw [mapWords_nonword f w [] c tail hc]
    by_cases hne : w = []
    · subst hne
      simp only [mapWords, List.isEmpty_nil, if_true, List.nil_append, capitalizeFirst, hc,
        Bool.false_eq_true, if_false]
    · rw [capitalizeFirst_append w _ hne] at hcap
      have hw2 := List.append_cancel_right hcap
      rw [mapWords_word_nil f w hne hw]
      rw [capitalizeFirst_append _ _ (hf w hne hw).1, (hf w hne hw).2.2.2 hw2]

end Whisper

namespace Whisper

/-- A word that the replacement leaves as it is. -/
theorem stable_of_fixed (f : List Char → List Char) (w : List Char) (hne : w ≠ [])
    (hw : ∀ c ∈ w, isWordChar c = true) (hfw : f w = w) :
    f w ≠ [] ∧ (∀ c ∈ f w, Js.isWhiteSpace c = false) ∧ mapWords f [] (f w) = f w ∧
    (capitalizeFirst w = w → capitalizeFirst (f w) = f w) := by
  rw [hfw]
  exact ⟨hne, fun c hc => isWordChar_not_ws c (hw c hc),
    by rw [mapWords_word_nil f w hne hw, hfw], fun h => h⟩

/-- The replacements of every language are stable. -/
theorem wordFix_stable (language : String) : StableFix (wordFix language) := by
  intro w hne hw
  by_cases hen : language = "en"
  · subst hen
    by_cases hi : w = ['i']
    · subst hi; decide
    · by_cases him : w.map toUpperAscii = ['I', 'M']
      · have hfw : wordFix "en" w = "I'm".data := by
          simp only [wordFix, if_true, if_neg hi, if_pos him]
        rw [hfw]
        exact ⟨by decide, by decide, by decide, fun _ => by decide⟩
      · apply stable_of_fixed _ w hne hw
        simp only [wordFix, if_true, if_neg hi, if_neg him]
  · by_cases hes : language = "es"
    · subst hes
      by_cases hq : w = ['q']
      · subst hq; decide
      · apply stable_of_fixed _ w hne hw
        simp only [wordFix, if_neg hen, if_true, if_neg hq]
    · by_cases hfr : language = "fr"
      · subst hfr
        by_cases hje : w = ['j', 'e']
        · subst hje; decide
        · apply stable_of_fixed _ w hne hw
          simp only [wordFix, if_neg hen, if_neg hes, if_true, if_neg hje]
      · apply stable_of_fixed _ w hne hw
        simp only [wordFix, if_neg hen, if_neg hes, if_neg hfr]

/-- The last character after the step that ensures the ending. -/
theorem ensureEnding_last (l : List Char) :
    (l = [] → ensureEnding l = []) ∧
    (l ≠ [] → ∃ c, (ensureEnding l).getLast? = some c ∧ (c = '.' ∨ c = '!' ∨ c = '?')) ∧
    (ensureEnding l = l ∨ (l ≠ [] ∧ ensureEnding l = l ++ ['.'])) := by
  unfold ensureEnding
  cases hl : l.getLast? with
  | none =>
    have hnil : l = [] := List.getLast?_eq_none_iff.mp hl
    subst hnil
    exact ⟨fun _ => rfl, fun h => absurd rfl h, Or.inl rfl⟩
  | some c =>
    have hne : l ≠ [] := by
      intro h; subst h; simp at hl
    simp only
    by_cases hc : c = '.' ∨ c = '!' ∨ c = '?'
    · rw [if_pos hc]
      exact ⟨fun h => absurd h hne, fun _ => ⟨c, hl, hc⟩, Or.inl rfl⟩
    · rw [if_neg hc]
      exact ⟨fun h => absurd h hne, fun _ => ⟨'.', List.getLast?_concat l, Or.inl rfl⟩,
        Or.inr ⟨hne, rfl⟩⟩

theorem ensureEnding_idem (l : List Char) : ensureEnding (ensureEnding l) = ensureEnding l := by
  by_cases hne : l = []
  · subst hne; rfl
  · obtain ⟨c, hc, hdot⟩ := (ensureEnding_last l).2.1 hne
    generalize ensureEnding l = y at hc ⊢
    unfold ensureEnding
    rw [hc]
    simp only [if_pos hdot]

/-- The replacements of a language are the replacement of words by `wordFix`. -/
theorem languageFix_eq (language : String) (l : List Char) :
    languageFix language l = mapWords (wordFix language) [] l := by
  unfold languageFix
  by_cases hen : language = "en"
  · subst hen
    rw [if_pos rfl, mapWords_comp]
    · congr 1
    · intro w hne hw
      by_cases hi : w = ['i']
      · subst hi; exact ⟨by decide, by decide⟩
      · simp only [if_neg hi]
        exact ⟨hne, hw⟩
  · by_cases hes : language = "es"
    · subst hes
      rw [if_neg hen, if_pos rfl]
      congr 1
    · by_cases hfr : language = "fr"
      · subst hfr
        rw [if_neg hen, if_neg hes, if_pos rfl]
        congr 1
      · rw [if_neg hen, if_neg hes, if_neg hfr]
        have hid : wordFix language = fun w => w := by
          funext w
          simp only [wordFix, if_neg hen, if_neg hes, if_neg hfr]
        rw [hid, mapWords_id]
        rfl

/-- The function `postProcessTranscription` as the composition of its steps. -/
theorem postProcessTranscription_data (text language : String) :
    (postProcessTranscription text language).data =
      ensureEnding (mapWords (wordFix language) []
        (capitalizeFirst (collapseWhiteSpace (Js.trimList text.data) false))) := by
  rw [← languageFix_eq]
  have h : postProcessTranscription text language =
      match (languageFix language
        (capitalizeFirst (collapseWhiteSpace (Js.trimList text.data) false))).getLast? with
      | some c =>
        if c = '.' ∨ c = '!' ∨ c = '?' then
          ⟨languageFix language (capitalizeFirst (collapseWhiteSpace (Js.trimList text.data) false))⟩
        else
          ⟨languageFix language (capitalizeFirst (collapseWhiteSpace (Js.trimList text.data) false))
            ++ ['.']⟩
      | none =>
        ⟨languageFix language (capitalizeFirst (collapseWhiteSpace (Js.trimList text.data) false))⟩ :=
    rfl
  rw [h]
  unfold ensureEnding
  cases (languageFix language
    (capitalizeFirst (collapseWhiteSpace (Js.trimList text.data) false))).getLast? with
  | none => rfl
  | some c =>
    simp only
    split_ifs <;> rfl

/-- What the steps before the ending give: a tidy list with a capitalized
first character that the replacements leave as it is. -/
theorem postProcess_steps (l : List Char) (language : String) :
    tidy true (mapWords (wordFix language) []
      (capitalizeFirst (collapseWhiteSpace (Js.trimList l) false))) = true ∧
    capitalizeFirst (mapWords (wordFix language) []
      (capitalizeFirst (collapseWhiteSpace (Js.trimList l) false))) =
      mapWords (wordFix language) []
        (capitalizeFirst (collapseWhiteSpace (Js.trimList l) false)) ∧
    mapWords (wordFix language) [] (mapWords (wordFix language) []
      (capitalizeFirst (collapseWhiteSpace (Js.trimList l) false))) =
      mapWords (wordFix language) []
        (capitalizeFirst (collapseWhiteSpace (Js.trimList l) false)) ∧
    ((∃ c ∈ l, Js.isWhiteSpace c = false) →
      mapWords (wordFix language) []
        (capitalizeFirst (collapseWhiteSpace (Js.trimList l) false)) ≠ []) := by
  have hf := wordFix_stable language
  have h1 := collapseWhiteSpace_tidy_head (Js.trimList l) (trimList_head l)
  have h2 := capitalizeFirst_tidy _ h1
  refine ⟨mapWords_tidy _ hf _ true h2, mapWords_capitalized _ hf _ (capitalizeFirst_idem _),
    mapWords_idem _ hf _, ?_⟩
  intro hex
  exact mapWords_ne_nil _ hf _ (capitalizeFirst_ne_nil _
    (collapseWhiteSpace_ne_nil _ (trimList_ne_nil l hex) (trimList_head l)))

/-- The steps of the post-processing leave a processed list as it is. -/
theorem postProcess_fixed (x : List Char) (language : String) (htidy : tidy true x = true)
    (hcap : capitalizeFirst x = x)
    (hfix : mapWords (wordFix language) [] x = x) :
    ensureEnding (mapWords (wordFix language) []
      (capitalizeFirst (collapseWhiteSpace (Js.trimList (ensureEnding x)) false))) =
      ensureEnding x := by
  obtain ⟨hnil, hlast, hshape⟩ := ensureEnding_last x
  have hdot : Js.isWhiteSpace '.' = false := by decide
  -- the list with its ending is tidy
  have ht : tidy true (ensureEnding x) = true := by
    rcases hshape with h | ⟨_, h⟩
    · rw [h]; exact htidy
    · rw [h]; exact tidy_append_char x true '.' hdot htidy
  have hlastws : ∀ c, (ensureEnding x).getLast? = some c → Js.isWhiteSpace c = false := by
    intro c hc
    by_cases hne : x = []
    · rw [hnil hne] at hc; simp at hc
    · obtain ⟨d, hd, hdd⟩ := hlast hne
      rw [hd] at hc
      simp only [Option.some.injEq] at hc
      subst hc
      rcases hdd with rfl | rfl | rfl <;> decide
  have hc2 : capitalizeFirst (ensureEnding x) = ensureEnding x := by
    rcases hshape with h | ⟨hne, h⟩
    · rw [h]; exact hcap
    · rw [h, capitalizeFirst_append x _ hne, hcap]
  have hf2 : mapWords (wordFix language) [] (ensureEnding x) = ensureEnding x := by
    rcases hshape with h | ⟨_, h⟩
    · rw [h]; exact hfix
    · rw [h, mapWords_nonword _ x [] '.' [] (by decide), hfix]
      rfl
  rw [trimList_of_clean _ (tidy_head _ ht) hlastws,
    collapseWhiteSpace_of_tidy _ true false ht (fun h => by cases h), hc2, hf2,
    ensureEnding_idem]

end Whisper

/-- C25: for every text with at least one character that is no white space
and every language, the text returned by `postProcessTranscription` starts
with a character that is no white space, ends with '.', '!' or '?', and each
of its runs of white space is a single space. -/
theorem postProcessTranscription_shape (text language : String)
    (h : ∃ c ∈ text.data, Js.isWhiteSpace c = false) :
    (∃ c, (Whisper.postProcessTranscription text language).data.head? = some c ∧
      Js.isWhiteSpace c = false) ∧
    (∃ c, (Whisper.postProcessTranscription text language).data.getLast? = some c ∧
      (c = '.' ∨ c = '!' ∨ c = '?')) ∧
    SingleSpaced (Whisper.postProcessTranscription text language).data := by
  rw [Whisper.postProcessTranscription_data]
  obtain ⟨htidy, _, _, hne⟩ := Whisper.postProcess_steps text.data language
  have hne := hne h
  generalize Whisper.mapWords (Whisper.wordFix language) []
    (Whisper.capitalizeFirst (Whisper.collapseWhiteSpace (Js.trimList text.data) false)) = x
    at htidy hne
  obtain ⟨_, hlast, hshape⟩ := Whisper.ensureEnding_last x
  have ht : Whisper.tidy true (Whisper.ensureEnding x) = true := by
    rcases hshape with h | ⟨_, h⟩
    · rw [h]; exact htidy
    · rw [h]; exact Whisper.tidy_append_char x true '.' (by decide) htidy
  refine ⟨?_, hlast hne, Whisper.tidy_singleSpaced _ true ht⟩
  obtain ⟨c, hc, _⟩ := hlast hne
  cases hx : Whisper.ensureEnding x with
  | nil => rw [hx] at hc; simp at hc
  | cons a as =>
    rw [hx] at ht
    exact ⟨a, rfl, Whisper.tidy_head _ ht a rfl⟩

/-- Witness of C25: a transcription with outer and repeated white space, for en. -/
theorem postProcessTranscription_shape_witness :
    Whisper.postProcessTranscription "  i  think\tim late " "en" = "I think I'm late." ∧
    SingleSpaced (Whisper.postProcessTranscription "  i  think\tim late " "en").data :=
  ⟨by decide,
   (postProcessTranscription_shape "  i  think\tim late " "en" ⟨'i', by decide, by decide⟩).2.2⟩

/-- C30: `postProcessTranscription` is idempotent: for every text and every
language, applying it to its own result returns that result. -/
theorem postProcessTranscription_idempotent (text language : String) :
    Whisper.postProcessTranscription (Whisper.postProcessTranscription text language) language =
      Whisper.postProcessTranscription text language := by
  apply String.ext
  rw [Whisper.postProcessTranscription_data (Whisper.postProcessTranscription text language),
    Whisper.postProcessTranscription_data text language]
  obtain ⟨htidy, hcap, hfix, _⟩ := Whisper.postProcess_steps text.data language
  exact Whisper.postProcess_fixed _ language htidy hcap hfix
